import Mathlib

/-!
# todo_app_go: repository, cache, service and handler

A shallow embedding of the layered todo service
(`internal/models/todo.go`, `internal/cache/redis.go`, `internal/events/kafka.go`,
`internal/services/todo_service.go`, `internal/handlers/todo_handler.go`).

The SQL store, the Redis server and the Kafka topic are external to the Go code.
They are modelled as explicit state (`DB`, `Redis`, the `topic` of a `World`), and
every call that crosses the boundary can fail: the outcome of each such call during
one operation is read from an `Env`.  Go results `(*T, error)` are `Except Error (Option T)`
when the source can return `(nil, nil)`, and `Except Error T` when it cannot.

Operations run one at a time.  Logging and the duration histograms are left out; the
counters are kept.  Strings are sequences of Unicode characters, so a task is always
valid UTF-8, as every task decoded from a JSON body is.
-/

set_option autoImplicit false

namespace TodoApp

/-! ## Data model (`internal/models/todo.go`) -/

/-- An instant, in nanoseconds.  `0` is the zero `time.Time`. -/
abbrev Time := Nat

/-- A Go `error` value, identified by its message. -/
abbrev Error := String

/-- The struct `models.Todo`. -/
structure Todo where
  ID : Int
  Task : String
  Completed : Bool
  CreatedAt : Time
  UpdatedAt : Time
deriving DecidableEq, Repr

/-- A Go slice of todos: `none` is the nil slice (JSON `null`). -/
abbrev TodoSlice := Option (List Todo)

/-- The Go expression `append(todos, todo)`. -/
def appendTodo (todos : TodoSlice) (todo : Todo) : TodoSlice :=
  match todos with
  | none => some [todo]
  | some l => some (l ++ [todo])

/-- The struct `models.TodoCreateRequest`. -/
structure TodoCreateRequest where
  Task : String
deriving DecidableEq, Repr

/-- The struct `models.TodoUpdateRequest`: a nil pointer is `none`. -/
structure TodoUpdateRequest where
  Task : Option String
  Completed : Option Bool
deriving DecidableEq, Repr

/-! ## Environment of one operation -/

/-- What the outside world answers during one operation: the clock readings and, for
every kind of external call, the failure it reports (`none`: the call goes through).
No operation of the program makes two external calls of the same kind. -/
structure Env where
  /-- The reading of `time.Now()` inside the repository. -/
  now : Time
  /-- The reading of `time.Now()` inside the event constructors. -/
  eventNow : Time
  /-- Failure of `db.Exec`. -/
  execErr : Option Error
  /-- Failure of `result.LastInsertId`. -/
  lastInsertIdErr : Option Error
  /-- Failure of `db.QueryRow(...).Scan` or `db.Query` other than `sql.ErrNoRows`. -/
  queryErr : Option Error
  /-- Failure of the Redis `GET` other than `redis.Nil`. -/
  cacheGetErr : Option Error
  /-- Failure of the Redis `SET`. -/
  cacheSetErr : Option Error
  /-- Failure of the Redis `DEL` of a per-id key. -/
  cacheDelErr : Option Error
  /-- Failure of the Redis `DEL` of the list key. -/
  cacheInvalidateErr : Option Error
  /-- Failure of the Kafka `WriteMessages`. -/
  publishErr : Option Error
deriving DecidableEq, Repr

/-- An environment in which every external call goes through. -/
def Env.ok (now eventNow : Time) : Env :=
  { now := now, eventNow := eventNow, execErr := none, lastInsertIdErr := none,
    queryErr := none, cacheGetErr := none, cacheSetErr := none, cacheDelErr := none,
    cacheInvalidateErr := none, publishErr := none }

/-! ## The SQL store -/

/-- The largest `int64`. -/
def maxInt64 : Int := 9223372036854775807

/-- The table `todos` (`id INTEGER PRIMARY KEY AUTOINCREMENT`), rows in rowid order,
together with the largest rowid ever issued (SQLite keeps it in `sqlite_sequence`). -/
structure DB where
  rows : List Todo
  seq : Int
deriving DecidableEq, Repr

/-- The largest id among the rows, at least `lo`. -/
def maxRowid (lo : Int) : List Todo → Int
  | [] => lo
  | t :: ts => maxRowid (max lo t.ID) ts

/-- The rowid `AUTOINCREMENT` gives the next row: one more than the largest rowid that
ever existed in the table. -/
def DB.nextID (db : DB) : Int :=
  maxRowid db.seq db.rows + 1

/-- The errors of `database/sql` the repository tells apart. -/
inductive SqlError where
  /-- The sentinel `sql.ErrNoRows`. -/
  | ErrNoRows
  /-- Any other error. -/
  | other (e : Error)
deriving DecidableEq, Repr

/-- The statement
`INSERT INTO todos (task, completed, created_at, updated_at) VALUES (?, ?, ?, ?)`:
the new database and the rowid of the inserted row.  SQLite refuses the insert
(`SQLITE_FULL`) once the largest rowid has been issued. -/
def DB.execInsert (db : DB) (env : Env) (task : String) (completed : Bool)
    (createdAt updatedAt : Time) : Except Error (DB × Int) :=
  match env.execErr with
  | some e => .error e
  | none =>
    if maxInt64 < db.nextID then .error "database or disk is full"
    else
      let id := db.nextID
      .ok ({ rows := db.rows ++ [{ ID := id, Task := task, Completed := completed,
                                   CreatedAt := createdAt, UpdatedAt := updatedAt }],
             seq := id }, id)

/-- The query `SELECT id, task, completed, created_at, updated_at FROM todos WHERE id = ?`
read with `QueryRow(...).Scan`: the first matching row, or `sql.ErrNoRows`. -/
def DB.queryRow (db : DB) (env : Env) (id : Int) : Except SqlError Todo :=
  match env.queryErr with
  | some e => .error (.other e)
  | none =>
    match db.rows.find? (fun t => t.ID == id) with
    | none => .error .ErrNoRows
    | some t => .ok t

/-- The statement `UPDATE todos SET task = ?, completed = ?, updated_at = ? WHERE id = ?`. -/
def DB.execUpdate (db : DB) (env : Env) (task : String) (completed : Bool)
    (updatedAt : Time) (id : Int) : Except Error DB :=
  match env.execErr with
  | some e => .error e
  | none =>
    .ok { db with rows := db.rows.map (fun t =>
            if t.ID == id then
              { t with Task := task, Completed := completed, UpdatedAt := updatedAt }
            else t) }

/-- The statement `UPDATE todos SET completed = ?, updated_at = ? WHERE id = ?`. -/
def DB.execUpdateStatus (db : DB) (env : Env) (completed : Bool) (updatedAt : Time)
    (id : Int) : Except Error DB :=
  match env.execErr with
  | some e => .error e
  | none =>
    .ok { db with rows := db.rows.map (fun t =>
            if t.ID == id then { t with Completed := completed, UpdatedAt := updatedAt }
            else t) }

/-- The statement `DELETE FROM todos WHERE id = ?`. -/
def DB.execDelete (db : DB) (env : Env) (id : Int) : Except Error DB :=
  match env.execErr with
  | some e => .error e
  | none => .ok { db with rows := db.rows.filter (fun t => !(t.ID == id)) }

/-- The order of `ORDER BY created_at DESC`: `a` may come before `b`. -/
def newerFirst (a b : Todo) : Prop :=
  b.CreatedAt ≤ a.CreatedAt

instance newerFirst.decidable : DecidableRel newerFirst :=
  fun a b => inferInstanceAs (Decidable (b.CreatedAt ≤ a.CreatedAt))

/-- The query
`SELECT id, task, completed, created_at, updated_at FROM todos ORDER BY created_at DESC`
read with `rows.Next` and `rows.Scan`: every row, newest creation first, rows of equal
creation time in rowid order.  The stored datetimes are compared as instants, and
`rows.Next` is taken to yield every row of the result (the source does not consult
`rows.Err`, and an iteration cut short by the driver is not modelled). -/
def DB.queryAll (db : DB) (env : Env) : Except Error (List Todo) :=
  match env.queryErr with
  | some e => .error e
  | none => .ok (db.rows.insertionSort newerFirst)

/-! ## `SQLiteTodoRepository` -/

namespace SQLiteTodoRepository

/-- `SQLiteTodoRepository.Create`. -/
def Create (db : DB) (env : Env) (task : String) : DB × Except Error Todo :=
  let now := env.now
  match db.execInsert env task false now now with
  | .error err => (db, .error err)
  | .ok (db1, id) =>
    match env.lastInsertIdErr with
    | some err => (db1, .error err)
    | none =>
      (db1, .ok { ID := id, Task := task, Completed := false,
                  CreatedAt := now, UpdatedAt := now })

/-- `SQLiteTodoRepository.GetByID`: `.ok none` is the Go result `(nil, nil)`. -/
def GetByID (db : DB) (env : Env) (id : Int) : Except Error (Option Todo) :=
  match db.queryRow env id with
  | .error .ErrNoRows => .ok none
  | .error (.other err) => .error err
  | .ok todo => .ok (some todo)

/-- `SQLiteTodoRepository.GetAll`: the slice starts nil and grows by one `append` per
row, so it is nil when the table is empty. -/
def GetAll (db : DB) (env : Env) : Except Error TodoSlice :=
  match db.queryAll env with
  | .error err => .error err
  | .ok rows => .ok (rows.foldl appendTodo none)

/-- `SQLiteTodoRepository.Update`. -/
def Update (db : DB) (env : Env) (id : Int) (req : TodoUpdateRequest) :
    DB × Except Error (Option Todo) :=
  match GetByID db env id with
  | .error err => (db, .error err)
  | .ok none => (db, .ok none)
  | .ok (some todo) =>
    let todo := match req.Task with
      | some task => { todo with Task := task }
      | none => todo
    let todo := match req.Completed with
      | some completed => { todo with Completed := completed }
      | none => todo
    let todo := { todo with UpdatedAt := env.now }
    match db.execUpdate env todo.Task todo.Completed todo.UpdatedAt id with
    | .error err => (db, .error err)
    | .ok db1 => (db1, .ok (some todo))

/-- `SQLiteTodoRepository.UpdateStatus`: `none` is a nil error. -/
def UpdateStatus (db : DB) (env : Env) (id : Int) (completed : Bool) : DB × Option Error :=
  match db.execUpdateStatus env completed env.now id with
  | .error err => (db, some err)
  | .ok db1 => (db1, none)

/-- `SQLiteTodoRepository.Delete`: `none` is a nil error. -/
def Delete (db : DB) (env : Env) (id : Int) : DB × Option Error :=
  match db.execDelete env id with
  | .error err => (db, some err)
  | .ok db1 => (db1, none)

end SQLiteTodoRepository

/-! ## The Redis cache (`internal/cache/redis.go`) -/

/-- A Go `time.Duration`, in nanoseconds. -/
abbrev Duration := Nat

/-- The constant `time.Minute`. -/
def Minute : Duration := 60 * 1000000000

/-- The contents of the Redis server.  The value under a key is the JSON text
`json.Marshal` produced; it is kept here as the value `json.Unmarshal` reads back from
that text (the same ID, Task, Completed and instants), together with the expiration it
was stored with.  The passing of time is not modelled: an entry stays until it is
overwritten or deleted. -/
structure Redis where
  /-- The keys `todo:<id>`. -/
  todo : List (Int × Todo × Duration)
  /-- The key `todos:all`. -/
  all : Option (TodoSlice × Duration)
deriving DecidableEq, Repr

/-- Redis `GET todo:<id>`. -/
def Redis.get (r : Redis) (id : Int) : Option Todo :=
  match r.todo.find? (fun e => e.1 == id) with
  | none => none
  | some e => some e.2.1

/-- Redis `SET todo:<id> data EX expiration`. -/
def Redis.set (r : Redis) (id : Int) (data : Todo) (expiration : Duration) : Redis :=
  { r with todo := (id, data, expiration) :: r.todo.filter (fun e => !(e.1 == id)) }

/-- Redis `DEL todo:<id>`. -/
def Redis.del (r : Redis) (id : Int) : Redis :=
  { r with todo := r.todo.filter (fun e => !(e.1 == id)) }

/-! ## Events (`internal/events/kafka.go`) -/

/-- The struct `events.TodoEvent`; the field `Type` is `Type_` here, `Type` being
reserved. -/
structure TodoEvent where
  Type_ : String
  TodoID : Int
  Timestamp : Time
  Payload : Todo
deriving DecidableEq, Repr

/-- `events.CreateTodoCreatedEvent`. -/
def CreateTodoCreatedEvent (env : Env) (todo : Todo) : TodoEvent :=
  { Type_ := "created", TodoID := todo.ID, Timestamp := env.eventNow, Payload := todo }

/-- `events.CreateTodoUpdatedEvent`. -/
def CreateTodoUpdatedEvent (env : Env) (todo : Todo) : TodoEvent :=
  { Type_ := "updated", TodoID := todo.ID, Timestamp := env.eventNow, Payload := todo }

/-- `events.CreateTodoDeletedEvent`: the payload is `models.Todo{ID: todoID}`. -/
def CreateTodoDeletedEvent (env : Env) (todoID : Int) : TodoEvent :=
  { Type_ := "deleted", TodoID := todoID, Timestamp := env.eventNow,
    Payload := { ID := todoID, Task := "", Completed := false, CreatedAt := 0, UpdatedAt := 0 } }

/-! ## The world the service acts on -/

/-- One call that leaves the service, as it is issued. -/
inductive Call where
  | repoCreate (task : String)
  | repoGetByID (id : Int)
  | repoGetAll
  | repoUpdate (id : Int) (req : TodoUpdateRequest)
  | repoDelete (id : Int)
  | cacheGetTodo (id : Int)
  | cacheSetTodo (todo : Todo) (expiration : Duration)
  | cacheDeleteTodo (id : Int)
  | cacheGetTodos
  | cacheSetTodos (todos : TodoSlice) (expiration : Duration)
  | cacheInvalidateTodos
  | publishTodoEvent (event : TodoEvent)
deriving DecidableEq, Repr

/-- One increment of a Prometheus counter: its name and label values. -/
structure Tick where
  name : String
  labels : List String
deriving DecidableEq, Repr

/-- Everything outside the service: the store, the cache contents, the messages written
to the Kafka topic, and two logs kept for observation, the calls issued (oldest first)
and the counter increments (oldest first). -/
structure World where
  db : DB
  redis : Redis
  topic : List TodoEvent
  calls : List Call
  counters : List Tick
deriving DecidableEq, Repr

/-- Log a call. -/
def World.call (w : World) (c : Call) : World :=
  { w with calls := w.calls ++ [c] }

/-- Increment a counter: `X.WithLabelValues(labels...).Inc()`. -/
def World.inc (w : World) (name : String) (labels : List String) : World :=
  { w with counters := w.counters ++ [{ name := name, labels := labels }] }

/-- The expression `metrics.TodoOperationsTotal.WithLabelValues(op, status).Inc()`. -/
def World.opTotal (w : World) (op status : String) : World :=
  w.inc "todo_operations_total" [op, status]

namespace RedisCache

/-- `RedisCache.GetTodo`: `.ok none` is the miss `(nil, nil)` returned on `redis.Nil`. -/
def GetTodo (w : World) (env : Env) (id : Int) : World × Except Error (Option Todo) :=
  let w := w.call (.cacheGetTodo id)
  match env.cacheGetErr with
  | some err => (w, .error err)
  | none =>
    match w.redis.get id with
    | none => (w.inc "cache_misses_total" [], .ok none)
    | some todo => (w.inc "cache_hits_total" [], .ok (some todo))

/-- `RedisCache.SetTodo`. -/
def SetTodo (w : World) (env : Env) (todo : Todo) (expiration : Duration) :
    World × Option Error :=
  let w := w.call (.cacheSetTodo todo expiration)
  match env.cacheSetErr with
  | some err => (w, some err)
  | none => ({ w with redis := w.redis.set todo.ID todo expiration }, none)

/-- `RedisCache.DeleteTodo`. -/
def DeleteTodo (w : World) (env : Env) (id : Int) : World × Option Error :=
  let w := w.call (.cacheDeleteTodo id)
  match env.cacheDelErr with
  | some err => (w, some err)
  | none => ({ w with redis := w.redis.del id }, none)

/-- `RedisCache.GetTodos`: `.ok none` is the miss `(nil, nil)` returned on `redis.Nil`,
and also what a stored JSON `null` unmarshals to. -/
def GetTodos (w : World) (env : Env) : World × Except Error TodoSlice :=
  let w := w.call .cacheGetTodos
  match env.cacheGetErr with
  | some err => (w, .error err)
  | none =>
    match w.redis.all with
    | none => (w.inc "cache_misses_total" [], .ok none)
    | some data => (w.inc "cache_hits_total" [], .ok data.1)

/-- `RedisCache.SetTodos`. -/
def SetTodos (w : World) (env : Env) (todos : TodoSlice) (expiration : Duration) :
    World × Option Error :=
  let w := w.call (.cacheSetTodos todos expiration)
  match env.cacheSetErr with
  | some err => (w, some err)
  | none => ({ w with redis := { w.redis with all := some (todos, expiration) } }, none)

/-- `RedisCache.InvalidateTodos`. -/
def InvalidateTodos (w : World) (env : Env) : World × Option Error :=
  let w := w.call .cacheInvalidateTodos
  match env.cacheInvalidateErr with
  | some err => (w, some err)
  | none => ({ w with redis := { w.redis with all := none } }, none)

end RedisCache

namespace KafkaProducer

/-- `KafkaProducer.PublishTodoEvent`. -/
def PublishTodoEvent (w : World) (env : Env) (event : TodoEvent) : World × Option Error :=
  let w := w.call (.publishTodoEvent event)
  match env.publishErr with
  | some err => (w, some ("failed to publish event: " ++ err))
  | none =>
    ({ w with topic := w.topic ++ [event] }.inc "kafka_messages_published_total" [], none)

end KafkaProducer

/-! ## `TodoService` (`internal/services/todo_service.go`) -/

/-- The struct `services.TodoService`.  The fields say whether the `cache` and the
`producer` pointers are non-nil; the repository is the SQLite repository over the
world's store. -/
structure TodoService where
  cache : Bool
  producer : Bool
deriving DecidableEq, Repr

namespace TodoService

/-- The repository call `s.repo.Create`, on the world. -/
def repoCreate (w : World) (env : Env) (task : String) : World × Except Error Todo :=
  let w := w.call (.repoCreate task)
  let r := SQLiteTodoRepository.Create w.db env task
  ({ w with db := r.1 }, r.2)

/-- The repository call `s.repo.GetByID`, on the world. -/
def repoGetByID (w : World) (env : Env) (id : Int) : World × Except Error (Option Todo) :=
  let w := w.call (.repoGetByID id)
  (w, SQLiteTodoRepository.GetByID w.db env id)

/-- The repository call `s.repo.GetAll`, on the world. -/
def repoGetAll (w : World) (env : Env) : World × Except Error TodoSlice :=
  let w := w.call .repoGetAll
  (w, SQLiteTodoRepository.GetAll w.db env)

/-- The repository call `s.repo.Update`, on the world. -/
def repoUpdate (w : World) (env : Env) (id : Int) (req : TodoUpdateRequest) :
    World × Except Error (Option Todo) :=
  let w := w.call (.repoUpdate id req)
  let r := SQLiteTodoRepository.Update w.db env id req
  ({ w with db := r.1 }, r.2)

/-- The repository call `s.repo.Delete`, on the world. -/
def repoDelete (w : World) (env : Env) (id : Int) : World × Option Error :=
  let w := w.call (.repoDelete id)
  let r := SQLiteTodoRepository.Delete w.db env id
  ({ w with db := r.1 }, r.2)

/-- The block `if s.cache != nil` of `CreateTodo` and `UpdateTodo`: store the entity
for 30 minutes, then drop the cached list; both errors are only logged. -/
def cacheStore (s : TodoService) (w : World) (env : Env) (todo : Todo) : World :=
  if s.cache then
    let w := (RedisCache.SetTodo w env todo (30 * Minute)).1
    (RedisCache.InvalidateTodos w env).1
  else w

/-- The block `if s.producer != nil`: publish the event; the error is only logged. -/
def publish (s : TodoService) (w : World) (env : Env) (event : TodoEvent) : World :=
  if s.producer then (KafkaProducer.PublishTodoEvent w env event).1 else w

/-- `TodoService.CreateTodo`. -/
def CreateTodo (s : TodoService) (w : World) (env : Env) (req : TodoCreateRequest) :
    World × Except Error Todo :=
  match repoCreate w env req.Task with
  | (w, .error err) => (w.opTotal "create" "error", .error err)
  | (w, .ok todo) =>
    let w := cacheStore s w env todo
    let w := publish s w env (CreateTodoCreatedEvent env todo)
    (w.opTotal "create" "success", .ok todo)

/-- `TodoService.GetTodo`. -/
def GetTodo (s : TodoService) (w : World) (env : Env) (id : Int) :
    World × Except Error (Option Todo) :=
  let fromRepo (w : World) : World × Except Error (Option Todo) :=
    match repoGetByID w env id with
    | (w, .error err) => (w.opTotal "get" "error", .error err)
    | (w, .ok none) => (w.opTotal "get" "not_found", .ok none)
    | (w, .ok (some todo)) =>
      let w := if s.cache then (RedisCache.SetTodo w env todo (30 * Minute)).1 else w
      (w.opTotal "get" "success", .ok (some todo))
  if s.cache then
    match RedisCache.GetTodo w env id with
    | (w, .ok (some todo)) => (w.opTotal "get" "cache_hit", .ok (some todo))
    | (w, _) => fromRepo w
  else fromRepo w

/-- `TodoService.GetAllTodos`: a cached list counts as a hit only when it is non-nil. -/
def GetAllTodos (s : TodoService) (w : World) (env : Env) : World × Except Error TodoSlice :=
  let fromRepo (w : World) : World × Except Error TodoSlice :=
    match repoGetAll w env with
    | (w, .error err) => (w.opTotal "get_all" "error", .error err)
    | (w, .ok todos) =>
      let w := if s.cache then (RedisCache.SetTodos w env todos (5 * Minute)).1 else w
      (w.opTotal "get_all" "success", .ok todos)
  if s.cache then
    match RedisCache.GetTodos w env with
    | (w, .ok (some todos)) => (w.opTotal "get_all" "cache_hit", .ok (some todos))
    | (w, _) => fromRepo w
  else fromRepo w

/-- `TodoService.UpdateTodo`. -/
def UpdateTodo (s : TodoService) (w : World) (env : Env) (id : Int)
    (req : TodoUpdateRequest) : World × Except Error (Option Todo) :=
  match repoUpdate w env id req with
  | (w, .error err) => (w.opTotal "update" "error", .error err)
  | (w, .ok none) => (w.opTotal "update" "not_found", .ok none)
  | (w, .ok (some todo)) =>
    let w := cacheStore s w env todo
    let w := publish s w env (CreateTodoUpdatedEvent env todo)
    (w.opTotal "update" "success", .ok (some todo))

/-- `TodoService.DeleteTodo`: `none` is a nil error. -/
def DeleteTodo (s : TodoService) (w : World) (env : Env) (id : Int) : World × Option Error :=
  match repoDelete w env id with
  | (w, some err) => (w.opTotal "delete" "error", some err)
  | (w, none) =>
    let w :=
      if s.cache then
        let w := (RedisCache.DeleteTodo w env id).1
        (RedisCache.InvalidateTodos w env).1
      else w
    let w := publish s w env (CreateTodoDeletedEvent env id)
    (w.opTotal "delete" "success", none)

end TodoService

/-! ## `strconv.ParseInt(s, 10, 64)` (Go standard library) -/

/-- The largest `uint64`. -/
def maxUint64 : Nat := 18446744073709551615

/-- The two errors of `strconv`. -/
inductive NumError where
  /-- The sentinel `strconv.ErrSyntax`. -/
  | ErrSyntax
  /-- The sentinel `strconv.ErrRange`. -/
  | ErrRange
deriving DecidableEq, Repr

/-- The loop of `strconv.ParseUint` for base 10 and bit size 64, from the accumulator
`n`: a byte that is not a decimal digit is a syntax error; `n >= cutoff`
(`cutoff = maxUint64/10 + 1`) or a wrapping `n*10 + d` is a range error, reported at
once. -/
def parseUintLoop : List Char → Nat → Except NumError Nat
  | [], n => .ok n
  | c :: cs, n =>
    if 48 ≤ c.toNat ∧ c.toNat ≤ 57 then
      let d := c.toNat - 48
      if n ≥ maxUint64 / 10 + 1 then .error .ErrRange
      else
        let n := n * 10
        let n1 := (n + d) % 2 ^ 64
        if n1 < n ∨ n1 > maxUint64 then .error .ErrRange
        else parseUintLoop cs n1
    else .error .ErrSyntax

/-- `strconv.ParseUint(s, 10, 64)`, on the characters of `s`. -/
def ParseUint (s : List Char) : Except NumError Nat :=
  if s = [] then .error .ErrSyntax else parseUintLoop s 0

/-- `strconv.ParseInt(s, 10, 64)`, on the characters of `s`: a leading sign is picked
off, the rest is read unsigned, and the range is checked against `cutoff = 1 << 63`. -/
def ParseIntChars (s : List Char) : Except NumError Int :=
  match s with
  | [] => .error .ErrSyntax
  | c :: cs =>
    let neg := c == '-'
    let rest := if c == '+' then cs else if c == '-' then cs else c :: cs
    match ParseUint rest with
    | .error .ErrSyntax => .error .ErrSyntax
    | .error .ErrRange => .error .ErrRange
    | .ok un =>
      let cutoff : Nat := 2 ^ 63
      if !neg ∧ un ≥ cutoff then .error .ErrRange
      else if neg ∧ un > cutoff then .error .ErrRange
      else if neg then .ok (-(un : Int)) else .ok (un : Int)

/-- `strconv.ParseInt(s, 10, 64)`. -/
def ParseInt (s : String) : Except NumError Int :=
  ParseIntChars s.toList

/-! ## Request binding and validation -/

/-- What `encoding/json` finds in a JSON object for one field of the target struct. -/
inductive Field (α : Type) where
  /-- The object has no such member. -/
  | missing
  /-- The member is JSON `null`: the field is left untouched. -/
  | null
  /-- The member has a value of the field's type. -/
  | value (a : α)
  /-- The member has a value of another JSON type: an `UnmarshalTypeError`. -/
  | mistyped (err : Error)
deriving DecidableEq, Repr

/-- A request body as the JSON decoder sees it. -/
inductive Body where
  /-- The body is not a JSON object (malformed, empty, or of another type). -/
  | invalid (err : Error)
  /-- A JSON object: its members `task` and `completed`; other members are ignored. -/
  | object (task : Field String) (completed : Field Bool)
deriving DecidableEq, Repr

/-- The call `c.ShouldBindJSON(&req)` for `req : models.TodoCreateRequest`. -/
def ShouldBindJSONCreate : Body → Except Error TodoCreateRequest
  | .invalid err => .error err
  | .object (.mistyped err) _ => .error err
  | .object (.value task) _ => .ok { Task := task }
  | .object .missing _ => .ok { Task := "" }
  | .object .null _ => .ok { Task := "" }

/-- Decoding one member into a pointer field. -/
def Field.toPtr {α : Type} : Field α → Except Error (Option α)
  | .mistyped err => .error err
  | .value a => .ok (some a)
  | .missing => .ok none
  | .null => .ok none

/-- The call `c.ShouldBindJSON(&req)` for `req : models.TodoUpdateRequest`. -/
def ShouldBindJSONUpdate : Body → Except Error TodoUpdateRequest
  | .invalid err => .error err
  | .object task completed =>
    match task.toPtr, completed.toPtr with
    | .error err, _ => .error err
    | .ok _, .error err => .error err
    | .ok task, .ok completed => .ok { Task := task, Completed := completed }

/-- The message of a validator field error. -/
def fieldError (ns field tag : String) : Error :=
  "Key: \x27" ++ ns ++ "\x27 Error:Field validation for \x27" ++ field ++
    "\x27 failed on the \x27" ++ tag ++ "\x27 tag"

/-- The call `h.validate.Struct(req)` for the tag `validate:"required,min=1,max=500"` of
`TodoCreateRequest.Task`; lengths are counted in runes. -/
def validateCreate (req : TodoCreateRequest) : Option Error :=
  if req.Task = "" then some (fieldError "TodoCreateRequest.Task" "Task" "required")
  else if req.Task.length < 1 then some (fieldError "TodoCreateRequest.Task" "Task" "min")
  else if req.Task.length > 500 then some (fieldError "TodoCreateRequest.Task" "Task" "max")
  else none

/-- The call `h.validate.Struct(req)` for the tag `validate:"omitempty,min=1,max=500"` of
`TodoUpdateRequest.Task`: a nil pointer is skipped, a non-nil pointer is checked on the
string it points to (the empty one included, as `TestUpdateTodo_ValidationError` expects). -/
def validateUpdate (req : TodoUpdateRequest) : Option Error :=
  match req.Task with
  | none => none
  | some task =>
    if task.length < 1 then some (fieldError "TodoUpdateRequest.Task" "Task" "min")
    else if task.length > 500 then some (fieldError "TodoUpdateRequest.Task" "Task" "max")
    else none

/-! ## `TodoHandler` (`internal/handlers/todo_handler.go`) -/

/-- What a handler reads from the `*gin.Context`. -/
structure Context where
  /-- The field `c.Request.Method`. -/
  Method : String
  /-- The value of `c.FullPath()`. -/
  FullPath : String
  /-- The value of `c.Param("id")`. -/
  id : String
  /-- The request body. -/
  body : Body
deriving DecidableEq, Repr

/-- The struct `handlers.ErrorResponse`; an empty `Details` is omitted from the JSON. -/
structure ErrorResponse where
  Error : String
  Details : String
deriving DecidableEq, Repr

/-- The JSON written to the response. -/
inductive Payload where
  /-- Nothing was written (`c.Status`). -/
  | empty
  | todo (t : Todo)
  | todos (l : TodoSlice)
  | error (e : ErrorResponse)
deriving DecidableEq, Repr

/-- The status code and the body of the response. -/
structure Response where
  status : Nat
  body : Payload
deriving DecidableEq, Repr

namespace TodoHandler

/-- `TodoHandler.handleError`: the error itself is only logged. -/
def handleError (w : World) (c : Context) (statusCode : Nat) (message : String) :
    World × Response :=
  (w.inc "http_requests_total" [c.Method, c.FullPath, toString statusCode],
   { status := statusCode, body := .error { Error := message, Details := "" } })

/-- `TodoHandler.handleValidationError`. -/
def handleValidationError (w : World) (c : Context) (err : Error) : World × Response :=
  (w.inc "http_requests_total" [c.Method, c.FullPath, "400"],
   { status := 400, body := .error { Error := "Validation failed", Details := err } })

/-- `TodoHandler.CreateTodo`. -/
def CreateTodo (s : TodoService) (w : World) (env : Env) (c : Context) : World × Response :=
  match ShouldBindJSONCreate c.body with
  | .error err => handleValidationError w c err
  | .ok req =>
    match validateCreate req with
    | some err => handleValidationError w c err
    | none =>
      match s.CreateTodo w env req with
      | (w, .error _) => handleError w c 500 "Failed to create todo"
      | (w, .ok todo) => (w, { status := 201, body := .todo todo })

/-- `TodoHandler.GetTodo`. -/
def GetTodo (s : TodoService) (w : World) (env : Env) (c : Context) : World × Response :=
  match ParseInt c.id with
  | .error _ => handleError w c 400 "Invalid todo ID"
  | .ok id =>
    match s.GetTodo w env id with
    | (w, .error _) => handleError w c 500 "Failed to get todo"
    | (w, .ok none) =>
      (w, { status := 404, body := .error { Error := "Todo not found", Details := "" } })
    | (w, .ok (some todo)) => (w, { status := 200, body := .todo todo })

/-- `TodoHandler.GetAllTodos`. -/
def GetAllTodos (s : TodoService) (w : World) (env : Env) (c : Context) : World × Response :=
  match s.GetAllTodos w env with
  | (w, .error _) => handleError w c 500 "Failed to get todos"
  | (w, .ok todos) => (w, { status := 200, body := .todos todos })

/-- `TodoHandler.UpdateTodo`. -/
def UpdateTodo (s : TodoService) (w : World) (env : Env) (c : Context) : World × Response :=
  match ParseInt c.id with
  | .error _ => handleError w c 400 "Invalid todo ID"
  | .ok id =>
    match ShouldBindJSONUpdate c.body with
    | .error err => handleValidationError w c err
    | .ok req =>
      match validateUpdate req with
      | some err => handleValidationError w c err
      | none =>
        match s.UpdateTodo w env id req with
        | (w, .error _) => handleError w c 500 "Failed to update todo"
        | (w, .ok none) =>
          (w, { status := 404, body := .error { Error := "Todo not found", Details := "" } })
        | (w, .ok (some todo)) => (w, { status := 200, body := .todo todo })

/-- `TodoHandler.DeleteTodo`. -/
def DeleteTodo (s : TodoService) (w : World) (env : Env) (c : Context) : World × Response :=
  match ParseInt c.id with
  | .error _ => handleError w c 400 "Invalid todo ID"
  | .ok id =>
    match s.DeleteTodo w env id with
    | (w, some _) => handleError w c 500 "Failed to delete todo"
    | (w, none) => (w, { status := 204, body := .empty })

end TodoHandler

/-! ## Auxiliary definitions for the statements -/

/-- What the cache answers to the service's lookup: an entry only when a cache is
configured, the lookup goes through and the key is present. -/
def cacheLookup (s : TodoService) (w : World) (env : Env) (id : Int) : Option Todo :=
  if s.cache = true ∧ env.cacheGetErr = none then w.redis.get id else none

/-- What the cache answers to the service's lookup of the list: a list only when a cache
is configured, the lookup goes through and the key holds a non-nil list. -/
def listLookup (s : TodoService) (w : World) (env : Env) : Option (List Todo) :=
  if s.cache = true ∧ env.cacheGetErr = none then
    match w.redis.all with
    | some (some l, _) => some l
    | _ => none
  else none

/-- A decimal digit `0`..`9`. -/
def isDecimalDigit (c : Char) : Bool :=
  decide (48 ≤ c.toNat ∧ c.toNat ≤ 57)

/-- The number written by a string of decimal digits, most significant first, with
`n` written before it. -/
def digitsValue (n : Nat) (ds : List Char) : Nat :=
  ds.foldl (fun n c => 10 * n + (c.toNat - 48)) n

/-- The integer written by the digits `ds` under a sign: `none` unless `ds` is one or
more decimal digits. -/
def signedDigits (neg : Bool) (ds : List Char) : Option Int :=
  if ds ≠ [] ∧ ds.all isDecimalDigit = true then
    some (if neg then -(digitsValue 0 ds : Int) else (digitsValue 0 ds : Int))
  else none

/-- The integer a text denotes in base 10, as the specification reads an id: an
optional sign `+` or `-` followed by one or more decimal digits; `none` when the text
is not of that form. -/
def decimalInt (s : String) : Option Int :=
  match s.toList with
  | [] => none
  | c :: cs =>
    if c = '-' then signedDigits true cs
    else if c = '+' then signedDigits false cs
    else signedDigits false (c :: cs)

/-- The least `int64`. -/
def minInt64 : Int := -9223372036854775808

/-- The text is a base-10 integer that fits a signed 64-bit value. -/
def IsInt64Text (s : String) : Prop :=
  ∃ n : Int, decimalInt s = some n ∧ minInt64 ≤ n ∧ n ≤ maxInt64

/-- Every id held by the store or by the cache has been issued by the store: it is at
most the largest rowid ever issued. -/
def World.Issued (w : World) : Prop :=
  (∀ t ∈ w.db.rows, t.ID ≤ w.db.seq) ∧ (∀ e ∈ w.redis.todo, e.1 ≤ w.db.seq)

/-- The slice `GetAll` returns for the store when its query goes through. -/
def DB.allTodos (db : DB) : TodoSlice :=
  (db.rows.insertionSort newerFirst).foldl appendTodo none

/-- Every stored todo was created no later than it was last updated, and last updated
no later than the clock reading `clock`. -/
def DB.TimesOrdered (db : DB) (clock : Time) : Prop :=
  ∀ t ∈ db.rows, t.CreatedAt ≤ t.UpdatedAt ∧ t.UpdatedAt ≤ clock

/-- One operation of the service, with its arguments. -/
inductive Op where
  | create (req : TodoCreateRequest)
  | get (id : Int)
  | getAll
  | update (id : Int) (req : TodoUpdateRequest)
  | delete (id : Int)
deriving DecidableEq, Repr

/-- What an operation of the service returns to its caller. -/
inductive Outcome where
  | create (r : Except Error Todo)
  | get (r : Except Error (Option Todo))
  | getAll (r : Except Error TodoSlice)
  | update (r : Except Error (Option Todo))
  | delete (r : Option Error)
deriving Repr

/-- Run one operation of the service. -/
def TodoService.step (s : TodoService) (w : World) (env : Env) : Op → World × Outcome
  | .create req => ((s.CreateTodo w env req).1, .create (s.CreateTodo w env req).2)
  | .get id => ((s.GetTodo w env id).1, .get (s.GetTodo w env id).2)
  | .getAll => ((s.GetAllTodos w env).1, .getAll (s.GetAllTodos w env).2)
  | .update id req => ((s.UpdateTodo w env id req).1, .update (s.UpdateTodo w env id req).2)
  | .delete id => ((s.DeleteTodo w env id).1, .delete (s.DeleteTodo w env id).2)

/-- Run a sequence of operations, each in its own environment, one after the other:
the results in order. -/
def TodoService.run (s : TodoService) (w : World) : List (Env × Op) → List Outcome
  | [] => []
  | (env, op) :: rest => (s.step w env op).2 :: TodoService.run s (s.step w env op).1 rest

/-- The cache agrees with the store: an entry under an id is the row the store holds
under that id, and a cached non-nil list is the list `GetAll` returns. -/
def World.Coherent (w : World) : Prop :=
  (∀ id t, w.redis.get id = some t → w.db.rows.find? (fun x => x.ID == id) = some t) ∧
  (∀ l ttl, w.redis.all = some (some l, ttl) → w.db.allTodos = some l)

/-- An environment in which the cache can follow the store: no read of the store fails,
`LastInsertId` does not fail, and no cache write, cache delete or list invalidation
fails.  Cache lookups, the publisher and `db.Exec` may fail. -/
def Env.CacheFollows (env : Env) : Prop :=
  env.queryErr = none ∧ env.lastInsertIdErr = none ∧ env.cacheSetErr = none ∧
  env.cacheDelErr = none ∧ env.cacheInvalidateErr = none

/-- The world a sequence of operations leaves, each run in its own environment, one
after the other. -/
def TodoService.runWorld (s : TodoService) (w : World) : List (Env × Op) → World
  | [] => w
  | (env, op) :: rest => TodoService.runWorld s (s.step w env op).1 rest

/-- The cache agrees with the store, the nil list included: an entry under an id is the
row the store holds under that id, and whatever the list key holds is the slice `GetAll`
returns. -/
def World.CacheAgrees (w : World) : Prop :=
  (∀ id t, w.redis.get id = some t → w.db.rows.find? (fun x => x.ID == id) = some t) ∧
  (∀ d ttl, w.redis.all = some (d, ttl) → w.db.allTodos = d)

/-- An environment in which the cache keeps up with every write of the store: no cache
write, cache delete or list invalidation fails, and `LastInsertId` reports the rowid of
the insert.  Cache lookups, the publisher, the queries and `db.Exec` may fail. -/
def Env.CacheKeepsUp (env : Env) : Prop :=
  env.cacheSetErr = none ∧ env.cacheDelErr = none ∧ env.cacheInvalidateErr = none ∧
  env.lastInsertIdErr = none

/-- The error `CreateTodo` of the handler finds in the request body, if any: the error of
`ShouldBindJSON`, else the error of `validate.Struct`.  It is read from the body alone. -/
def createBodyError (body : Body) : Option Error :=
  match ShouldBindJSONCreate body with
  | .error err => some err
  | .ok req => validateCreate req

/-- The error `UpdateTodo` of the handler finds in the request body, if any: the error of
`ShouldBindJSON`, else the error of `validate.Struct`.  It is read from the body alone. -/
def updateBodyError (body : Body) : Option Error :=
  match ShouldBindJSONUpdate body with
  | .error err => some err
  | .ok req => validateUpdate req

/-- The shape of a response as far as errors go.  A response that carries an
`ErrorResponse` has a non-empty `error` and is one of: 400 `"Validation failed"` with the
error found in the request body as details; 400 `"Invalid todo ID"`, 404
`"Todo not found"` or 500 with the message `failed`, each without details.  Any other
response has a status below 400. -/
def ErrorShape (r : Response) (bodyError : Option Error) (failed : String) : Prop :=
  match r.body with
  | .error e =>
    e.Error ≠ "" ∧
    ((r.status = 400 ∧ e.Error = "Validation failed" ∧ bodyError = some e.Details) ∨
     (r.status = 400 ∧ e = { Error := "Invalid todo ID", Details := "" }) ∨
     (r.status = 404 ∧ e = { Error := "Todo not found", Details := "" }) ∨
     (r.status = 500 ∧ e = { Error := failed, Details := "" }))
  | _ => r.status < 400

/-- The increment of `todo_operations_total` for the outcome `cache_hit` of `get_all`. -/
def getAllCacheHit : Tick :=
  { name := "todo_operations_total", labels := ["get_all", "cache_hit"] }

/-- A world with an empty store, an empty cache and an empty topic. -/
def emptyWorld : World :=
  { db := { rows := [], seq := 0 }, redis := { todo := [], all := none }, topic := [],
    calls := [], counters := [] }

/-- The world reached from the empty one by a service with a cache that creates a todo
(it gets id 1) and then deletes it while the Redis `DEL` fails. -/
def staleWorld : World :=
  let s : TodoService := { cache := true, producer := false }
  let w1 := (s.CreateTodo emptyWorld (Env.ok 5 6) { Task := "a" }).1
  (s.DeleteTodo w1 { Env.ok 7 8 with cacheDelErr := some "connection refused" } 1).1

/-- The world after a service with a cache and a producer has created `"buy milk"` in
the empty world at instant 10: the todo has id 1 and is in the store and in the cache. -/
def createdWorld : World :=
  (TodoService.CreateTodo { cache := true, producer := true } emptyWorld (Env.ok 10 11)
    { Task := "buy milk" }).1

/-- A store holding todo 1 created at instant 10 and todo 2 created at instant 20. -/
def twoTodoDB : DB :=
  { rows := [{ ID := 1, Task := "buy milk", Completed := false,
               CreatedAt := 10, UpdatedAt := 10 },
             { ID := 2, Task := "walk the dog", Completed := true,
               CreatedAt := 20, UpdatedAt := 25 }],
    seq := 2 }

/-- A store holding the single todo 1, `"buy milk"`, created at instant 10. -/
def oneTodoDB : DB :=
  { rows := [{ ID := 1, Task := "buy milk", Completed := false,
               CreatedAt := 10, UpdatedAt := 10 }],
    seq := 1 }

/-- A task of `n` characters. -/
def taskOfLength (n : Nat) : String :=
  String.mk (List.replicate n 'x')

/-- A request context for the route `/api/v1/todos/:id`. -/
def sampleContext (method id : String) (body : Body) : Context :=
  { Method := method, FullPath := "/api/v1/todos/:id", id := id, body := body }

/-! # Theorems -/

/-! ## Lemmas on the store -/

theorem le_maxRowid (rows : List Todo) (lo : Int) :
    lo ≤ maxRowid lo rows ∧ ∀ t ∈ rows, t.ID ≤ maxRowid lo rows := by
  induction rows generalizing lo with
  | nil => simp [maxRowid]
  | cons r rs ih =>
    obtain ⟨h1, h2⟩ := ih (max lo r.ID)
    refine ⟨le_trans (le_max_left _ _) h1, ?_⟩
    intro t ht
    rcases List.mem_cons.mp ht with rfl | ht
    · exact le_trans (le_max_right _ _) h1
    · exact h2 t ht

theorem id_lt_nextID (db : DB) (t : Todo) (ht : t ∈ db.rows) : t.ID < db.nextID := by
  have := (le_maxRowid db.rows db.seq).2 t ht
  unfold DB.nextID
  omega

theorem find_none_of_absent (rows : List Todo) (id : Int) (h : ∀ t ∈ rows, t.ID ≠ id) :
    rows.find? (fun t => t.ID == id) = none := by
  rw [List.find?_eq_none]
  intro t ht
  simpa using h t ht

theorem find_nextID (db : DB) : db.rows.find? (fun t => t.ID == db.nextID) = none := by
  apply find_none_of_absent
  intro t ht
  exact ne_of_lt (id_lt_nextID db t ht)

theorem filter_absent (rows : List Todo) (id : Int) (h : ∀ t ∈ rows, t.ID ≠ id) :
    rows.filter (fun t => !(t.ID == id)) = rows := by
  rw [List.filter_eq_self]
  intro t ht
  simpa using h t ht

theorem find_filter_self (rows : List Todo) (id : Int) :
    (rows.filter (fun t => !(t.ID == id))).find? (fun t => t.ID == id) = none := by
  rw [List.find?_eq_none]
  intro t ht
  have := (List.mem_filter.mp ht).2
  simpa using this

/-! ## Lemmas on the cache and the world -/

theorem Redis.get_set (r : Redis) (id : Int) (d : Todo) (ttl : Duration) :
    (r.set id d ttl).get id = some d := by
  simp [Redis.set, Redis.get]

theorem Redis.get_del (r : Redis) (id : Int) : (r.del id).get id = none := by
  have h : (r.todo.filter (fun e => !(e.1 == id))).find? (fun e => e.1 == id) = none := by
    rw [List.find?_eq_none]
    intro e he
    have := (List.mem_filter.mp he).2
    simpa using this
  simp [Redis.del, Redis.get, h]

theorem Redis.get_all_irrelevant (r : Redis) (a : Option (TodoSlice × Duration)) (id : Int) :
    Redis.get { r with all := a } id = r.get id := rfl

theorem cacheStore_db (s : TodoService) (w : World) (env : Env) (todo : Todo) :
    (TodoService.cacheStore s w env todo).db = w.db := by
  unfold TodoService.cacheStore RedisCache.SetTodo RedisCache.InvalidateTodos World.call
  cases s.cache <;> cases env.cacheSetErr <;> cases env.cacheInvalidateErr <;> rfl

theorem cacheStore_topic (s : TodoService) (w : World) (env : Env) (todo : Todo) :
    (TodoService.cacheStore s w env todo).topic = w.topic := by
  unfold TodoService.cacheStore RedisCache.SetTodo RedisCache.InvalidateTodos World.call
  cases s.cache <;> cases env.cacheSetErr <;> cases env.cacheInvalidateErr <;> rfl

theorem cacheStore_get (s : TodoService) (w : World) (env : Env) (todo : Todo) :
    (TodoService.cacheStore s w env todo).redis.get todo.ID =
      if s.cache = true ∧ env.cacheSetErr = none then some todo else w.redis.get todo.ID := by
  unfold TodoService.cacheStore RedisCache.SetTodo RedisCache.InvalidateTodos World.call
  cases s.cache <;> cases env.cacheSetErr <;> cases env.cacheInvalidateErr <;>
    simp [Redis.get_set, Redis.get_all_irrelevant]

theorem publish_db (s : TodoService) (w : World) (env : Env) (e : TodoEvent) :
    (TodoService.publish s w env e).db = w.db := by
  unfold TodoService.publish KafkaProducer.PublishTodoEvent World.call World.inc
  cases s.producer <;> cases env.publishErr <;> rfl

theorem publish_redis (s : TodoService) (w : World) (env : Env) (e : TodoEvent) :
    (TodoService.publish s w env e).redis = w.redis := by
  unfold TodoService.publish KafkaProducer.PublishTodoEvent World.call World.inc
  cases s.producer <;> cases env.publishErr <;> rfl

/-- The result of `CreateTodo` is the result of the repository's `Create`. -/
theorem CreateTodo_result (s : TodoService) (w : World) (env : Env) (req : TodoCreateRequest) :
    (s.CreateTodo w env req).2 = (SQLiteTodoRepository.Create w.db env req.Task).2 := by
  unfold TodoService.CreateTodo TodoService.repoCreate
  simp only [World.call]
  cases h : (SQLiteTodoRepository.Create w.db env req.Task).2 <;> simp [h]

/-- The result of `GetTodo` is the cache entry when the lookup yields one, and the
repository's answer otherwise. -/
theorem GetTodo_result (s : TodoService) (w : World) (env : Env) (id : Int) :
    (s.GetTodo w env id).2 =
      match cacheLookup s w env id with
      | some t => .ok (some t)
      | none => SQLiteTodoRepository.GetByID w.db env id := by
  unfold TodoService.GetTodo cacheLookup TodoService.repoGetByID RedisCache.GetTodo
  simp only [World.call]
  cases hc : s.cache <;> cases hg : env.cacheGetErr <;> simp
  all_goals first
    | (cases hq : SQLiteTodoRepository.GetByID w.db env id with
       | error e => simp
       | ok o => cases o <;> simp)
    | (cases hr : w.redis.get id with
       | some t => simp [World.inc]
       | none =>
         simp only [World.inc]
         cases hq : SQLiteTodoRepository.GetByID w.db env id with
         | error e => simp
         | ok o => cases o <;> simp)

theorem Create_ok (db : DB) (env : Env) (task : String) (todo : Todo)
    (h : (SQLiteTodoRepository.Create db env task).2 = .ok todo) :
    todo = { ID := db.nextID, Task := task, Completed := false,
             CreatedAt := env.now, UpdatedAt := env.now } ∧
    (SQLiteTodoRepository.Create db env task).1.rows = db.rows ++ [todo] := by
  unfold SQLiteTodoRepository.Create DB.execInsert at h ⊢
  cases he : env.execErr <;> simp [he] at h ⊢
  by_cases hf : maxInt64 < db.nextID <;> simp [hf] at h ⊢
  cases hl : env.lastInsertIdErr <;> simp [hl] at h ⊢
  subst h
  exact ⟨rfl, rfl⟩

theorem CreateTodo_world (s : TodoService) (w w1 : World) (env : Env)
    (req : TodoCreateRequest) (todo : Todo)
    (h : s.CreateTodo w env req = (w1, .ok todo)) :
    (SQLiteTodoRepository.Create w.db env req.Task).2 = .ok todo ∧
    w1.db = (SQLiteTodoRepository.Create w.db env req.Task).1 ∧
    w1.redis.get todo.ID =
      if s.cache = true ∧ env.cacheSetErr = none then some todo else w.redis.get todo.ID := by
  have hres := CreateTodo_result s w env req
  rw [h] at hres
  refine ⟨hres.symm, ?_⟩
  unfold TodoService.CreateTodo TodoService.repoCreate at h
  simp only [World.call] at h
  rw [← hres] at h
  simp only [Prod.mk.injEq, Except.ok.injEq, and_true] at h
  subst h
  simp [World.opTotal, World.inc, publish_db, publish_redis, cacheStore_db, cacheStore_get]

/-! ## `ParseInt` reads base-10 integers -/

theorem le_digitsValue (ds : List Char) (n : Nat) : n ≤ digitsValue n ds := by
  induction ds generalizing n with
  | nil => simp [digitsValue]
  | cons c cs ih =>
    have := ih (10 * n + (c.toNat - 48))
    simp only [digitsValue, List.foldl_cons] at this ⊢
    omega

theorem parseUintLoop_ok (cs : List Char) (n m : Nat) (hn : n ≤ maxUint64) :
    parseUintLoop cs n = .ok m ↔
      cs.all isDecimalDigit = true ∧ digitsValue n cs = m ∧ m ≤ maxUint64 := by
  induction cs generalizing n with
  | nil =>
    simp only [parseUintLoop, digitsValue, List.all_nil, List.foldl_nil, Except.ok.injEq,
      true_and]
    constructor
    · rintro rfl; exact ⟨rfl, hn⟩
    · rintro ⟨h, _⟩; exact h
  | cons c cs ih =>
    unfold parseUintLoop
    by_cases hd : 48 ≤ c.toNat ∧ c.toNat ≤ 57
    · have hdig : isDecimalDigit c = true := by simp [isDecimalDigit, hd]
      simp only [hd, and_self, if_true, List.all_cons, hdig, Bool.true_and]
      have hstep : digitsValue n (c :: cs) = digitsValue (10 * n + (c.toNat - 48)) cs := rfl
      have hmono := le_digitsValue cs (10 * n + (c.toNat - 48))
      unfold maxUint64 at hn ⊢
      by_cases hcut : n ≥ 18446744073709551615 / 10 + 1
      · simp only [hcut, if_true]
        constructor
        · intro h; cases h
        · rintro ⟨_, h1, h2⟩
          rw [hstep] at h1
          omega
      · simp only [hcut, if_false]
        by_cases hov : (n * 10 + (c.toNat - 48)) % 2 ^ 64 < n * 10 ∨
            (n * 10 + (c.toNat - 48)) % 2 ^ 64 > 18446744073709551615
        · simp only [hov, if_true]
          constructor
          · intro h; cases h
          · rintro ⟨_, h1, h2⟩
            rw [hstep] at h1
            omega
        · simp only [hov, if_false]
          have hval : (n * 10 + (c.toNat - 48)) % 2 ^ 64 = 10 * n + (c.toNat - 48) := by
            omega
          rw [hval, hstep]
          have := ih (10 * n + (c.toNat - 48)) (by unfold maxUint64; omega)
          unfold maxUint64 at this
          exact this
    · have hdig : isDecimalDigit c = false := by simp [isDecimalDigit, hd]
      simp only [hd, if_false, List.all_cons, hdig, Bool.false_and]
      constructor
      · intro h; cases h
      · rintro ⟨h, _⟩; cases h

theorem ParseUint_ok (ds : List Char) (m : Nat) :
    ParseUint ds = .ok m ↔
      ds ≠ [] ∧ ds.all isDecimalDigit = true ∧ digitsValue 0 ds = m ∧ m ≤ maxUint64 := by
  unfold ParseUint
  by_cases h : ds = []
  · simp [h]
  · simp only [h, if_false, ne_eq, not_false_eq_true, true_and]
    exact parseUintLoop_ok ds 0 m (by unfold maxUint64; omega)

theorem ParseUint_signed (neg : Bool) (ds : List Char) (n : Int) :
    (match ParseUint ds with
      | .error .ErrSyntax => (.error .ErrSyntax : Except NumError Int)
      | .error .ErrRange => .error .ErrRange
      | .ok un =>
        if !neg ∧ un ≥ 2 ^ 63 then .error .ErrRange
        else if neg ∧ un > 2 ^ 63 then .error .ErrRange
        else if neg then .ok (-(un : Int)) else .ok (un : Int)) = .ok n ↔
    signedDigits neg ds = some n ∧ minInt64 ≤ n ∧ n ≤ maxInt64 := by
  cases hp : ParseUint ds with
  | error e =>
    have hno : ∀ m, ¬ (ds ≠ [] ∧ ds.all isDecimalDigit = true ∧ digitsValue 0 ds = m ∧
        m ≤ maxUint64) := by
      intro m hm
      rw [← ParseUint_ok, hp] at hm
      cases hm
    cases e
    all_goals
      simp only [false_iff, not_and, reduceCtorEq]
      intro hs
      unfold signedDigits at hs
      split_ifs at hs with h1 h2
      · simp only [Option.some.injEq] at hs
        have := hno (digitsValue 0 ds)
        unfold maxUint64 at this
        unfold minInt64 maxInt64
        intro h3 h4
        apply this
        refine ⟨h1.1, h1.2, rfl, ?_⟩
        omega
      · simp only [Option.some.injEq] at hs
        have := hno (digitsValue 0 ds)
        unfold maxUint64 at this
        unfold minInt64 maxInt64
        intro h3 h4
        apply this
        refine ⟨h1.1, h1.2, rfl, ?_⟩
        omega
  | ok un =>
    obtain ⟨h1, h2, h3, h4⟩ := (ParseUint_ok ds un).mp hp
    unfold signedDigits minInt64 maxInt64
    simp only [h1, h2, ne_eq, not_false_eq_true, and_self, if_true, h3, Option.some.injEq]
    cases neg
    · simp only [Bool.not_false, true_and, Bool.false_eq_true, false_and, if_false]
      by_cases hr : un ≥ 2 ^ 63
      · simp only [hr, if_true, reduceCtorEq, false_iff]
        omega
      · simp only [hr, if_false, Except.ok.injEq]
        omega
    · simp only [Bool.not_true, Bool.false_eq_true, false_and, if_false, true_and, if_true]
      by_cases hr : un > 2 ^ 63
      · simp only [hr, if_true, reduceCtorEq, false_iff]
        omega
      · simp only [hr, if_false, Except.ok.injEq]
        omega

/-- `ParseInt` accepts exactly the base-10 texts of the integers that fit an `int64`,
and returns the integer written. -/
theorem ParseInt_ok (s : String) (n : Int) :
    ParseInt s = .ok n ↔ decimalInt s = some n ∧ minInt64 ≤ n ∧ n ≤ maxInt64 := by
  unfold ParseInt ParseIntChars decimalInt
  cases s.toList with
  | nil => simp
  | cons c cs =>
    by_cases hm : c = '-'
    · subst hm
      have := ParseUint_signed true cs n
      simpa using this
    · by_cases hp : c = '+'
      · subst hp
        have := ParseUint_signed false cs n
        simpa using this
      · have := ParseUint_signed false (c :: cs) n
        simpa [hm, hp] using this

/-! ## Lemmas on the repository and the service -/

theorem GetByID_absent (db : DB) (env : Env) (id : Int) (habsent : ∀ t ∈ db.rows, t.ID ≠ id) :
    SQLiteTodoRepository.GetByID db env id =
      match env.queryErr with
      | none => .ok none
      | some e => .error e := by
  unfold SQLiteTodoRepository.GetByID DB.queryRow
  rw [find_none_of_absent db.rows id habsent]
  cases env.queryErr <;> rfl

theorem GetByID_fail (db : DB) (env : Env) (id : Int) (e : Error) (h : env.queryErr = some e) :
    SQLiteTodoRepository.GetByID db env id = .error e := by
  unfold SQLiteTodoRepository.GetByID DB.queryRow
  rw [h]

theorem cacheLookup_none (s : TodoService) (w : World) (env : Env) (id : Int)
    (h : s.cache = false ∨ env.cacheGetErr ≠ none ∨ w.redis.get id = none) :
    cacheLookup s w env id = none := by
  unfold cacheLookup
  rcases h with h | h | h
  · simp [h]
  · simp [h]
  · simp [h]

/-- The todo `Update` builds from the stored row `t` and the request. -/
theorem Update_found (db : DB) (env : Env) (id : Int) (req : TodoUpdateRequest) (t : Todo)
    (hfound : db.rows.find? (fun x => x.ID == id) = some t) (hread : env.queryErr = none) :
    SQLiteTodoRepository.Update db env id req =
      match db.execUpdate env (req.Task.getD t.Task) (req.Completed.getD t.Completed)
          env.now id with
      | .error err => (db, .error err)
      | .ok db1 =>
        (db1, .ok (some { t with Task := req.Task.getD t.Task,
                                 Completed := req.Completed.getD t.Completed,
                                 UpdatedAt := env.now })) := by
  unfold SQLiteTodoRepository.Update SQLiteTodoRepository.GetByID DB.queryRow
  rw [hread, hfound]
  cases req.Task <;> cases req.Completed <;> rfl

theorem find_map_update (rows : List Todo) (id : Int) (f : Todo → Todo)
    (hf : ∀ x, (f x).ID = x.ID) (t : Todo)
    (hfound : rows.find? (fun x => x.ID == id) = some t) :
    (rows.map (fun x => if x.ID == id then f x else x)).find? (fun x => x.ID == id) =
      some (f t) := by
  induction rows with
  | nil => simp at hfound
  | cons r rs ih =>
    by_cases hr : r.ID = id
    · have hr1 : (r.ID == id) = true := by simpa using hr
      have hr2 : ((f r).ID == id) = true := by rw [hf]; exact hr1
      simp only [List.find?_cons, hr1, Option.some.injEq] at hfound
      subst hfound
      simp only [List.map_cons, hr1, if_true, List.find?_cons, hr2]
    · have hr1 : (r.ID == id) = false := by simpa using hr
      simp only [List.find?_cons, hr1] at hfound
      simp only [List.map_cons, hr1, Bool.false_eq_true, if_false, List.find?_cons]
      exact ih hfound

theorem Update_read_fails (db : DB) (env : Env) (id : Int) (req : TodoUpdateRequest)
    (e : Error) (h : env.queryErr = some e) :
    SQLiteTodoRepository.Update db env id req = (db, .error e) := by
  unfold SQLiteTodoRepository.Update
  rw [GetByID_fail db env id e h]

theorem map_update_frame {β : Type} (rows : List Todo) (id : Int) (f : Todo → Todo)
    (g : Todo → β) (hf : ∀ x, g (f x) = g x) :
    (rows.map (fun x => if x.ID == id then f x else x)).map g = rows.map g := by
  rw [List.map_map]
  apply List.map_congr_left
  intro x _
  simp only [Function.comp_apply]
  split_ifs
  · exact hf x
  · rfl

theorem filter_update_frame (rows : List Todo) (id : Int) (f : Todo → Todo)
    (hf : ∀ x, (f x).ID = x.ID) :
    (rows.map (fun x => if x.ID == id then f x else x)).filter (fun x => !(x.ID == id)) =
      rows.filter (fun x => !(x.ID == id)) := by
  induction rows with
  | nil => rfl
  | cons r rs ih =>
    by_cases hr : (r.ID == id) = true
    · have hr2 : ((f r).ID == id) = true := by rw [hf]; exact hr
      simp only [List.map_cons, hr, if_true, List.filter_cons, hr2, Bool.not_true,
        Bool.false_eq_true, if_false]
      exact ih
    · have hr1 : (r.ID == id) = false := by simpa using hr
      simp only [List.map_cons, hr1, Bool.false_eq_true, if_false, List.filter_cons,
        Bool.not_false, if_true]
      rw [ih]

theorem Delete_eq (db : DB) (env : Env) (id : Int) :
    SQLiteTodoRepository.Delete db env id =
      match env.execErr with
      | some e => (db, some e)
      | none => ({ db with rows := db.rows.filter (fun t => !(t.ID == id)) }, none) := by
  unfold SQLiteTodoRepository.Delete DB.execDelete
  cases env.execErr <;> rfl

theorem DeleteTodo_result (s : TodoService) (w : World) (env : Env) (id : Int) :
    (s.DeleteTodo w env id).2 = env.execErr := by
  unfold TodoService.DeleteTodo TodoService.repoDelete
  simp only [World.call, Delete_eq]
  cases env.execErr <;> rfl

theorem DeleteTodo_db (s : TodoService) (w : World) (env : Env) (id : Int) :
    (s.DeleteTodo w env id).1.db = (SQLiteTodoRepository.Delete w.db env id).1 := by
  unfold TodoService.DeleteTodo TodoService.repoDelete
  simp only [World.call, Delete_eq]
  cases env.execErr with
  | some e => rfl
  | none =>
    simp only [World.opTotal, World.inc, publish_db]
    unfold RedisCache.DeleteTodo RedisCache.InvalidateTodos World.call
    cases s.cache <;> cases env.cacheDelErr <;> cases env.cacheInvalidateErr <;> rfl

theorem DeleteTodo_get (s : TodoService) (w : World) (env : Env) (id : Int)
    (h : env.execErr = none) :
    (s.DeleteTodo w env id).1.redis.get id =
      if s.cache = true ∧ env.cacheDelErr = none then none else w.redis.get id := by
  unfold TodoService.DeleteTodo TodoService.repoDelete
  simp only [World.call, Delete_eq, h]
  simp only [World.opTotal, World.inc, publish_redis]
  unfold RedisCache.DeleteTodo RedisCache.InvalidateTodos World.call
  cases s.cache <;> cases env.cacheDelErr <;> cases env.cacheInvalidateErr <;>
    simp [Redis.get_del, Redis.get_all_irrelevant]

/-! ## Lemmas on validation and the handlers -/

theorem validateCreate_none (req : TodoCreateRequest) :
    validateCreate req = none ↔ 1 ≤ req.Task.length ∧ req.Task.length ≤ 500 := by
  unfold validateCreate
  by_cases h0 : req.Task = ""
  · simp [h0]
  · have hlen : req.Task.length ≠ 0 := by
      intro h
      apply h0
      exact String.ext (List.length_eq_zero.mp h)
    simp only [h0, if_false]
    split_ifs <;> simp <;> omega

theorem validateUpdate_none (req : TodoUpdateRequest) :
    validateUpdate req = none ↔
      ∀ task, req.Task = some task → 1 ≤ task.length ∧ task.length ≤ 500 := by
  unfold validateUpdate
  cases req.Task with
  | none => simp
  | some task =>
    simp only [Option.some.injEq, forall_eq']
    split_ifs <;> simp <;> omega

theorem cacheStore_calls (s : TodoService) (w : World) (env : Env) (todo : Todo) :
    ∃ l, (TodoService.cacheStore s w env todo).calls = w.calls ++ l := by
  unfold TodoService.cacheStore RedisCache.SetTodo RedisCache.InvalidateTodos World.call
  cases s.cache <;> cases env.cacheSetErr <;> cases env.cacheInvalidateErr <;>
    simp [List.append_assoc]

theorem publish_calls (s : TodoService) (w : World) (env : Env) (e : TodoEvent) :
    ∃ l, (TodoService.publish s w env e).calls = w.calls ++ l := by
  unfold TodoService.publish KafkaProducer.PublishTodoEvent World.call World.inc
  cases s.producer <;> cases env.publishErr <;> simp

theorem CreateTodo_calls (s : TodoService) (w : World) (env : Env) (req : TodoCreateRequest) :
    ∃ rest, (s.CreateTodo w env req).1.calls = w.calls ++ .repoCreate req.Task :: rest := by
  unfold TodoService.CreateTodo TodoService.repoCreate
  simp only [World.call]
  cases h : (SQLiteTodoRepository.Create w.db env req.Task).2 with
  | error e => exact ⟨[], by simp [h, World.opTotal, World.inc]⟩
  | ok todo =>
    simp only [h, World.opTotal, World.inc]
    obtain ⟨l1, h1⟩ := cacheStore_calls s
      { w with calls := w.calls ++ [.repoCreate req.Task],
               db := (SQLiteTodoRepository.Create w.db env req.Task).1 } env todo
    obtain ⟨l2, h2⟩ := publish_calls s (TodoService.cacheStore s
      { w with calls := w.calls ++ [.repoCreate req.Task],
               db := (SQLiteTodoRepository.Create w.db env req.Task).1 } env todo) env
      (CreateTodoCreatedEvent env todo)
    refine ⟨l1 ++ l2, ?_⟩
    rw [h2, h1]
    simp [List.append_assoc]

theorem UpdateTodo_calls (s : TodoService) (w : World) (env : Env) (id : Int)
    (req : TodoUpdateRequest) :
    ∃ rest, (s.UpdateTodo w env id req).1.calls = w.calls ++ .repoUpdate id req :: rest := by
  unfold TodoService.UpdateTodo TodoService.repoUpdate
  simp only [World.call]
  cases h : (SQLiteTodoRepository.Update w.db env id req).2 with
  | error e => exact ⟨[], by simp [h, World.opTotal, World.inc]⟩
  | ok o =>
    cases o with
    | none => exact ⟨[], by simp [h, World.opTotal, World.inc]⟩
    | some todo =>
      simp only [h, World.opTotal, World.inc]
      obtain ⟨l1, h1⟩ := cacheStore_calls s
        { w with calls := w.calls ++ [.repoUpdate id req],
                 db := (SQLiteTodoRepository.Update w.db env id req).1 } env todo
      obtain ⟨l2, h2⟩ := publish_calls s (TodoService.cacheStore s
        { w with calls := w.calls ++ [.repoUpdate id req],
                 db := (SQLiteTodoRepository.Update w.db env id req).1 } env todo) env
        (CreateTodoUpdatedEvent env todo)
      refine ⟨l1 ++ l2, ?_⟩
      rw [h2, h1]
      simp [List.append_assoc]

theorem handleError_calls (w : World) (c : Context) (n : Nat) (m : String) :
    (TodoHandler.handleError w c n m).1.calls = w.calls := rfl

theorem UpdateTodo_bound (s : TodoService) (w : World) (env : Env) (c : Context) (id : Int)
    (req : TodoUpdateRequest) (hid : ParseInt c.id = .ok id)
    (hb : ShouldBindJSONUpdate c.body = .ok req) (hv : validateUpdate req = none) :
    TodoHandler.UpdateTodo s w env c =
      (match s.UpdateTodo w env id req with
       | (w1, .error _) => TodoHandler.handleError w1 c 500 "Failed to update todo"
       | (w1, .ok none) =>
         (w1, { status := 404,
                body := .error { Error := "Todo not found", Details := "" } })
       | (w1, .ok (some todo)) => (w1, { status := 200, body := .todo todo })) ∧
    ∃ rest, (TodoHandler.UpdateTodo s w env c).1.calls =
      w.calls ++ .repoUpdate id req :: rest := by
  have heq : TodoHandler.UpdateTodo s w env c =
      (match s.UpdateTodo w env id req with
       | (w1, .error _) => TodoHandler.handleError w1 c 500 "Failed to update todo"
       | (w1, .ok none) =>
         (w1, { status := 404,
                body := .error { Error := "Todo not found", Details := "" } })
       | (w1, .ok (some todo)) => (w1, { status := 200, body := .todo todo })) := by
    unfold TodoHandler.UpdateTodo
    simp only [hid, hb, hv]
  refine ⟨heq, ?_⟩
  rw [heq]
  obtain ⟨rest, hrest⟩ := UpdateTodo_calls s w env id req
  refine ⟨rest, ?_⟩
  rw [← hrest]
  cases hr : s.UpdateTodo w env id req with
  | mk w1 r =>
    cases r with
    | error e => rfl
    | ok o => cases o <;> rfl

theorem ParseInt_error_iff (s : String) :
    (∃ e, ParseInt s = .error e) ↔ ¬ IsInt64Text s := by
  unfold IsInt64Text
  constructor
  · rintro ⟨e, he⟩ ⟨n, hn⟩
    have := (ParseInt_ok s n).mpr hn
    rw [he] at this
    cases this
  · intro h
    cases hp : ParseInt s with
    | error e => exact ⟨e, rfl⟩
    | ok n => exact absurd ⟨n, (ParseInt_ok s n).mp hp⟩ h

/-! ## Every id in the cache has been issued by the store -/

theorem seq_lt_nextID (db : DB) : db.seq < db.nextID := by
  have := (le_maxRowid db.rows db.seq).1
  unfold DB.nextID
  omega

theorem Issued_empty : emptyWorld.Issued := by
  constructor <;> intro _ h <;> cases h

theorem Issued_fresh (w : World) (h : w.Issued) : w.redis.get w.db.nextID = none := by
  have hnone : w.redis.todo.find? (fun e => e.1 == w.db.nextID) = none := by
    rw [List.find?_eq_none]
    intro e he
    have h1 := h.2 e he
    have h2 := seq_lt_nextID w.db
    simp only [beq_iff_eq]
    omega
  simp [Redis.get, hnone]

theorem Redis.mem_set (r : Redis) (id : Int) (d : Todo) (ttl : Duration)
    (e : Int × Todo × Duration) (he : e ∈ (r.set id d ttl).todo) :
    e.1 = id ∨ e ∈ r.todo := by
  simp only [Redis.set, List.mem_cons, List.mem_filter] at he
  rcases he with rfl | ⟨he, _⟩
  · exact Or.inl rfl
  · exact Or.inr he

theorem Redis.mem_del (r : Redis) (id : Int) (e : Int × Todo × Duration)
    (he : e ∈ (r.del id).todo) : e ∈ r.todo := by
  simp only [Redis.del, List.mem_filter] at he
  exact he.1

theorem cacheStore_mem (s : TodoService) (w : World) (env : Env) (todo : Todo)
    (e : Int × Todo × Duration)
    (he : e ∈ (TodoService.cacheStore s w env todo).redis.todo) :
    e.1 = todo.ID ∨ e ∈ w.redis.todo := by
  unfold TodoService.cacheStore RedisCache.SetTodo RedisCache.InvalidateTodos World.call at he
  cases hc : s.cache <;> cases hs : env.cacheSetErr <;> cases hi : env.cacheInvalidateErr <;>
    simp only [hc, hs, hi, if_true, if_false, Bool.false_eq_true] at he <;>
    first
      | exact Or.inr he
      | exact Redis.mem_set w.redis todo.ID todo _ e he

theorem publish_world (s : TodoService) (w : World) (env : Env) (e : TodoEvent) :
    (TodoService.publish s w env e).db = w.db ∧
    (TodoService.publish s w env e).redis = w.redis :=
  ⟨publish_db s w env e, publish_redis s w env e⟩

theorem Create_db (db : DB) (env : Env) (task : String) :
    ((SQLiteTodoRepository.Create db env task).1 = db ∧
      ∀ todo, (SQLiteTodoRepository.Create db env task).2 ≠ .ok todo) ∨
    (∃ row : Todo, row.ID = db.nextID ∧
      (SQLiteTodoRepository.Create db env task).1 =
        { rows := db.rows ++ [row], seq := db.nextID } ∧
      ∀ todo, (SQLiteTodoRepository.Create db env task).2 = .ok todo →
        todo.ID = db.nextID) := by
  unfold SQLiteTodoRepository.Create DB.execInsert
  cases hx : env.execErr with
  | some e => left; simp
  | none =>
    by_cases hf : maxInt64 < db.nextID
    · left; simp [hf]
    · right
      refine ⟨{ ID := db.nextID, Task := task, Completed := false,
                CreatedAt := env.now, UpdatedAt := env.now }, rfl, ?_, ?_⟩
      · cases hl : env.lastInsertIdErr <;> simp [hf]
      · intro todo
        cases hl : env.lastInsertIdErr <;> simp [hf]
        intro h
        rw [← h]

theorem CreateTodo_db (s : TodoService) (w : World) (env : Env) (req : TodoCreateRequest) :
    (s.CreateTodo w env req).1.db = (SQLiteTodoRepository.Create w.db env req.Task).1 := by
  unfold TodoService.CreateTodo TodoService.repoCreate
  simp only [World.call]
  cases h : (SQLiteTodoRepository.Create w.db env req.Task).2 <;>
    simp [h, World.opTotal, World.inc, publish_db, cacheStore_db]

theorem CreateTodo_mem (s : TodoService) (w : World) (env : Env) (req : TodoCreateRequest)
    (e : Int × Todo × Duration) (he : e ∈ (s.CreateTodo w env req).1.redis.todo) :
    e ∈ w.redis.todo ∨
      ∃ todo, (SQLiteTodoRepository.Create w.db env req.Task).2 = .ok todo ∧ e.1 = todo.ID := by
  unfold TodoService.CreateTodo TodoService.repoCreate at he
  simp only [World.call] at he
  cases h : (SQLiteTodoRepository.Create w.db env req.Task).2 with
  | error err =>
    simp only [h, World.opTotal, World.inc] at he
    exact Or.inl he
  | ok todo =>
    simp only [h, World.opTotal, World.inc, publish_redis] at he
    rcases cacheStore_mem s _ env todo e he with h1 | h1
    · exact Or.inr ⟨todo, rfl, h1⟩
    · exact Or.inl h1

/-- `CreateTodo` keeps every id in the store and the cache issued. -/
theorem CreateTodo_Issued (s : TodoService) (w : World) (env : Env) (req : TodoCreateRequest)
    (h : w.Issued) : (s.CreateTodo w env req).1.Issued := by
  have hlt := seq_lt_nextID w.db
  unfold World.Issued
  rw [CreateTodo_db]
  rcases Create_db w.db env req.Task with ⟨hdb, hno⟩ | ⟨row, hrow, hdb, hid⟩
  · rw [hdb]
    refine ⟨h.1, fun e he => ?_⟩
    rcases CreateTodo_mem s w env req e he with h1 | ⟨todo, h1, _⟩
    · exact h.2 e h1
    · exact absurd h1 (hno todo)
  · rw [hdb]
    constructor
    · intro t ht
      simp only [List.mem_append, List.mem_singleton] at ht
      rcases ht with ht | rfl
      · have := h.1 t ht
        simp only
        omega
      · simp only [hrow, le_refl]
    · intro e he
      simp only
      rcases CreateTodo_mem s w env req e he with h1 | ⟨todo, h1, h2⟩
      · have := h.2 e h1
        omega
      · rw [h2, hid todo h1]

theorem GetByID_mem (db : DB) (env : Env) (id : Int) (t : Todo)
    (h : SQLiteTodoRepository.GetByID db env id = .ok (some t)) : t ∈ db.rows ∧ t.ID = id := by
  unfold SQLiteTodoRepository.GetByID DB.queryRow at h
  cases hq : env.queryErr with
  | some e => simp [hq] at h
  | none =>
    cases hf : db.rows.find? (fun x => x.ID == id) with
    | none => simp [hq, hf] at h
    | some x =>
      simp only [hq, hf, Except.ok.injEq, Option.some.injEq] at h
      subst h
      exact ⟨List.mem_of_find?_eq_some hf, by simpa using List.find?_some hf⟩

theorem GetTodo_db (s : TodoService) (w : World) (env : Env) (id : Int) :
    (s.GetTodo w env id).1.db = w.db := by
  unfold TodoService.GetTodo TodoService.repoGetByID RedisCache.GetTodo RedisCache.SetTodo
  simp only [World.call, World.opTotal, World.inc]
  cases hr : SQLiteTodoRepository.GetByID w.db env id with
  | error err =>
    cases hc : s.cache <;> cases hg : env.cacheGetErr <;> cases hl : w.redis.get id <;>
      simp [hr]
  | ok o =>
    cases o <;> cases hc : s.cache <;> cases hg : env.cacheGetErr <;>
      cases hl : w.redis.get id <;> cases hs : env.cacheSetErr <;> simp [hr]

theorem GetTodo_redis (s : TodoService) (w : World) (env : Env) (id : Int) :
    (s.GetTodo w env id).1.redis = w.redis ∨
    ∃ t, SQLiteTodoRepository.GetByID w.db env id = .ok (some t) ∧
      (s.GetTodo w env id).1.redis = w.redis.set t.ID t (30 * Minute) := by
  unfold TodoService.GetTodo TodoService.repoGetByID RedisCache.GetTodo RedisCache.SetTodo
  simp only [World.call, World.opTotal, World.inc]
  cases hr : SQLiteTodoRepository.GetByID w.db env id with
  | error err =>
    cases hc : s.cache <;> cases hg : env.cacheGetErr <;> cases hl : w.redis.get id <;>
      simp [hr]
  | ok o =>
    cases o <;> cases hc : s.cache <;> cases hg : env.cacheGetErr <;>
      cases hl : w.redis.get id <;> cases hs : env.cacheSetErr <;> simp [hr]

theorem GetTodo_mem (s : TodoService) (w : World) (env : Env) (id : Int)
    (e : Int × Todo × Duration) (he : e ∈ (s.GetTodo w env id).1.redis.todo) :
    e ∈ w.redis.todo ∨ ∃ t ∈ w.db.rows, e.1 = t.ID := by
  rcases GetTodo_redis s w env id with h | ⟨t, ht, h⟩
  · rw [h] at he
    exact Or.inl he
  · rw [h] at he
    rcases Redis.mem_set w.redis t.ID t _ e he with h1 | h1
    · exact Or.inr ⟨t, (GetByID_mem w.db env id t ht).1, h1⟩
    · exact Or.inl h1

/-- `GetTodo` keeps every id in the store and the cache issued. -/
theorem GetTodo_Issued (s : TodoService) (w : World) (env : Env) (id : Int)
    (h : w.Issued) : (s.GetTodo w env id).1.Issued := by
  unfold World.Issued
  rw [GetTodo_db]
  refine ⟨h.1, fun e he => ?_⟩
  rcases GetTodo_mem s w env id e he with h1 | ⟨t, ht, h1⟩
  · exact h.2 e h1
  · rw [h1]
    exact h.1 t ht

theorem Update_ids (db : DB) (env : Env) (id : Int) (req : TodoUpdateRequest) :
    (SQLiteTodoRepository.Update db env id req).1.seq = db.seq ∧
    (SQLiteTodoRepository.Update db env id req).1.rows.map (fun x => x.ID) =
      db.rows.map (fun x => x.ID) := by
  unfold SQLiteTodoRepository.Update
  cases hg : SQLiteTodoRepository.GetByID db env id with
  | error err => exact ⟨rfl, rfl⟩
  | ok o =>
    cases o with
    | none => exact ⟨rfl, rfl⟩
    | some t =>
      simp only [DB.execUpdate]
      cases hx : env.execErr with
      | some e => exact ⟨rfl, rfl⟩
      | none => exact ⟨rfl, map_update_frame db.rows id _ _ (fun _ => rfl)⟩

theorem Update_some_mem (db : DB) (env : Env) (id : Int) (req : TodoUpdateRequest) (u : Todo)
    (h : (SQLiteTodoRepository.Update db env id req).2 = .ok (some u)) :
    ∃ t ∈ db.rows, u.ID = t.ID := by
  unfold SQLiteTodoRepository.Update at h
  cases hg : SQLiteTodoRepository.GetByID db env id with
  | error err => simp [hg] at h
  | ok o =>
    cases o with
    | none => simp [hg] at h
    | some t =>
      refine ⟨t, (GetByID_mem db env id t hg).1, ?_⟩
      simp only [hg, DB.execUpdate] at h
      cases hx : env.execErr with
      | some e => simp [hx] at h
      | none =>
        simp only [hx, Except.ok.injEq, Option.some.injEq] at h
        rw [← h]
        cases req.Task <;> cases req.Completed <;> rfl

theorem UpdateTodo_db (s : TodoService) (w : World) (env : Env) (id : Int)
    (req : TodoUpdateRequest) :
    (s.UpdateTodo w env id req).1.db = (SQLiteTodoRepository.Update w.db env id req).1 := by
  unfold TodoService.UpdateTodo TodoService.repoUpdate
  simp only [World.call]
  cases h : (SQLiteTodoRepository.Update w.db env id req).2 with
  | error e => simp [h, World.opTotal, World.inc]
  | ok o => cases o <;> simp [h, World.opTotal, World.inc, publish_db, cacheStore_db]

theorem UpdateTodo_mem (s : TodoService) (w : World) (env : Env) (id : Int)
    (req : TodoUpdateRequest) (e : Int × Todo × Duration)
    (he : e ∈ (s.UpdateTodo w env id req).1.redis.todo) :
    e ∈ w.redis.todo ∨ ∃ t ∈ w.db.rows, e.1 = t.ID := by
  unfold TodoService.UpdateTodo TodoService.repoUpdate at he
  simp only [World.call] at he
  cases h : (SQLiteTodoRepository.Update w.db env id req).2 with
  | error err =>
    simp only [h, World.opTotal, World.inc] at he
    exact Or.inl he
  | ok o =>
    cases o with
    | none =>
      simp only [h, World.opTotal, World.inc] at he
      exact Or.inl he
    | some u =>
      simp only [h, World.opTotal, World.inc, publish_redis] at he
      rcases cacheStore_mem s _ env u e he with h1 | h1
      · obtain ⟨t, ht, hu⟩ := Update_some_mem w.db env id req u h
        exact Or.inr ⟨t, ht, by rw [h1, hu]⟩
      · exact Or.inl h1

/-- `UpdateTodo` keeps every id in the store and the cache issued. -/
theorem UpdateTodo_Issued (s : TodoService) (w : World) (env : Env) (id : Int)
    (req : TodoUpdateRequest) (h : w.Issued) : (s.UpdateTodo w env id req).1.Issued := by
  obtain ⟨hseq, hids⟩ := Update_ids w.db env id req
  unfold World.Issued
  rw [UpdateTodo_db, hseq]
  constructor
  · intro t ht
    have hm : t.ID ∈ (SQLiteTodoRepository.Update w.db env id req).1.rows.map (fun x => x.ID) :=
      List.mem_map_of_mem _ ht
    rw [hids] at hm
    obtain ⟨t0, ht0, h0⟩ := List.mem_map.mp hm
    rw [← h0]
    exact h.1 t0 ht0
  · intro e he
    rcases UpdateTodo_mem s w env id req e he with h1 | ⟨t, ht, h1⟩
    · exact h.2 e h1
    · rw [h1]
      exact h.1 t ht

theorem DeleteTodo_mem (s : TodoService) (w : World) (env : Env) (id : Int)
    (e : Int × Todo × Duration) (he : e ∈ (s.DeleteTodo w env id).1.redis.todo) :
    e ∈ w.redis.todo := by
  unfold TodoService.DeleteTodo TodoService.repoDelete at he
  simp only [World.call, Delete_eq] at he
  cases hx : env.execErr with
  | some err =>
    simp only [hx, World.opTotal, World.inc] at he
    exact he
  | none =>
    simp only [hx, World.opTotal, World.inc, publish_redis] at he
    unfold RedisCache.DeleteTodo RedisCache.InvalidateTodos World.call at he
    cases hc : s.cache <;> cases hd : env.cacheDelErr <;> cases hi : env.cacheInvalidateErr <;>
      simp only [hc, hd, hi, if_true, if_false, Bool.false_eq_true] at he <;>
      first
        | exact he
        | exact Redis.mem_del w.redis id e he

/-- `DeleteTodo` keeps every id in the store and the cache issued. -/
theorem DeleteTodo_Issued (s : TodoService) (w : World) (env : Env) (id : Int)
    (h : w.Issued) : (s.DeleteTodo w env id).1.Issued := by
  unfold World.Issued
  rw [DeleteTodo_db, Delete_eq]
  cases hx : env.execErr with
  | some err => exact ⟨h.1, fun e he => h.2 e (DeleteTodo_mem s w env id e he)⟩
  | none =>
    refine ⟨fun t ht => h.1 t (List.mem_filter.mp ht).1,
      fun e he => h.2 e (DeleteTodo_mem s w env id e he)⟩

/-! # Claims -/

/-- C1: when the store accepts the insert (`db.Exec` reports no error, a rowid is left
to issue, `LastInsertId` reports no error), `SQLiteTodoRepository.Create(task)` returns a
Todo whose Task is `task`, whose Completed is false and whose CreatedAt equals its
UpdatedAt, and `TodoService.CreateTodo` returns that same Todo with a nil error, for
every service configuration and whatever the cache and the publisher answer. -/
theorem create_returns_new_todo (s : TodoService) (w : World) (env : Env) (task : String)
    (hexec : env.execErr = none) (hroom : w.db.nextID ≤ maxInt64)
    (hlast : env.lastInsertIdErr = none) :
    ∃ todo : Todo,
      (SQLiteTodoRepository.Create w.db env task).2 = .ok todo ∧
      todo.Task = task ∧ todo.Completed = false ∧ todo.CreatedAt = todo.UpdatedAt ∧
      (s.CreateTodo w env { Task := task }).2 = .ok todo := by
  have hcreate : (SQLiteTodoRepository.Create w.db env task).2 =
      .ok { ID := w.db.nextID, Task := task, Completed := false,
            CreatedAt := env.now, UpdatedAt := env.now } := by
    unfold SQLiteTodoRepository.Create DB.execInsert
    simp only [hexec, hlast, not_lt.mpr hroom, if_false]
  refine ⟨_, hcreate, rfl, rfl, rfl, ?_⟩
  rw [CreateTodo_result, hcreate]

/-- C1, at a concrete input: a service with a cache and a producer creates
`"Test task"` in the empty world. -/
theorem create_returns_new_todo_witness :
    (Env.ok 5 6).execErr = none ∧ emptyWorld.db.nextID ≤ maxInt64 ∧
    (Env.ok 5 6).lastInsertIdErr = none ∧
    ∃ todo : Todo,
      (SQLiteTodoRepository.Create emptyWorld.db (Env.ok 5 6) "Test task").2 = .ok todo ∧
      todo.Task = "Test task" ∧ todo.Completed = false ∧ todo.CreatedAt = todo.UpdatedAt ∧
      (TodoService.CreateTodo { cache := true, producer := true } emptyWorld (Env.ok 5 6)
        { Task := "Test task" }).2 = .ok todo :=
  ⟨rfl, by decide, rfl,
   create_returns_new_todo { cache := true, producer := true } emptyWorld (Env.ok 5 6)
     "Test task" rfl (by decide) rfl⟩

/-- C2: after `CreateTodo` succeeds and returns a todo with id N, `GetTodo(N)` on the
same service, on the world the create left, returns a nil error and a Todo with ID N,
the same Task and Completed false.  It holds for every service configuration and
whatever the cache answers, given that the read of the store does not fail and that the
cache held no entry under the id the store was about to issue (by `Issued_fresh` that is
so in every world in which the ids of the cache have been issued by the store, a
property the empty world has and every operation of the service keeps). -/
theorem get_after_create (s : TodoService) (w w1 : World) (env envGet : Env)
    (req : TodoCreateRequest) (todo : Todo)
    (hcreate : s.CreateTodo w env req = (w1, .ok todo))
    (hfresh : w.redis.get w.db.nextID = none)
    (hread : envGet.queryErr = none) :
    ∃ got : Todo, (s.GetTodo w1 envGet todo.ID).2 = .ok (some got) ∧
      got.ID = todo.ID ∧ got.Task = req.Task ∧ got.Completed = false := by
  obtain ⟨hc, hdb, hredis⟩ := CreateTodo_world s w w1 env req todo hcreate
  obtain ⟨htodo, hrows⟩ := Create_ok w.db env req.Task todo hc
  have hid : todo.ID = w.db.nextID := by rw [htodo]
  have hrepo : SQLiteTodoRepository.GetByID w1.db envGet todo.ID = .ok (some todo) := by
    unfold SQLiteTodoRepository.GetByID DB.queryRow
    rw [hread, hdb, hrows, List.find?_append, hid, find_nextID]
    simp [← hid]
  have hcache : cacheLookup s w1 envGet todo.ID = some todo ∨
      cacheLookup s w1 envGet todo.ID = none := by
    unfold cacheLookup
    rw [← hid] at hfresh
    rw [hredis, hfresh]
    split_ifs <;> simp
  refine ⟨todo, ?_, rfl, by rw [htodo], by rw [htodo]⟩
  rw [GetTodo_result]
  rcases hcache with h | h <;> simp [h, hrepo]

/-- C2, at a concrete input: a service with a cache and a producer creates
`"Integration task"` in the empty world, then gets id 1. -/
theorem get_after_create_witness :
    TodoService.CreateTodo { cache := true, producer := true } emptyWorld (Env.ok 5 6)
        { Task := "Integration task" } =
      ((TodoService.CreateTodo { cache := true, producer := true } emptyWorld (Env.ok 5 6)
          { Task := "Integration task" }).1,
       .ok { ID := 1, Task := "Integration task", Completed := false,
             CreatedAt := 5, UpdatedAt := 5 }) ∧
    emptyWorld.redis.get emptyWorld.db.nextID = none ∧
    (Env.ok 7 8).queryErr = none ∧
    ∃ got : Todo,
      (TodoService.GetTodo { cache := true, producer := true }
        (TodoService.CreateTodo { cache := true, producer := true } emptyWorld
          (Env.ok 5 6) { Task := "Integration task" }).1 (Env.ok 7 8) 1).2 =
        .ok (some got) ∧
      got.ID = 1 ∧ got.Task = "Integration task" ∧ got.Completed = false :=
  ⟨rfl, rfl, rfl,
   get_after_create { cache := true, producer := true } emptyWorld _ (Env.ok 5 6)
     (Env.ok 7 8) { Task := "Integration task" }
     { ID := 1, Task := "Integration task", Completed := false, CreatedAt := 5, UpdatedAt := 5 }
     rfl rfl rfl⟩

/-- C3, as amended: for every id that has no row in the store,
`SQLiteTodoRepository.GetByID` returns `(nil, nil)` when the query does not fail and
`(nil, err)` when it fails with `err`; `TodoService.GetTodo` does the same when it has no
cache, or the cache lookup fails, or the cache holds no entry for the id; and when its
cache holds an entry for the id and the lookup goes through, it returns that entry. -/
theorem get_absent_id (s : TodoService) (w : World) (env : Env) (id : Int)
    (habsent : ∀ t ∈ w.db.rows, t.ID ≠ id) :
    (env.queryErr = none → SQLiteTodoRepository.GetByID w.db env id = .ok none) ∧
    (∀ e, env.queryErr = some e → SQLiteTodoRepository.GetByID w.db env id = .error e) ∧
    ((s.cache = false ∨ env.cacheGetErr ≠ none ∨ w.redis.get id = none) →
      (env.queryErr = none → (s.GetTodo w env id).2 = .ok none) ∧
      (∀ e, env.queryErr = some e → (s.GetTodo w env id).2 = .error e)) ∧
    (∀ t, s.cache = true → env.cacheGetErr = none → w.redis.get id = some t →
      (s.GetTodo w env id).2 = .ok (some t)) := by
  have hrepo := GetByID_absent w.db env id habsent
  refine ⟨fun h => by rw [hrepo, h], fun e h => by rw [hrepo, h], fun hc => ?_, ?_⟩
  · have hl := cacheLookup_none s w env id hc
    rw [GetTodo_result, hl]
    exact ⟨fun h => by simp only [hrepo, h], fun e h => by simp only [hrepo, h]⟩
  · intro t h1 h2 h3
    rw [GetTodo_result]
    simp [cacheLookup, h1, h2, h3]

/-- C3 as amended, at a concrete input: id 7 in the empty world, service with a cache. -/
theorem get_absent_id_witness :
    (∀ t ∈ emptyWorld.db.rows, t.ID ≠ 7) ∧
    SQLiteTodoRepository.GetByID emptyWorld.db (Env.ok 1 1) 7 = .ok none ∧
    (TodoService.GetTodo { cache := true, producer := true } emptyWorld (Env.ok 1 1) 7).2 =
      .ok none :=
  ⟨by simp [emptyWorld],
   (get_absent_id { cache := true, producer := true } emptyWorld (Env.ok 1 1) 7
      (by simp [emptyWorld])).1 rfl,
   ((get_absent_id { cache := true, producer := true } emptyWorld (Env.ok 1 1) 7
      (by simp [emptyWorld])).2.2.1 (Or.inr (Or.inr rfl))).1 rfl⟩

/-- C3 as stated fails: in `staleWorld` id 1 has no row in the store, yet `GetTodo(1)`
on a service with a cache returns a todo with a nil error, the entry a failed cache
delete left behind. -/
theorem get_absent_id_stale_cache :
    (∀ t ∈ staleWorld.db.rows, t.ID ≠ 1) ∧
    (TodoService.GetTodo { cache := true, producer := false } staleWorld (Env.ok 9 9) 1).2 =
      .ok (some { ID := 1, Task := "a", Completed := false, CreatedAt := 5, UpdatedAt := 5 }) :=
  ⟨by decide, rfl⟩

/-- C4: for every todo `t` stored under `id` and every update request,
`SQLiteTodoRepository.Update` never changes the ID or the CreatedAt of a stored row and
leaves the rows of other ids as they are; the Todo it returns, which is also the row it
stores under `id`, has the ID and CreatedAt of `t`, the supplied task when one is present
and the Task of `t` otherwise, the supplied completed when one is present and the
Completed of `t` otherwise; when it returns no Todo the store is unchanged; and it does
return one when the read and the write are accepted by the store. -/
theorem update_frame (db : DB) (env : Env) (id : Int) (req : TodoUpdateRequest) (t : Todo)
    (hfound : db.rows.find? (fun x => x.ID == id) = some t) :
    ((SQLiteTodoRepository.Update db env id req).1.rows.map (fun x => x.ID) =
        db.rows.map (fun x => x.ID)) ∧
    ((SQLiteTodoRepository.Update db env id req).1.rows.map (fun x => x.CreatedAt) =
        db.rows.map (fun x => x.CreatedAt)) ∧
    ((SQLiteTodoRepository.Update db env id req).1.rows.filter (fun x => !(x.ID == id)) =
        db.rows.filter (fun x => !(x.ID == id))) ∧
    (∀ u, (SQLiteTodoRepository.Update db env id req).2 = .ok (some u) →
      u.ID = t.ID ∧ u.CreatedAt = t.CreatedAt ∧
      u.Task = req.Task.getD t.Task ∧ u.Completed = req.Completed.getD t.Completed ∧
      (req.Task = none → u.Task = t.Task) ∧
      (req.Completed = none → u.Completed = t.Completed) ∧
      (SQLiteTodoRepository.Update db env id req).1.rows.find? (fun x => x.ID == id) =
        some u) ∧
    ((∀ u, (SQLiteTodoRepository.Update db env id req).2 ≠ .ok (some u)) →
      (SQLiteTodoRepository.Update db env id req).1 = db) ∧
    (env.queryErr = none → env.execErr = none →
      ∃ u, (SQLiteTodoRepository.Update db env id req).2 = .ok (some u)) := by
  cases hq : env.queryErr with
  | some e =>
    rw [Update_read_fails db env id req e hq]
    simp
  | none =>
    rw [Update_found db env id req t hfound hq]
    unfold DB.execUpdate
    cases hx : env.execErr with
    | some e => simp
    | none =>
      simp only [true_implies]
      refine ⟨?_, ?_, ?_, ?_, ?_, ⟨_, rfl⟩⟩
      · exact map_update_frame db.rows id _ _ (fun _ => rfl)
      · exact map_update_frame db.rows id _ _ (fun _ => rfl)
      · exact filter_update_frame db.rows id _ (fun _ => rfl)
      · intro u hu
        simp only [Except.ok.injEq, Option.some.injEq] at hu
        subst hu
        refine ⟨rfl, rfl, rfl, rfl, fun h => by simp [h], fun h => by simp [h], ?_⟩
        exact find_map_update db.rows id
          (fun x => { x with Task := req.Task.getD t.Task,
                             Completed := req.Completed.getD t.Completed,
                             UpdatedAt := env.now }) (fun _ => rfl) t hfound
      · intro h
        exact absurd rfl (h _)

/-- C4, at a concrete input: an update that supplies only `completed = true` on the
stored todo 1 leaves its task `"buy milk"` unchanged. -/
theorem update_frame_witness :
    oneTodoDB.rows.find? (fun x => x.ID == 1) =
      some { ID := 1, Task := "buy milk", Completed := false,
             CreatedAt := 10, UpdatedAt := 10 } ∧
    ∀ u, (SQLiteTodoRepository.Update oneTodoDB (Env.ok 20 21) 1
        { Task := none, Completed := some true }).2 = .ok (some u) →
      u.ID = 1 ∧ u.CreatedAt = 10 ∧ u.Task = "buy milk" ∧ u.Completed = true :=
  ⟨rfl, fun u hu =>
    have h := (update_frame oneTodoDB (Env.ok 20 21) 1
      { Task := none, Completed := some true }
      { ID := 1, Task := "buy milk", Completed := false, CreatedAt := 10, UpdatedAt := 10 }
      rfl).2.2.2.1 u hu
    ⟨h.1, h.2.1, h.2.2.1, h.2.2.2.1⟩⟩

/-- C5, as amended: after `TodoService.DeleteTodo(id)` returns success, the next
`GetTodo(id)` on the same service returns not-found `(nil, nil)`, with or without a
publisher, when the service has no cache, or the removal of the cache entry went
through, or the cache held no entry for the id, given that the read of the store does
not fail. -/
theorem get_after_delete (s : TodoService) (w w1 : World) (envDel envGet : Env) (id : Int)
    (hdel : s.DeleteTodo w envDel id = (w1, none))
    (hcache : s.cache = false ∨ envDel.cacheDelErr = none ∨ w.redis.get id = none)
    (hread : envGet.queryErr = none) :
    (s.GetTodo w1 envGet id).2 = .ok none := by
  have hexec : envDel.execErr = none := by
    have := DeleteTodo_result s w envDel id
    rw [hdel] at this
    exact this.symm
  have hdb := DeleteTodo_db s w envDel id
  have hred := DeleteTodo_get s w envDel id hexec
  rw [hdel] at hdb hred
  simp only at hdb hred
  have hrepo : SQLiteTodoRepository.GetByID w1.db envGet id = .ok none := by
    unfold SQLiteTodoRepository.GetByID DB.queryRow
    rw [hread, hdb, Delete_eq, hexec]
    simp only [find_filter_self]
  have hlookup : cacheLookup s w1 envGet id = none := by
    cases hs : s.cache with
    | false => exact cacheLookup_none s w1 envGet id (Or.inl hs)
    | true =>
      apply cacheLookup_none
      right; right
      rw [hred]
      rcases hcache with h | h | h
      · rw [hs] at h; cases h
      · simp [hs, h]
      · simp [h]
  rw [GetTodo_result, hlookup]
  exact hrepo

/-- C5 as amended, at a concrete input: create, delete and get id 1 on a service with a
cache and a producer, every external call going through. -/
theorem get_after_delete_witness :
    let s : TodoService := { cache := true, producer := true }
    let created := s.CreateTodo emptyWorld (Env.ok 10 11) { Task := "buy milk" }
    let deleted := s.DeleteTodo created.1 (Env.ok 20 21) 1
    deleted = (deleted.1, none) ∧
    (s.GetTodo deleted.1 (Env.ok 30 31) 1).2 = .ok none :=
  ⟨rfl, get_after_delete { cache := true, producer := true } _ _ (Env.ok 20 21)
    (Env.ok 30 31) 1 rfl (Or.inr (Or.inl rfl)) rfl⟩

/-- C5 as stated fails: on a service with a cache, `"buy milk"` is created with id 1,
`DeleteTodo(1)` returns success while the Redis `DEL` of the entry fails, and the next
`GetTodo(1)` returns the deleted todo with a nil error. -/
theorem get_after_delete_stale_cache :
    let s : TodoService := { cache := true, producer := true }
    let created := s.CreateTodo emptyWorld (Env.ok 10 11) { Task := "buy milk" }
    let deleted := s.DeleteTodo created.1
      { Env.ok 20 21 with cacheDelErr := some "i/o timeout" } 1
    created.2 = .ok { ID := 1, Task := "buy milk", Completed := false,
                      CreatedAt := 10, UpdatedAt := 10 } ∧
    deleted.2 = none ∧
    (s.GetTodo deleted.1 (Env.ok 30 31) 1).2 =
      .ok (some { ID := 1, Task := "buy milk", Completed := false,
                  CreatedAt := 10, UpdatedAt := 10 }) :=
  ⟨rfl, rfl, rfl⟩

/-- C6: when the store executes the `DELETE` statements without error, for every id
with no row in the store `SQLiteTodoRepository.Delete` and `TodoService.DeleteTodo`
return success and leave the store unchanged; and for every id, deleting it a second
time gives the same store and the same result as deleting it once, in the repository
and in the service. -/
theorem delete_idempotent (s : TodoService) (w : World) (env1 env2 : Env) (id : Int)
    (h1 : env1.execErr = none) (h2 : env2.execErr = none) :
    ((∀ t ∈ w.db.rows, t.ID ≠ id) →
      SQLiteTodoRepository.Delete w.db env1 id = (w.db, none) ∧
      (s.DeleteTodo w env1 id).2 = none ∧
      (s.DeleteTodo w env1 id).1.db = w.db) ∧
    (SQLiteTodoRepository.Delete (SQLiteTodoRepository.Delete w.db env1 id).1 env2 id =
      SQLiteTodoRepository.Delete w.db env1 id) ∧
    ((s.DeleteTodo (s.DeleteTodo w env1 id).1 env2 id).1.db =
        (s.DeleteTodo w env1 id).1.db ∧
      (s.DeleteTodo (s.DeleteTodo w env1 id).1 env2 id).2 = (s.DeleteTodo w env1 id).2) := by
  have hidem : SQLiteTodoRepository.Delete (SQLiteTodoRepository.Delete w.db env1 id).1 env2 id
      = SQLiteTodoRepository.Delete w.db env1 id := by
    simp only [Delete_eq, h1, h2, List.filter_filter, Bool.and_self]
  refine ⟨fun habsent => ?_, hidem, ?_, ?_⟩
  · have hdel : SQLiteTodoRepository.Delete w.db env1 id = (w.db, none) := by
      rw [Delete_eq, h1]
      simp only [filter_absent w.db.rows id habsent]
    exact ⟨hdel, by rw [DeleteTodo_result, h1], by rw [DeleteTodo_db, hdel]⟩
  · rw [DeleteTodo_db, DeleteTodo_db, hidem]
  · rw [DeleteTodo_result, DeleteTodo_result, h1, h2]

/-- C6, at concrete inputs: id 2 has no row in `oneTodoDB` and deleting it succeeds
without changing the store; id 1 is deleted twice. -/
theorem delete_idempotent_witness :
    (Env.ok 20 21).execErr = none ∧ (Env.ok 30 31).execErr = none ∧
    (∀ t ∈ oneTodoDB.rows, t.ID ≠ 2) ∧
    (SQLiteTodoRepository.Delete oneTodoDB (Env.ok 20 21) 2 = (oneTodoDB, none) ∧
      (TodoService.DeleteTodo { cache := true, producer := true }
        { emptyWorld with db := oneTodoDB } (Env.ok 20 21) 2).2 = none ∧
      (TodoService.DeleteTodo { cache := true, producer := true }
        { emptyWorld with db := oneTodoDB } (Env.ok 20 21) 2).1.db = oneTodoDB) ∧
    SQLiteTodoRepository.Delete
        (SQLiteTodoRepository.Delete oneTodoDB (Env.ok 20 21) 1).1 (Env.ok 30 31) 1 =
      SQLiteTodoRepository.Delete oneTodoDB (Env.ok 20 21) 1 :=
  ⟨rfl, rfl, by decide,
   (delete_idempotent { cache := true, producer := true }
      { emptyWorld with db := oneTodoDB } (Env.ok 20 21) (Env.ok 30 31) 2 rfl rfl).1
      (by decide),
   (delete_idempotent { cache := false, producer := false }
      { emptyWorld with db := oneTodoDB } (Env.ok 20 21) (Env.ok 30 31) 1 rfl rfl).2.1⟩

/-- C7: for every id with no row in the store and every update request,
`TodoService.UpdateTodo` returns `(nil, nil)` when the read of the store does not fail
(and the read error when it does), leaves the store, the cache contents and the topic
unchanged, and the only call it issues is the repository update: no cache write, no
list-cache invalidation and no event publish, whether or not a cache and a publisher
are configured. -/
theorem update_absent_id (s : TodoService) (w : World) (env : Env) (id : Int)
    (req : TodoUpdateRequest) (habsent : ∀ t ∈ w.db.rows, t.ID ≠ id) :
    (env.queryErr = none → (s.UpdateTodo w env id req).2 = .ok none) ∧
    (∀ e, env.queryErr = some e → (s.UpdateTodo w env id req).2 = .error e) ∧
    (s.UpdateTodo w env id req).1.db = w.db ∧
    (s.UpdateTodo w env id req).1.redis = w.redis ∧
    (s.UpdateTodo w env id req).1.topic = w.topic ∧
    (s.UpdateTodo w env id req).1.calls = w.calls ++ [.repoUpdate id req] := by
  have hrepo : SQLiteTodoRepository.Update w.db env id req =
      (w.db, match env.queryErr with
             | none => .ok none
             | some e => .error e) := by
    unfold SQLiteTodoRepository.Update
    rw [GetByID_absent w.db env id habsent]
    cases env.queryErr <;> rfl
  unfold TodoService.UpdateTodo TodoService.repoUpdate
  cases hq : env.queryErr <;> simp [World.call, hrepo, hq, World.opTotal, World.inc]

/-- C7, at a concrete input: id 99 in the empty world, service with a cache and a
producer. -/
theorem update_absent_id_witness :
    (∀ t ∈ emptyWorld.db.rows, t.ID ≠ 99) ∧
    (TodoService.UpdateTodo { cache := true, producer := true } emptyWorld (Env.ok 4 5) 99
        { Task := some "Updated", Completed := none }).2 = .ok none ∧
    (TodoService.UpdateTodo { cache := true, producer := true } emptyWorld (Env.ok 4 5) 99
        { Task := some "Updated", Completed := none }).1.calls =
      emptyWorld.calls ++ [.repoUpdate 99 { Task := some "Updated", Completed := none }] :=
  ⟨by simp [emptyWorld],
   (update_absent_id { cache := true, producer := true } emptyWorld (Env.ok 4 5) 99
      { Task := some "Updated", Completed := none } (by simp [emptyWorld])).1 rfl,
   (update_absent_id { cache := true, producer := true } emptyWorld (Env.ok 4 5) 99
      { Task := some "Updated", Completed := none } (by simp [emptyWorld])).2.2.2.2.2⟩

/-- C8: for every POST body, `TodoHandler.CreateTodo` calls the service, with the
task of the body, when that task is a string of 1 to 500 characters; every other body
(malformed, task missing, null, empty, not a string, or longer than 500 characters) gets
status 400 with error `"Validation failed"` and leaves the world as it was but for the
HTTP error counter, so neither the service nor the repository is called.  A task of
exactly 500 characters reaches the repository and a task of 501 characters is rejected. -/
theorem create_validation (s : TodoService) (w : World) (env : Env) (c : Context) :
    (∀ task completed, c.body = .object (.value task) completed →
      1 ≤ task.length → task.length ≤ 500 →
      TodoHandler.CreateTodo s w env c =
        (match s.CreateTodo w env { Task := task } with
         | (w1, .error _) => TodoHandler.handleError w1 c 500 "Failed to create todo"
         | (w1, .ok todo) => (w1, { status := 201, body := .todo todo })) ∧
      ∃ rest, (TodoHandler.CreateTodo s w env c).1.calls =
        w.calls ++ .repoCreate task :: rest) ∧
    ((¬ ∃ task completed, c.body = .object (.value task) completed ∧
        1 ≤ task.length ∧ task.length ≤ 500) →
      ∃ details, TodoHandler.CreateTodo s w env c =
        (w.inc "http_requests_total" [c.Method, c.FullPath, "400"],
         { status := 400,
           body := .error { Error := "Validation failed", Details := details } })) ∧
    (∀ task completed, c.body = .object (.value task) completed → task.length = 500 →
      ∃ rest, (TodoHandler.CreateTodo s w env c).1.calls =
        w.calls ++ .repoCreate task :: rest) ∧
    (∀ task completed, c.body = .object (.value task) completed → task.length = 501 →
      (TodoHandler.CreateTodo s w env c).2.status = 400 ∧
      (TodoHandler.CreateTodo s w env c).1.calls = w.calls) := by
  have haccept : ∀ task completed, c.body = .object (.value task) completed →
      1 ≤ task.length → task.length ≤ 500 →
      TodoHandler.CreateTodo s w env c =
        (match s.CreateTodo w env { Task := task } with
         | (w1, .error _) => TodoHandler.handleError w1 c 500 "Failed to create todo"
         | (w1, .ok todo) => (w1, { status := 201, body := .todo todo })) ∧
      ∃ rest, (TodoHandler.CreateTodo s w env c).1.calls =
        w.calls ++ .repoCreate task :: rest := by
    intro task completed hb h1 h2
    have hv : validateCreate { Task := task } = none :=
      (validateCreate_none _).mpr ⟨h1, h2⟩
    have heq : TodoHandler.CreateTodo s w env c =
        (match s.CreateTodo w env { Task := task } with
         | (w1, .error _) => TodoHandler.handleError w1 c 500 "Failed to create todo"
         | (w1, .ok todo) => (w1, { status := 201, body := .todo todo })) := by
      unfold TodoHandler.CreateTodo
      rw [hb]
      simp only [ShouldBindJSONCreate, hv]
    refine ⟨heq, ?_⟩
    rw [heq]
    obtain ⟨rest, hrest⟩ := CreateTodo_calls s w env { Task := task }
    refine ⟨rest, ?_⟩
    rw [← hrest]
    cases hr : s.CreateTodo w env { Task := task } with
    | mk w1 r => cases r <;> rfl
  have hreject : (¬ ∃ task completed, c.body = .object (.value task) completed ∧
        1 ≤ task.length ∧ task.length ≤ 500) →
      ∃ details, TodoHandler.CreateTodo s w env c =
        (w.inc "http_requests_total" [c.Method, c.FullPath, "400"],
         { status := 400,
           body := .error { Error := "Validation failed", Details := details } }) := by
    intro hno
    unfold TodoHandler.CreateTodo TodoHandler.handleValidationError
    cases hb : c.body with
    | invalid err => exact ⟨err, rfl⟩
    | object task completed =>
      cases task with
      | mistyped err => exact ⟨err, rfl⟩
      | missing => exact ⟨_, rfl⟩
      | null => exact ⟨_, rfl⟩
      | value t =>
        simp only [ShouldBindJSONCreate]
        cases hv : validateCreate { Task := t } with
        | some err => exact ⟨err, rfl⟩
        | none =>
          exfalso
          exact hno ⟨t, completed, hb, (validateCreate_none _).mp hv⟩
  refine ⟨haccept, hreject, ?_, ?_⟩
  · intro task completed hb hlen
    exact (haccept task completed hb (by omega) (by omega)).2
  · intro task completed hb hlen
    obtain ⟨details, hd⟩ := hreject (by
      rintro ⟨t, cmp, hb2, h1, h2⟩
      rw [hb] at hb2
      simp only [Body.object.injEq, Field.value.injEq] at hb2
      rw [← hb2.1] at h2
      omega)
    rw [hd]
    exact ⟨rfl, rfl⟩

/-- C8, at concrete inputs: a task of 500 characters reaches the repository, a task of
501 characters is answered 400 without any call. -/
theorem create_validation_witness :
    (∃ rest, (TodoHandler.CreateTodo { cache := false, producer := false } emptyWorld
        (Env.ok 5 6)
        (sampleContext "POST" "" (.object (.value (taskOfLength 500)) .missing))).1.calls =
      emptyWorld.calls ++ .repoCreate (taskOfLength 500) :: rest) ∧
    ((TodoHandler.CreateTodo { cache := false, producer := false } emptyWorld (Env.ok 5 6)
        (sampleContext "POST" "" (.object (.value (taskOfLength 501)) .missing))).2.status =
      400 ∧
     (TodoHandler.CreateTodo { cache := false, producer := false } emptyWorld (Env.ok 5 6)
        (sampleContext "POST" "" (.object (.value (taskOfLength 501)) .missing))).1.calls =
      emptyWorld.calls) :=
  ⟨(create_validation { cache := false, producer := false } emptyWorld (Env.ok 5 6)
      (sampleContext "POST" "" (.object (.value (taskOfLength 500)) .missing))).2.2.1
      (taskOfLength 500) .missing rfl (List.length_replicate 500 'x'),
   (create_validation { cache := false, producer := false } emptyWorld (Env.ok 5 6)
      (sampleContext "POST" "" (.object (.value (taskOfLength 501)) .missing))).2.2.2
      (taskOfLength 501) .missing rfl (List.length_replicate 501 'x')⟩

/-- C9: for every PUT body with a valid id, `TodoHandler.UpdateTodo` answers status 400
with error `"Validation failed"`, leaving the world as it was but for the HTTP error
counter (the service is not called), whenever the task is present and is empty or longer
than 500 characters; a body that omits task, without completed (the empty object) or
with a boolean completed, passes validation and reaches the service with the parsed id
and a request whose task is absent. -/
theorem update_validation (s : TodoService) (w : World) (env : Env) (c : Context) (id : Int)
    (hid : ParseInt c.id = .ok id) :
    (∀ task completed, c.body = .object (.value task) completed →
      (task.length < 1 ∨ 500 < task.length) →
      ∃ details, TodoHandler.UpdateTodo s w env c =
        (w.inc "http_requests_total" [c.Method, c.FullPath, "400"],
         { status := 400,
           body := .error { Error := "Validation failed", Details := details } })) ∧
    (c.body = .object .missing .missing →
      TodoHandler.UpdateTodo s w env c =
        (match s.UpdateTodo w env id { Task := none, Completed := none } with
         | (w1, .error _) => TodoHandler.handleError w1 c 500 "Failed to update todo"
         | (w1, .ok none) =>
           (w1, { status := 404,
                  body := .error { Error := "Todo not found", Details := "" } })
         | (w1, .ok (some todo)) => (w1, { status := 200, body := .todo todo })) ∧
      ∃ rest, (TodoHandler.UpdateTodo s w env c).1.calls =
        w.calls ++ .repoUpdate id { Task := none, Completed := none } :: rest) ∧
    (∀ completed : Bool, c.body = .object .missing (.value completed) →
      TodoHandler.UpdateTodo s w env c =
        (match s.UpdateTodo w env id { Task := none, Completed := some completed } with
         | (w1, .error _) => TodoHandler.handleError w1 c 500 "Failed to update todo"
         | (w1, .ok none) =>
           (w1, { status := 404,
                  body := .error { Error := "Todo not found", Details := "" } })
         | (w1, .ok (some todo)) => (w1, { status := 200, body := .todo todo })) ∧
      ∃ rest, (TodoHandler.UpdateTodo s w env c).1.calls =
        w.calls ++ .repoUpdate id { Task := none, Completed := some completed } :: rest) := by
  refine ⟨?_, ?_, ?_⟩
  · intro task completed hb hlen
    unfold TodoHandler.UpdateTodo TodoHandler.handleValidationError
    simp only [hid, hb]
    cases completed with
    | mistyped err => exact ⟨err, rfl⟩
    | missing =>
      have hv : validateUpdate { Task := some task, Completed := none } ≠ none := by
        intro h
        have := (validateUpdate_none _).mp h task rfl
        omega
      cases hv2 : validateUpdate { Task := some task, Completed := none } with
      | none => exact absurd hv2 hv
      | some err => exact ⟨err, by simp [ShouldBindJSONUpdate, Field.toPtr, hv2]⟩
    | null =>
      have hv : validateUpdate { Task := some task, Completed := none } ≠ none := by
        intro h
        have := (validateUpdate_none _).mp h task rfl
        omega
      cases hv2 : validateUpdate { Task := some task, Completed := none } with
      | none => exact absurd hv2 hv
      | some err => exact ⟨err, by simp [ShouldBindJSONUpdate, Field.toPtr, hv2]⟩
    | value b =>
      have hv : validateUpdate { Task := some task, Completed := some b } ≠ none := by
        intro h
        have := (validateUpdate_none _).mp h task rfl
        omega
      cases hv2 : validateUpdate { Task := some task, Completed := some b } with
      | none => exact absurd hv2 hv
      | some err => exact ⟨err, by simp [ShouldBindJSONUpdate, Field.toPtr, hv2]⟩
  · intro hb
    exact UpdateTodo_bound s w env c id _ hid (by rw [hb]; rfl) rfl
  · intro completed hb
    exact UpdateTodo_bound s w env c id _ hid (by rw [hb]; rfl) rfl

/-- C9, at concrete inputs: `PUT /todos/42` with an empty task is rejected, and with the
empty object reaches the repository. -/
theorem update_validation_witness :
    ParseInt "42" = .ok 42 ∧
    (∃ details, TodoHandler.UpdateTodo { cache := false, producer := false } emptyWorld
        (Env.ok 5 6) (sampleContext "PUT" "42" (.object (.value "") .missing)) =
      (emptyWorld.inc "http_requests_total" ["PUT", "/api/v1/todos/:id", "400"],
       { status := 400,
         body := .error { Error := "Validation failed", Details := details } })) ∧
    (∃ rest, (TodoHandler.UpdateTodo { cache := false, producer := false } emptyWorld
        (Env.ok 5 6) (sampleContext "PUT" "42" (.object .missing .missing))).1.calls =
      emptyWorld.calls ++ .repoUpdate 42 { Task := none, Completed := none } :: rest) :=
  ⟨rfl,
   (update_validation { cache := false, producer := false } emptyWorld (Env.ok 5 6)
      (sampleContext "PUT" "42" (.object (.value "") .missing)) 42 rfl).1 "" .missing rfl
      (Or.inl (by decide)),
   ((update_validation { cache := false, producer := false } emptyWorld (Env.ok 5 6)
      (sampleContext "PUT" "42" (.object .missing .missing)) 42 rfl).2.1 rfl).2⟩

/-- C10, as amended: for GET, PUT and DELETE on `/todos/{id}`, when the id segment is
not a base-10 integer that fits a signed 64-bit value the handler answers 400 with error
`"Invalid todo ID"` and leaves the world as it was but for the HTTP error counter (the
service is not called); for every other id segment the answer is never that error, GET
and DELETE call the service with the parsed value, and PUT calls the service with the
parsed value once the body has passed binding and validation. -/
theorem id_parsing (s : TodoService) (w : World) (env : Env) (c : Context) :
    (¬ IsInt64Text c.id →
      TodoHandler.GetTodo s w env c =
        (w.inc "http_requests_total" [c.Method, c.FullPath, "400"],
         { status := 400, body := .error { Error := "Invalid todo ID", Details := "" } }) ∧
      TodoHandler.UpdateTodo s w env c =
        (w.inc "http_requests_total" [c.Method, c.FullPath, "400"],
         { status := 400, body := .error { Error := "Invalid todo ID", Details := "" } }) ∧
      TodoHandler.DeleteTodo s w env c =
        (w.inc "http_requests_total" [c.Method, c.FullPath, "400"],
         { status := 400, body := .error { Error := "Invalid todo ID", Details := "" } })) ∧
    (∀ n, decimalInt c.id = some n → minInt64 ≤ n → n ≤ maxInt64 →
      TodoHandler.GetTodo s w env c =
        (match s.GetTodo w env n with
         | (w1, .error _) => TodoHandler.handleError w1 c 500 "Failed to get todo"
         | (w1, .ok none) =>
           (w1, { status := 404,
                  body := .error { Error := "Todo not found", Details := "" } })
         | (w1, .ok (some todo)) => (w1, { status := 200, body := .todo todo })) ∧
      TodoHandler.DeleteTodo s w env c =
        (match s.DeleteTodo w env n with
         | (w1, some _) => TodoHandler.handleError w1 c 500 "Failed to delete todo"
         | (w1, none) => (w1, { status := 204, body := .empty })) ∧
      (∀ req, ShouldBindJSONUpdate c.body = .ok req → validateUpdate req = none →
        TodoHandler.UpdateTodo s w env c =
          (match s.UpdateTodo w env n req with
           | (w1, .error _) => TodoHandler.handleError w1 c 500 "Failed to update todo"
           | (w1, .ok none) =>
             (w1, { status := 404,
                    body := .error { Error := "Todo not found", Details := "" } })
           | (w1, .ok (some todo)) => (w1, { status := 200, body := .todo todo }))) ∧
      (TodoHandler.GetTodo s w env c).2.body ≠
        .error { Error := "Invalid todo ID", Details := "" } ∧
      (TodoHandler.UpdateTodo s w env c).2.body ≠
        .error { Error := "Invalid todo ID", Details := "" } ∧
      (TodoHandler.DeleteTodo s w env c).2.body ≠
        .error { Error := "Invalid todo ID", Details := "" }) := by
  constructor
  · intro h
    obtain ⟨e, he⟩ := (ParseInt_error_iff c.id).mpr h
    unfold TodoHandler.GetTodo TodoHandler.UpdateTodo TodoHandler.DeleteTodo
      TodoHandler.handleError
    simp only [he]
    exact ⟨rfl, rfl, rfl⟩
  · intro n hn h1 h2
    have hp : ParseInt c.id = .ok n := (ParseInt_ok c.id n).mpr ⟨hn, h1, h2⟩
    refine ⟨?_, ?_, ?_, ?_, ?_, ?_⟩
    · unfold TodoHandler.GetTodo
      simp only [hp]
    · unfold TodoHandler.DeleteTodo
      simp only [hp]
    · intro req hb hv
      exact (UpdateTodo_bound s w env c n req hp hb hv).1
    · unfold TodoHandler.GetTodo TodoHandler.handleError
      simp only [hp]
      cases hr : s.GetTodo w env n with
      | mk w1 r =>
        cases r with
        | error e => simp
        | ok o => cases o <;> simp
    · unfold TodoHandler.UpdateTodo TodoHandler.handleError TodoHandler.handleValidationError
      simp only [hp]
      cases hb : ShouldBindJSONUpdate c.body with
      | error e => simp
      | ok req =>
        cases hv : validateUpdate req with
        | some e => simp [hv]
        | none =>
          cases hr : s.UpdateTodo w env n req with
          | mk w1 r =>
            cases r with
            | error e => simp [hv, hr]
            | ok o => cases o <;> simp [hv, hr]
    · unfold TodoHandler.DeleteTodo TodoHandler.handleError
      simp only [hp]
      cases hr : s.DeleteTodo w env n with
      | mk w1 r => cases r <;> simp

/-- C10 as amended, at concrete inputs: GET with the id segment `abc` and DELETE with
the id segment `9223372036854775808` are answered 400 `"Invalid todo ID"`, and GET with
the id segment `-7` is answered by the service called with `-7`. -/
theorem id_parsing_witness :
    ¬ IsInt64Text "abc" ∧
    TodoHandler.GetTodo { cache := false, producer := false } emptyWorld (Env.ok 5 6)
        (sampleContext "GET" "abc" (.invalid "EOF")) =
      (emptyWorld.inc "http_requests_total" ["GET", "/api/v1/todos/:id", "400"],
       { status := 400, body := .error { Error := "Invalid todo ID", Details := "" } }) ∧
    ¬ IsInt64Text "9223372036854775808" ∧
    TodoHandler.DeleteTodo { cache := false, producer := false } emptyWorld (Env.ok 5 6)
        (sampleContext "DELETE" "9223372036854775808" (.invalid "EOF")) =
      (emptyWorld.inc "http_requests_total" ["DELETE", "/api/v1/todos/:id", "400"],
       { status := 400, body := .error { Error := "Invalid todo ID", Details := "" } }) ∧
    decimalInt "-7" = some (-7) ∧
    TodoHandler.GetTodo { cache := false, producer := false } emptyWorld (Env.ok 5 6)
        (sampleContext "GET" "-7" (.invalid "EOF")) =
      (match TodoService.GetTodo { cache := false, producer := false } emptyWorld
          (Env.ok 5 6) (-7) with
       | (w1, .error _) =>
         TodoHandler.handleError w1 (sampleContext "GET" "-7" (.invalid "EOF")) 500
           "Failed to get todo"
       | (w1, .ok none) =>
         (w1, { status := 404,
                body := .error { Error := "Todo not found", Details := "" } })
       | (w1, .ok (some todo)) => (w1, { status := 200, body := .todo todo })) :=
  have habc : ¬ IsInt64Text "abc" := by
    rintro ⟨n, hn, _⟩
    have hnone : decimalInt "abc" = none := rfl
    rw [hnone] at hn
    cases hn
  have hbig : ¬ IsInt64Text "9223372036854775808" := by
    rintro ⟨n, hn, _, hle⟩
    have hval : decimalInt "9223372036854775808" = some 9223372036854775808 := rfl
    rw [hval] at hn
    simp only [Option.some.injEq] at hn
    rw [← hn] at hle
    exact absurd hle (by decide)
  ⟨habc,
   ((id_parsing { cache := false, producer := false } emptyWorld (Env.ok 5 6)
      (sampleContext "GET" "abc" (.invalid "EOF"))).1 habc).1,
   hbig,
   ((id_parsing { cache := false, producer := false } emptyWorld (Env.ok 5 6)
      (sampleContext "DELETE" "9223372036854775808" (.invalid "EOF"))).1 hbig).2.2,
   rfl,
   ((id_parsing { cache := false, producer := false } emptyWorld (Env.ok 5 6)
      (sampleContext "GET" "-7" (.invalid "EOF"))).2 (-7) rfl (by decide) (by decide)).1⟩

/-- C10 as stated fails for PUT: the id segment `"1"` is a base-10 integer that fits a
signed 64-bit value, yet with the body `{"task": ""}` the handler answers 400
`"Validation failed"` and issues no call: the service is not called with the parsed
value. -/
theorem put_valid_id_rejected_body :
    IsInt64Text "1" ∧
    (TodoHandler.UpdateTodo { cache := true, producer := true } emptyWorld (Env.ok 5 6)
      (sampleContext "PUT" "1" (.object (.value "") .missing))) =
      (emptyWorld.inc "http_requests_total" ["PUT", "/api/v1/todos/:id", "400"],
       { status := 400,
         body := .error
           { Error := "Validation failed",
             Details := fieldError "TodoUpdateRequest.Task" "Task" "min" } }) ∧
    (TodoHandler.UpdateTodo { cache := true, producer := true } emptyWorld (Env.ok 5 6)
      (sampleContext "PUT" "1" (.object (.value "") .missing))).1.calls = [] :=
  ⟨⟨1, rfl, by decide, by decide⟩, rfl, rfl⟩

/-! ## Lemmas: the world after each operation of the service -/

theorem cacheStore_calls_eq (s : TodoService) (w : World) (env : Env) (todo : Todo) :
    (TodoService.cacheStore s w env todo).calls =
      w.calls ++ (if s.cache then [.cacheSetTodo todo (30 * Minute), .cacheInvalidateTodos]
                  else []) := by
  unfold TodoService.cacheStore RedisCache.SetTodo RedisCache.InvalidateTodos World.call
  cases s.cache <;> cases env.cacheSetErr <;> cases env.cacheInvalidateErr <;> simp

theorem publish_calls_eq (s : TodoService) (w : World) (env : Env) (e : TodoEvent) :
    (TodoService.publish s w env e).calls =
      w.calls ++ (if s.producer then [.publishTodoEvent e] else []) := by
  unfold TodoService.publish KafkaProducer.PublishTodoEvent World.call World.inc
  cases s.producer <;> cases env.publishErr <;> simp

theorem publish_topic (s : TodoService) (w : World) (env : Env) (e : TodoEvent) :
    (TodoService.publish s w env e).topic =
      w.topic ++ (if s.producer = true ∧ env.publishErr = none then [e] else []) := by
  unfold TodoService.publish KafkaProducer.PublishTodoEvent World.call World.inc
  cases s.producer <;> cases env.publishErr <;> simp

theorem CreateTodo_ok_world (s : TodoService) (w : World) (env : Env)
    (req : TodoCreateRequest) (todo : Todo)
    (h : (SQLiteTodoRepository.Create w.db env req.Task).2 = .ok todo) :
    s.CreateTodo w env req =
      ((TodoService.publish s
          (TodoService.cacheStore s
            { w with calls := w.calls ++ [.repoCreate req.Task],
                     db := (SQLiteTodoRepository.Create w.db env req.Task).1 } env todo)
          env (CreateTodoCreatedEvent env todo)).opTotal "create" "success", .ok todo) := by
  unfold TodoService.CreateTodo TodoService.repoCreate
  simp only [World.call, h]

theorem CreateTodo_error_world (s : TodoService) (w : World) (env : Env)
    (req : TodoCreateRequest) (e : Error)
    (h : (SQLiteTodoRepository.Create w.db env req.Task).2 = .error e) :
    s.CreateTodo w env req =
      (({ w with calls := w.calls ++ [.repoCreate req.Task],
                 db := (SQLiteTodoRepository.Create w.db env req.Task).1 } : World).opTotal
          "create" "error", .error e) := by
  unfold TodoService.CreateTodo TodoService.repoCreate
  simp only [World.call, h]

theorem UpdateTodo_ok_world (s : TodoService) (w : World) (env : Env) (id : Int)
    (req : TodoUpdateRequest) (todo : Todo)
    (h : (SQLiteTodoRepository.Update w.db env id req).2 = .ok (some todo)) :
    s.UpdateTodo w env id req =
      ((TodoService.publish s
          (TodoService.cacheStore s
            { w with calls := w.calls ++ [.repoUpdate id req],
                     db := (SQLiteTodoRepository.Update w.db env id req).1 } env todo)
          env (CreateTodoUpdatedEvent env todo)).opTotal "update" "success",
       .ok (some todo)) := by
  unfold TodoService.UpdateTodo TodoService.repoUpdate
  simp only [World.call, h]

theorem UpdateTodo_none_world (s : TodoService) (w : World) (env : Env) (id : Int)
    (req : TodoUpdateRequest)
    (h : (SQLiteTodoRepository.Update w.db env id req).2 = .ok none) :
    s.UpdateTodo w env id req =
      (({ w with calls := w.calls ++ [.repoUpdate id req],
                 db := (SQLiteTodoRepository.Update w.db env id req).1 } : World).opTotal
          "update" "not_found", .ok none) := by
  unfold TodoService.UpdateTodo TodoService.repoUpdate
  simp only [World.call, h]

theorem UpdateTodo_error_world (s : TodoService) (w : World) (env : Env) (id : Int)
    (req : TodoUpdateRequest) (e : Error)
    (h : (SQLiteTodoRepository.Update w.db env id req).2 = .error e) :
    s.UpdateTodo w env id req =
      (({ w with calls := w.calls ++ [.repoUpdate id req],
                 db := (SQLiteTodoRepository.Update w.db env id req).1 } : World).opTotal
          "update" "error", .error e) := by
  unfold TodoService.UpdateTodo TodoService.repoUpdate
  simp only [World.call, h]

/-- The block `if s.cache != nil` of `DeleteTodo`. -/
theorem DeleteTodo_ok_world (s : TodoService) (w : World) (env : Env) (id : Int)
    (h : env.execErr = none) :
    s.DeleteTodo w env id =
      ((TodoService.publish s
          (if s.cache then
            (RedisCache.InvalidateTodos
              (RedisCache.DeleteTodo
                { w with calls := w.calls ++ [.repoDelete id],
                         db := (SQLiteTodoRepository.Delete w.db env id).1 } env id).1 env).1
           else
            { w with calls := w.calls ++ [.repoDelete id],
                     db := (SQLiteTodoRepository.Delete w.db env id).1 })
          env (CreateTodoDeletedEvent env id)).opTotal "delete" "success", none) := by
  unfold TodoService.DeleteTodo TodoService.repoDelete
  simp only [World.call, Delete_eq, h]

theorem DeleteTodo_error_world (s : TodoService) (w : World) (env : Env) (id : Int)
    (e : Error) (h : env.execErr = some e) :
    s.DeleteTodo w env id =
      (({ w with calls := w.calls ++ [.repoDelete id] } : World).opTotal "delete" "error",
       some e) := by
  unfold TodoService.DeleteTodo TodoService.repoDelete
  simp only [World.call, Delete_eq, h]

theorem UpdateTodo_result (s : TodoService) (w : World) (env : Env) (id : Int)
    (req : TodoUpdateRequest) :
    (s.UpdateTodo w env id req).2 = (SQLiteTodoRepository.Update w.db env id req).2 := by
  cases h : (SQLiteTodoRepository.Update w.db env id req).2 with
  | error e => rw [UpdateTodo_error_world s w env id req e h]
  | ok o =>
    cases o with
    | none => rw [UpdateTodo_none_world s w env id req h]
    | some t => rw [UpdateTodo_ok_world s w env id req t h]

theorem GetTodo_hit_world (s : TodoService) (w : World) (env : Env) (id : Int) (t : Todo)
    (hc : s.cache = true) (hg : env.cacheGetErr = none) (hr : w.redis.get id = some t) :
    s.GetTodo w env id =
      ({ w with calls := w.calls ++ [.cacheGetTodo id],
                counters := w.counters ++
                  [{ name := "cache_hits_total", labels := [] },
                   { name := "todo_operations_total", labels := ["get", "cache_hit"] }] },
       .ok (some t)) := by
  unfold TodoService.GetTodo RedisCache.GetTodo
  simp [World.call, World.opTotal, World.inc, hc, hg, hr]

/-- The world in which `GetTodo` turns to the repository: after the cache lookup, when
there is a cache. -/
theorem GetTodo_miss_world (s : TodoService) (w : World) (env : Env) (id : Int)
    (hl : cacheLookup s w env id = none) :
    s.GetTodo w env id =
      (match SQLiteTodoRepository.GetByID w.db env id with
       | .error err =>
         (((if s.cache then (RedisCache.GetTodo w env id).1 else w).call
            (.repoGetByID id)).opTotal "get" "error", .error err)
       | .ok none =>
         (((if s.cache then (RedisCache.GetTodo w env id).1 else w).call
            (.repoGetByID id)).opTotal "get" "not_found", .ok none)
       | .ok (some todo) =>
         ((if s.cache then
             (RedisCache.SetTodo
               ((RedisCache.GetTodo w env id).1.call (.repoGetByID id)) env todo
               (30 * Minute)).1
           else w.call (.repoGetByID id)).opTotal "get" "success", .ok (some todo))) := by
  unfold cacheLookup at hl
  unfold TodoService.GetTodo TodoService.repoGetByID RedisCache.GetTodo
  cases hc : s.cache with
  | false =>
    simp only [World.call, Bool.false_eq_true, if_false]
    cases hr : SQLiteTodoRepository.GetByID w.db env id with
    | error e => rfl
    | ok o => cases o <;> rfl
  | true =>
    cases hg : env.cacheGetErr with
    | some e =>
      simp only [World.call, if_true]
      cases hr : SQLiteTodoRepository.GetByID w.db env id with
      | error e => rfl
      | ok o => cases o <;> rfl
    | none =>
      simp only [hc, hg, and_self, if_true] at hl
      simp only [World.call, hl, if_true, World.inc]
      cases hr : SQLiteTodoRepository.GetByID w.db env id with
      | error e => rfl
      | ok o => cases o <;> rfl

theorem GetTodos_db (w : World) (env : Env) :
    (RedisCache.GetTodos w env).1.db = w.db ∧
    (RedisCache.GetTodos w env).1.redis = w.redis ∧
    (RedisCache.GetTodos w env).1.topic = w.topic ∧
    (RedisCache.GetTodos w env).1.calls = w.calls ++ [.cacheGetTodos] := by
  unfold RedisCache.GetTodos
  simp only [World.call, World.inc]
  cases env.cacheGetErr with
  | some e => simp
  | none => cases h : w.redis.all <;> simp

theorem GetTodo_cache_db (w : World) (env : Env) (id : Int) :
    (RedisCache.GetTodo w env id).1.db = w.db ∧
    (RedisCache.GetTodo w env id).1.redis = w.redis ∧
    (RedisCache.GetTodo w env id).1.topic = w.topic ∧
    (RedisCache.GetTodo w env id).1.calls = w.calls ++ [.cacheGetTodo id] := by
  unfold RedisCache.GetTodo
  simp only [World.call, World.inc]
  cases env.cacheGetErr with
  | some e => simp
  | none => cases h : w.redis.get id <;> simp

theorem GetAllTodos_hit_world (s : TodoService) (w : World) (env : Env) (l : List Todo)
    (ttl : Duration)
    (hc : s.cache = true) (hg : env.cacheGetErr = none) (hr : w.redis.all = some (some l, ttl)) :
    s.GetAllTodos w env =
      ({ w with calls := w.calls ++ [.cacheGetTodos],
                counters := w.counters ++
                  [{ name := "cache_hits_total", labels := [] },
                   { name := "todo_operations_total", labels := ["get_all", "cache_hit"] }] },
       .ok (some l)) := by
  unfold TodoService.GetAllTodos RedisCache.GetTodos
  simp [World.call, World.opTotal, World.inc, hc, hg, hr]

theorem GetAllTodos_miss_world (s : TodoService) (w : World) (env : Env)
    (hl : listLookup s w env = none) :
    s.GetAllTodos w env =
      (match SQLiteTodoRepository.GetAll w.db env with
       | .error err =>
         (((if s.cache then (RedisCache.GetTodos w env).1 else w).call
            .repoGetAll).opTotal "get_all" "error", .error err)
       | .ok todos =>
         ((if s.cache then
             (RedisCache.SetTodos
               ((RedisCache.GetTodos w env).1.call .repoGetAll) env todos (5 * Minute)).1
           else w.call .repoGetAll).opTotal "get_all" "success", .ok todos)) := by
  unfold listLookup at hl
  unfold TodoService.GetAllTodos TodoService.repoGetAll RedisCache.GetTodos
  cases hc : s.cache with
  | false =>
    simp only [World.call, Bool.false_eq_true, if_false]
    cases hr : SQLiteTodoRepository.GetAll w.db env <;> rfl
  | true =>
    cases hg : env.cacheGetErr with
    | some e =>
      simp only [World.call, if_true]
      cases hr : SQLiteTodoRepository.GetAll w.db env <;> rfl
    | none =>
      simp only [hc, hg, and_self, if_true] at hl
      cases ha : w.redis.all with
      | none =>
        simp only [World.call, ha, if_true, World.inc]
        cases hr : SQLiteTodoRepository.GetAll w.db env <;> rfl
      | some data =>
        obtain ⟨d, ttl⟩ := data
        cases d with
        | some l => simp [ha] at hl
        | none =>
          simp only [World.call, ha, if_true, World.inc]
          cases hr : SQLiteTodoRepository.GetAll w.db env <;> rfl

theorem GetAllTodos_result (s : TodoService) (w : World) (env : Env) :
    (s.GetAllTodos w env).2 =
      match listLookup s w env with
      | some l => .ok (some l)
      | none => SQLiteTodoRepository.GetAll w.db env := by
  cases hl : listLookup s w env with
  | none =>
    rw [GetAllTodos_miss_world s w env hl]
    cases SQLiteTodoRepository.GetAll w.db env <;> rfl
  | some l =>
    unfold listLookup at hl
    split_ifs at hl with hc
    cases ha : w.redis.all with
    | none => simp [ha] at hl
    | some data =>
      obtain ⟨d, ttl⟩ := data
      cases d with
      | none => simp [ha] at hl
      | some l2 =>
        simp only [ha, Option.some.injEq] at hl
        subst hl
        rw [GetAllTodos_hit_world s w env l2 ttl hc.1 hc.2 ha]

theorem SetTodo_world (w : World) (env : Env) (todo : Todo) (ttl : Duration) :
    (RedisCache.SetTodo w env todo ttl).1.db = w.db ∧
    (RedisCache.SetTodo w env todo ttl).1.topic = w.topic ∧
    (RedisCache.SetTodo w env todo ttl).1.calls = w.calls ++ [.cacheSetTodo todo ttl] ∧
    (RedisCache.SetTodo w env todo ttl).1.redis =
      (if env.cacheSetErr = none then w.redis.set todo.ID todo ttl else w.redis) := by
  unfold RedisCache.SetTodo
  simp only [World.call]
  cases env.cacheSetErr <;> simp

/-! ## Lemmas: the list the repository returns -/

theorem foldl_appendTodo_some (l acc : List Todo) :
    l.foldl appendTodo (some acc) = some (acc ++ l) := by
  induction l generalizing acc with
  | nil => simp
  | cons a l ih => simp only [List.foldl_cons, appendTodo, ih, List.append_assoc,
      List.singleton_append]

theorem foldl_appendTodo_none (l : List Todo) :
    l.foldl appendTodo none = if l = [] then none else some l := by
  cases l with
  | nil => rfl
  | cons a l =>
    simp only [List.foldl_cons, appendTodo, foldl_appendTodo_some, List.singleton_append,
      reduceCtorEq, if_false]

theorem allTodos_eq (db : DB) :
    db.allTodos = if db.rows = [] then none else some (db.rows.insertionSort newerFirst) := by
  unfold DB.allTodos
  rw [foldl_appendTodo_none]
  by_cases h : db.rows = []
  · simp [h]
  · have h2 : db.rows.insertionSort newerFirst ≠ [] := by
      intro h3
      have hp := (List.perm_insertionSort newerFirst db.rows).length_eq
      rw [h3] at hp
      exact h (List.length_eq_zero.mp hp.symm)
    simp [h, h2]

theorem GetAll_eq (db : DB) (env : Env) :
    SQLiteTodoRepository.GetAll db env =
      match env.queryErr with
      | some e => .error e
      | none => .ok db.allTodos := by
  unfold SQLiteTodoRepository.GetAll DB.queryAll DB.allTodos
  cases env.queryErr <;> rfl

theorem newerFirst_sorted (rows : List Todo) :
    (rows.insertionSort newerFirst).Pairwise (fun a b => b.CreatedAt ≤ a.CreatedAt) := by
  haveI : IsTotal Todo newerFirst := ⟨fun a b => Nat.le_total b.CreatedAt a.CreatedAt⟩
  haveI : IsTrans Todo newerFirst := ⟨fun _ _ _ hab hbc => Nat.le_trans hbc hab⟩
  exact List.sorted_insertionSort newerFirst rows

/-! ## Lemmas: the cache follows the store -/

theorem Redis.get_set_ne (r : Redis) (id id2 : Int) (d : Todo) (ttl : Duration)
    (h : id2 ≠ id) : (r.set id d ttl).get id2 = r.get id2 := by
  have hb : (id == id2) = false := by simpa using (Ne.symm h)
  have hf : (r.todo.filter (fun e => !(e.1 == id))).find? (fun e => e.1 == id2) =
      r.todo.find? (fun e => e.1 == id2) := by
    induction r.todo with
    | nil => rfl
    | cons e es ih =>
      by_cases he : (e.1 == id) = true
      · have he2 : (e.1 == id2) = false := by
          have : e.1 = id := by simpa using he
          simpa [this] using (Ne.symm h)
        simp only [List.filter_cons, he, Bool.not_true, Bool.false_eq_true, if_false,
          List.find?_cons, he2, ih]
      · have he1 : (e.1 == id) = false := by simpa using he
        simp only [List.filter_cons, he1, Bool.not_false, if_true, List.find?_cons, ih]
  simp only [Redis.set, Redis.get, List.find?_cons, hb, hf]

theorem Redis.get_del_ne (r : Redis) (id id2 : Int) (h : id2 ≠ id) :
    (r.del id).get id2 = r.get id2 := by
  have hf : (r.todo.filter (fun e => !(e.1 == id))).find? (fun e => e.1 == id2) =
      r.todo.find? (fun e => e.1 == id2) := by
    induction r.todo with
    | nil => rfl
    | cons e es ih =>
      by_cases he : (e.1 == id) = true
      · have he2 : (e.1 == id2) = false := by
          have : e.1 = id := by simpa using he
          simpa [this] using (Ne.symm h)
        simp only [List.filter_cons, he, Bool.not_true, Bool.false_eq_true, if_false,
          List.find?_cons, he2, ih]
      · have he1 : (e.1 == id) = false := by simpa using he
        simp only [List.filter_cons, he1, Bool.not_false, if_true, List.find?_cons, ih]
  simp only [Redis.del, Redis.get, hf]

theorem find_map_update_ne (rows : List Todo) (id id2 : Int) (f : Todo → Todo)
    (hf : ∀ x, (f x).ID = x.ID) (h : id2 ≠ id) :
    (rows.map (fun x => if x.ID == id then f x else x)).find? (fun x => x.ID == id2) =
      rows.find? (fun x => x.ID == id2) := by
  induction rows with
  | nil => rfl
  | cons r rs ih =>
    by_cases hr : (r.ID == id) = true
    · have hr2 : (r.ID == id2) = false := by
        have : r.ID = id := by simpa using hr
        simpa [this] using (Ne.symm h)
      have hr3 : ((f r).ID == id2) = false := by rw [hf]; exact hr2
      simp only [List.map_cons, hr, if_true, List.find?_cons, hr3, hr2, ih]
    · have hr1 : (r.ID == id) = false := by simpa using hr
      simp only [List.map_cons, hr1, Bool.false_eq_true, if_false, List.find?_cons, ih]

theorem find_filter_ne (rows : List Todo) (id id2 : Int) (h : id2 ≠ id) :
    (rows.filter (fun x => !(x.ID == id))).find? (fun x => x.ID == id2) =
      rows.find? (fun x => x.ID == id2) := by
  induction rows with
  | nil => rfl
  | cons r rs ih =>
    by_cases hr : (r.ID == id) = true
    · have hr2 : (r.ID == id2) = false := by
        have : r.ID = id := by simpa using hr
        simpa [this] using (Ne.symm h)
      simp only [List.filter_cons, hr, Bool.not_true, Bool.false_eq_true, if_false,
        List.find?_cons, hr2, ih]
    · have hr1 : (r.ID == id) = false := by simpa using hr
      simp only [List.filter_cons, hr1, Bool.not_false, if_true, List.find?_cons, ih]

theorem GetByID_found (db : DB) (env : Env) (id : Int) (t : Todo)
    (h : SQLiteTodoRepository.GetByID db env id = .ok (some t)) :
    db.rows.find? (fun x => x.ID == id) = some t := by
  unfold SQLiteTodoRepository.GetByID DB.queryRow at h
  cases hq : env.queryErr with
  | some e => simp [hq] at h
  | none =>
    cases hf : db.rows.find? (fun x => x.ID == id) with
    | none => simp [hq, hf] at h
    | some x =>
      simp only [hq, hf, Except.ok.injEq, Option.some.injEq] at h
      rw [h]

theorem GetByID_of_found (db : DB) (env : Env) (id : Int) (t : Todo)
    (hq : env.queryErr = none) (h : db.rows.find? (fun x => x.ID == id) = some t) :
    SQLiteTodoRepository.GetByID db env id = .ok (some t) := by
  unfold SQLiteTodoRepository.GetByID DB.queryRow
  simp only [hq, h]

theorem Create_error_db (db : DB) (env : Env) (task : String) (e : Error)
    (hl : env.lastInsertIdErr = none)
    (h : (SQLiteTodoRepository.Create db env task).2 = .error e) :
    (SQLiteTodoRepository.Create db env task).1 = db := by
  unfold SQLiteTodoRepository.Create DB.execInsert at h ⊢
  cases hx : env.execErr with
  | some e2 => rfl
  | none =>
    by_cases hf : maxInt64 < db.nextID
    · simp only [hf, if_true]
    · simp [hx, hf, hl] at h

theorem Update_some (db : DB) (env : Env) (id : Int) (req : TodoUpdateRequest) (u : Todo)
    (h : (SQLiteTodoRepository.Update db env id req).2 = .ok (some u)) :
    u.ID = id ∧
    (SQLiteTodoRepository.Update db env id req).1.rows.find? (fun x => x.ID == id) = some u ∧
    ∀ id2, id2 ≠ id →
      (SQLiteTodoRepository.Update db env id req).1.rows.find? (fun x => x.ID == id2) =
        db.rows.find? (fun x => x.ID == id2) := by
  cases hq : env.queryErr with
  | some e =>
    rw [Update_read_fails db env id req e hq] at h
    cases h
  | none =>
    cases hf : db.rows.find? (fun x => x.ID == id) with
    | none =>
      have habs : ∀ t ∈ db.rows, t.ID ≠ id := by
        intro t ht hid
        have := List.find?_eq_none.mp hf t ht
        simp [hid] at this
      have : SQLiteTodoRepository.Update db env id req = (db, .ok none) := by
        unfold SQLiteTodoRepository.Update
        rw [GetByID_absent db env id habs, hq]
      rw [this] at h
      cases h
    | some t =>
      have hid : t.ID = id := by simpa using List.find?_some hf
      rw [Update_found db env id req t hf hq] at h ⊢
      unfold DB.execUpdate at h ⊢
      cases hx : env.execErr with
      | some e => simp [hx] at h
      | none =>
        simp only [hx, Except.ok.injEq, Option.some.injEq] at h ⊢
        subst h
        refine ⟨hid, ?_, fun id2 hne => ?_⟩
        · exact find_map_update db.rows id
            (fun x => { x with Task := req.Task.getD t.Task,
                               Completed := req.Completed.getD t.Completed,
                               UpdatedAt := env.now }) (fun _ => rfl) t hf
        · exact find_map_update_ne db.rows id id2 _ (fun _ => rfl) hne

theorem Update_not_some_db (db : DB) (env : Env) (id : Int) (req : TodoUpdateRequest)
    (h : ∀ u, (SQLiteTodoRepository.Update db env id req).2 ≠ .ok (some u)) :
    (SQLiteTodoRepository.Update db env id req).1 = db := by
  unfold SQLiteTodoRepository.Update at h ⊢
  cases hg : SQLiteTodoRepository.GetByID db env id with
  | error e => rfl
  | ok o =>
    cases o with
    | none => rfl
    | some t =>
      simp only [hg, DB.execUpdate] at h ⊢
      cases hx : env.execErr with
      | some e => rfl
      | none =>
        simp only [hx] at h
        exact absurd rfl (h _)

theorem cacheStore_redis_ok (s : TodoService) (w : World) (env : Env) (todo : Todo)
    (hc : s.cache = true) (hs : env.cacheSetErr = none) (hi : env.cacheInvalidateErr = none) :
    (TodoService.cacheStore s w env todo).redis =
      { w.redis.set todo.ID todo (30 * Minute) with all := none } := by
  unfold TodoService.cacheStore RedisCache.SetTodo RedisCache.InvalidateTodos World.call
  simp [hc, hs, hi]

theorem Coherent_of_eq (w w2 : World) (h : w.Coherent) (hdb : w2.db = w.db)
    (hr : w2.redis = w.redis) : w2.Coherent := by
  unfold World.Coherent
  rw [hdb, hr]
  exact h

theorem CreateTodo_Coherent (s : TodoService) (w : World) (env : Env)
    (req : TodoCreateRequest) (hc : s.cache = true) (h : w.Coherent)
    (henv : env.CacheFollows) : (s.CreateTodo w env req).1.Coherent := by
  obtain ⟨_, hl, hs, _, hi⟩ := henv
  cases hr : (SQLiteTodoRepository.Create w.db env req.Task).2 with
  | error e =>
    rw [CreateTodo_error_world s w env req e hr]
    exact Coherent_of_eq w _ h (Create_error_db w.db env req.Task e hl hr) rfl
  | ok todo =>
    obtain ⟨htodo, hrows⟩ := Create_ok w.db env req.Task todo hr
    have hid : todo.ID = w.db.nextID := by rw [htodo]
    rw [CreateTodo_ok_world s w env req todo hr]
    constructor
    · intro id t hget
      simp only [World.opTotal, World.inc, publish_db, publish_redis, cacheStore_db,
        cacheStore_redis_ok s _ env todo hc hs hi, Redis.get_all_irrelevant] at hget ⊢
      rw [hrows, List.find?_append]
      by_cases hne : id = todo.ID
      · subst hne
        rw [Redis.get_set] at hget
        simp only [Option.some.injEq] at hget
        subst hget
        rw [hid, find_nextID]
        simp [← hid]
      · rw [Redis.get_set_ne _ _ _ _ _ hne] at hget
        rw [h.1 id t hget]
        rfl
    · intro l ttl hall
      simp [World.opTotal, World.inc, publish_redis,
        cacheStore_redis_ok s _ env todo hc hs hi] at hall

theorem GetTodo_Coherent (s : TodoService) (w : World) (env : Env) (id : Int)
    (h : w.Coherent) : (s.GetTodo w env id).1.Coherent := by
  rcases GetTodo_redis s w env id with hr | ⟨t, ht, hr⟩
  · exact Coherent_of_eq w _ h (GetTodo_db s w env id) hr
  · have hfound := GetByID_found w.db env id t ht
    have hid : t.ID = id := by simpa using List.find?_some hfound
    constructor
    · intro id2 t2 hget
      rw [GetTodo_db]
      rw [hr] at hget
      by_cases hne : id2 = t.ID
      · subst hne
        rw [Redis.get_set] at hget
        simp only [Option.some.injEq] at hget
        subst hget
        rw [hid]
        exact hfound
      · rw [Redis.get_set_ne _ _ _ _ _ hne] at hget
        exact h.1 id2 t2 hget
    · intro l ttl hall
      rw [GetTodo_db]
      rw [hr] at hall
      exact h.2 l ttl hall

theorem listLookup_some (s : TodoService) (w : World) (env : Env) (l : List Todo)
    (h : listLookup s w env = some l) :
    s.cache = true ∧ env.cacheGetErr = none ∧ ∃ ttl, w.redis.all = some (some l, ttl) := by
  unfold listLookup at h
  split_ifs at h with hc
  cases ha : w.redis.all with
  | none => simp [ha] at h
  | some data =>
    obtain ⟨d, ttl⟩ := data
    cases d with
    | none => simp [ha] at h
    | some l2 =>
      simp only [ha, Option.some.injEq] at h
      subst h
      exact ⟨hc.1, hc.2, ttl, rfl⟩

theorem SetTodos_world (w : World) (env : Env) (todos : TodoSlice) (ttl : Duration) :
    (RedisCache.SetTodos w env todos ttl).1.db = w.db ∧
    (RedisCache.SetTodos w env todos ttl).1.topic = w.topic ∧
    (RedisCache.SetTodos w env todos ttl).1.calls = w.calls ++ [.cacheSetTodos todos ttl] ∧
    (RedisCache.SetTodos w env todos ttl).1.redis =
      (if env.cacheSetErr = none then { w.redis with all := some (todos, ttl) }
       else w.redis) := by
  unfold RedisCache.SetTodos
  simp only [World.call]
  cases env.cacheSetErr <;> simp

theorem GetAllTodos_db (s : TodoService) (w : World) (env : Env) :
    (s.GetAllTodos w env).1.db = w.db := by
  cases hl : listLookup s w env with
  | some l =>
    obtain ⟨hc, hg, ttl, ha⟩ := listLookup_some s w env l hl
    rw [GetAllTodos_hit_world s w env l ttl hc hg ha]
  | none =>
    rw [GetAllTodos_miss_world s w env hl]
    cases hr : SQLiteTodoRepository.GetAll w.db env with
    | error e =>
      cases hc : s.cache
      · rfl
      · exact (GetTodos_db w env).1
    | ok todos =>
      cases hc : s.cache
      · rfl
      · simp only [World.opTotal, World.inc, if_true]
        rw [(SetTodos_world _ env todos (5 * Minute)).1]
        exact (GetTodos_db w env).1

theorem GetAllTodos_redis (s : TodoService) (w : World) (env : Env) :
    (s.GetAllTodos w env).1.redis = w.redis ∨
    ∃ todos, SQLiteTodoRepository.GetAll w.db env = .ok todos ∧
      (s.GetAllTodos w env).1.redis = { w.redis with all := some (todos, 5 * Minute) } := by
  cases hl : listLookup s w env with
  | some l =>
    obtain ⟨hc, hg, ttl, ha⟩ := listLookup_some s w env l hl
    rw [GetAllTodos_hit_world s w env l ttl hc hg ha]
    exact Or.inl rfl
  | none =>
    rw [GetAllTodos_miss_world s w env hl]
    cases hr : SQLiteTodoRepository.GetAll w.db env with
    | error e =>
      left
      cases hc : s.cache
      · rfl
      · exact (GetTodos_db w env).2.1
    | ok todos =>
      cases hc : s.cache
      · exact Or.inl rfl
      · simp only [World.opTotal, World.inc, if_true]
        rw [(SetTodos_world _ env todos (5 * Minute)).2.2.2]
        cases hs : env.cacheSetErr with
        | some e =>
          left
          simp only [reduceCtorEq, if_false]
          exact (GetTodos_db w env).2.1
        | none =>
          right
          refine ⟨todos, rfl, ?_⟩
          simp only [if_true]
          have := (GetTodos_db w env).2.1
          simp only [World.call]
          rw [this]

theorem GetAllTodos_Coherent (s : TodoService) (w : World) (env : Env)
    (h : w.Coherent) (hq : env.queryErr = none) : (s.GetAllTodos w env).1.Coherent := by
  rcases GetAllTodos_redis s w env with hr | ⟨todos, ht, hr⟩
  · exact Coherent_of_eq w _ h (GetAllTodos_db s w env) hr
  · constructor
    · intro id t hget
      rw [GetAllTodos_db]
      rw [hr, Redis.get_all_irrelevant] at hget
      exact h.1 id t hget
    · intro l ttl hall
      rw [GetAllTodos_db]
      rw [hr] at hall
      simp only [Option.some.injEq, Prod.mk.injEq] at hall
      rw [GetAll_eq, hq] at ht
      simp only [Except.ok.injEq] at ht
      rw [ht, hall.1]

theorem UpdateTodo_Coherent (s : TodoService) (w : World) (env : Env) (id : Int)
    (req : TodoUpdateRequest) (hc : s.cache = true) (h : w.Coherent)
    (henv : env.CacheFollows) : (s.UpdateTodo w env id req).1.Coherent := by
  obtain ⟨_, _, hs, _, hi⟩ := henv
  cases hr : (SQLiteTodoRepository.Update w.db env id req).2 with
  | error e =>
    rw [UpdateTodo_error_world s w env id req e hr]
    refine Coherent_of_eq w _ h (Update_not_some_db w.db env id req ?_) rfl
    intro u hu
    rw [hr] at hu
    cases hu
  | ok o =>
    cases o with
    | none =>
      rw [UpdateTodo_none_world s w env id req hr]
      refine Coherent_of_eq w _ h (Update_not_some_db w.db env id req ?_) rfl
      intro u hu
      rw [hr] at hu
      cases hu
    | some u =>
      obtain ⟨hid, hfound, hother⟩ := Update_some w.db env id req u hr
      rw [UpdateTodo_ok_world s w env id req u hr]
      constructor
      · intro id2 t hget
        simp only [World.opTotal, World.inc, publish_db, publish_redis, cacheStore_db,
          cacheStore_redis_ok s _ env u hc hs hi, Redis.get_all_irrelevant] at hget ⊢
        by_cases hne : id2 = u.ID
        · subst hne
          rw [Redis.get_set] at hget
          simp only [Option.some.injEq] at hget
          subst hget
          rw [hid]
          exact hfound
        · rw [Redis.get_set_ne _ _ _ _ _ hne] at hget
          rw [hother id2 (by rw [← hid]; exact hne)]
          exact h.1 id2 t hget
      · intro l ttl hall
        simp [World.opTotal, World.inc, publish_redis,
          cacheStore_redis_ok s _ env u hc hs hi] at hall

theorem DeleteTodo_Coherent (s : TodoService) (w : World) (env : Env) (id : Int)
    (hc : s.cache = true) (h : w.Coherent) (henv : env.CacheFollows) :
    (s.DeleteTodo w env id).1.Coherent := by
  obtain ⟨_, _, _, hd, hi⟩ := henv
  cases hx : env.execErr with
  | some e =>
    rw [DeleteTodo_error_world s w env id e hx]
    exact Coherent_of_eq w _ h rfl rfl
  | none =>
    have hredis : (s.DeleteTodo w env id).1.redis = { w.redis.del id with all := none } := by
      rw [DeleteTodo_ok_world s w env id hx]
      simp only [World.opTotal, World.inc, publish_redis, hc, if_true]
      unfold RedisCache.InvalidateTodos RedisCache.DeleteTodo
      simp [World.call, hd, hi]
    constructor
    · intro id2 t hget
      rw [DeleteTodo_db, Delete_eq, hx]
      rw [hredis, Redis.get_all_irrelevant] at hget
      by_cases hne : id2 = id
      · subst hne
        rw [Redis.get_del] at hget
        cases hget
      · rw [Redis.get_del_ne _ _ _ hne] at hget
        simp only
        rw [find_filter_ne _ _ _ hne]
        exact h.1 id2 t hget
    · intro l ttl hall
      rw [hredis] at hall
      simp at hall

/-- One operation on a service with a coherent cache returns what the service without
cache and publisher returns on the same store, leaves the same store, and keeps the
cache coherent. -/
theorem step_sim (s : TodoService) (wc wu : World) (env : Env) (op : Op)
    (hdb : wc.db = wu.db) (hco : s.cache = true → wc.Coherent) (henv : env.CacheFollows) :
    (s.step wc env op).2 =
      (TodoService.step { cache := false, producer := false } wu env op).2 ∧
    (s.step wc env op).1.db =
      (TodoService.step { cache := false, producer := false } wu env op).1.db ∧
    (s.cache = true → (s.step wc env op).1.Coherent) := by
  cases op with
  | create req =>
    refine ⟨?_, ?_, fun hc => CreateTodo_Coherent s wc env req hc (hco hc) henv⟩
    · simp only [TodoService.step, CreateTodo_result, hdb]
    · simp only [TodoService.step, CreateTodo_db, hdb]
  | update id req =>
    refine ⟨?_, ?_, fun hc => UpdateTodo_Coherent s wc env id req hc (hco hc) henv⟩
    · simp only [TodoService.step, UpdateTodo_result, hdb]
    · simp only [TodoService.step, UpdateTodo_db, hdb]
  | delete id =>
    refine ⟨?_, ?_, fun hc => DeleteTodo_Coherent s wc env id hc (hco hc) henv⟩
    · simp only [TodoService.step, DeleteTodo_result]
    · simp only [TodoService.step, DeleteTodo_db, hdb]
  | get id =>
    refine ⟨?_, ?_, fun hc => GetTodo_Coherent s wc env id (hco hc)⟩
    · simp only [TodoService.step, GetTodo_result]
      have hu : cacheLookup { cache := false, producer := false } wu env id = none := by
        simp [cacheLookup]
      rw [hu]
      cases hl : cacheLookup s wc env id with
      | none => simp only [hdb]
      | some t =>
        have hcache : s.cache = true ∧ env.cacheGetErr = none := by
          unfold cacheLookup at hl
          split_ifs at hl with hc
          exact hc
        have hget : wc.redis.get id = some t := by
          unfold cacheLookup at hl
          simpa [hcache.1, hcache.2] using hl
        have hfound := (hco hcache.1).1 id t hget
        simp only
        rw [← hdb, GetByID_of_found wc.db env id t henv.1 hfound]
    · simp only [TodoService.step, GetTodo_db, hdb]
  | getAll =>
    refine ⟨?_, ?_, fun hc => GetAllTodos_Coherent s wc env (hco hc) henv.1⟩
    · simp only [TodoService.step, GetAllTodos_result]
      have hu : listLookup { cache := false, producer := false } wu env = none := by
        simp [listLookup]
      rw [hu]
      cases hl : listLookup s wc env with
      | none => simp only [hdb]
      | some l =>
        obtain ⟨hc, _, ttl, ha⟩ := listLookup_some s wc env l hl
        have := (hco hc).2 l ttl ha
        simp only
        rw [← hdb, GetAll_eq, henv.1, this]
    · simp only [TodoService.step, GetAllTodos_db, hdb]

theorem Coherent_empty : emptyWorld.Coherent := by
  constructor
  · intro id t h
    simp [emptyWorld, Redis.get] at h
  · intro l ttl h
    simp [emptyWorld] at h

/-! # Claims C11 to C20 -/

/-- C11: for every request that passes id parsing, binding and validation, the response
of the handler is fixed by what the service returns: a created todo gives 201 with the
todo; a todo returned by get or update gives 200 with it; not-found from get or update
gives 404 with error `"Todo not found"`; a nil error from delete gives 204 with no body;
a list gives 200 with it; and an error from any of the five operations gives 500. -/
theorem status_mapping (s : TodoService) (w : World) (env : Env) (c : Context) :
    (∀ req, ShouldBindJSONCreate c.body = .ok req → validateCreate req = none →
      (∀ todo, (s.CreateTodo w env req).2 = .ok todo →
        (TodoHandler.CreateTodo s w env c).2 = { status := 201, body := .todo todo }) ∧
      (∀ e, (s.CreateTodo w env req).2 = .error e →
        (TodoHandler.CreateTodo s w env c).2 =
          { status := 500,
            body := .error { Error := "Failed to create todo", Details := "" } })) ∧
    (∀ id, ParseInt c.id = .ok id →
      (∀ todo, (s.GetTodo w env id).2 = .ok (some todo) →
        (TodoHandler.GetTodo s w env c).2 = { status := 200, body := .todo todo }) ∧
      ((s.GetTodo w env id).2 = .ok none →
        (TodoHandler.GetTodo s w env c).2 =
          { status := 404, body := .error { Error := "Todo not found", Details := "" } }) ∧
      (∀ e, (s.GetTodo w env id).2 = .error e →
        (TodoHandler.GetTodo s w env c).2 =
          { status := 500,
            body := .error { Error := "Failed to get todo", Details := "" } })) ∧
    (∀ id req, ParseInt c.id = .ok id → ShouldBindJSONUpdate c.body = .ok req →
      validateUpdate req = none →
      (∀ todo, (s.UpdateTodo w env id req).2 = .ok (some todo) →
        (TodoHandler.UpdateTodo s w env c).2 = { status := 200, body := .todo todo }) ∧
      ((s.UpdateTodo w env id req).2 = .ok none →
        (TodoHandler.UpdateTodo s w env c).2 =
          { status := 404, body := .error { Error := "Todo not found", Details := "" } }) ∧
      (∀ e, (s.UpdateTodo w env id req).2 = .error e →
        (TodoHandler.UpdateTodo s w env c).2 =
          { status := 500,
            body := .error { Error := "Failed to update todo", Details := "" } })) ∧
    (∀ id, ParseInt c.id = .ok id →
      ((s.DeleteTodo w env id).2 = none →
        (TodoHandler.DeleteTodo s w env c).2 = { status := 204, body := .empty }) ∧
      (∀ e, (s.DeleteTodo w env id).2 = some e →
        (TodoHandler.DeleteTodo s w env c).2 =
          { status := 500,
            body := .error { Error := "Failed to delete todo", Details := "" } })) ∧
    ((∀ todos, (s.GetAllTodos w env).2 = .ok todos →
        (TodoHandler.GetAllTodos s w env c).2 = { status := 200, body := .todos todos }) ∧
      (∀ e, (s.GetAllTodos w env).2 = .error e →
        (TodoHandler.GetAllTodos s w env c).2 =
          { status := 500,
            body := .error { Error := "Failed to get todos", Details := "" } })) := by
  refine ⟨?_, ?_, ?_, ?_, ?_⟩
  · intro req hb hv
    unfold TodoHandler.CreateTodo TodoHandler.handleError
    simp only [hb, hv]
    cases hr : s.CreateTodo w env req with
    | mk w1 r => cases r <;> simp
  · intro id hp
    unfold TodoHandler.GetTodo TodoHandler.handleError
    simp only [hp]
    cases hr : s.GetTodo w env id with
    | mk w1 r =>
      cases r with
      | error e => simp
      | ok o => cases o <;> simp
  · intro id req hp hb hv
    unfold TodoHandler.UpdateTodo TodoHandler.handleError
    simp only [hp, hb, hv]
    cases hr : s.UpdateTodo w env id req with
    | mk w1 r =>
      cases r with
      | error e => simp
      | ok o => cases o <;> simp
  · intro id hp
    unfold TodoHandler.DeleteTodo TodoHandler.handleError
    simp only [hp]
    cases hr : s.DeleteTodo w env id with
    | mk w1 r => cases r <;> simp
  · unfold TodoHandler.GetAllTodos TodoHandler.handleError
    cases hr : s.GetAllTodos w env with
    | mk w1 r => cases r <;> simp

/-- C11, at concrete inputs: GET of the cached todo 1 is answered 200 with it, and
DELETE of id 1 with a failing `db.Exec` is answered 500. -/
theorem status_mapping_witness :
    ParseInt "1" = .ok 1 ∧
    (TodoHandler.GetTodo { cache := true, producer := true } createdWorld (Env.ok 20 21)
        (sampleContext "GET" "1" (.invalid "EOF"))).2 =
      { status := 200,
        body := .todo { ID := 1, Task := "buy milk", Completed := false,
                        CreatedAt := 10, UpdatedAt := 10 } } ∧
    (TodoHandler.DeleteTodo { cache := true, producer := true } createdWorld
        { Env.ok 20 21 with execErr := some "database is locked" }
        (sampleContext "DELETE" "1" (.invalid "EOF"))).2 =
      { status := 500,
        body := .error { Error := "Failed to delete todo", Details := "" } } :=
  ⟨rfl,
   ((status_mapping { cache := true, producer := true } createdWorld (Env.ok 20 21)
      (sampleContext "GET" "1" (.invalid "EOF"))).2.1 1 rfl).1 _ rfl,
   ((status_mapping { cache := true, producer := true } createdWorld
      { Env.ok 20 21 with execErr := some "database is locked" }
      (sampleContext "DELETE" "1" (.invalid "EOF"))).2.2.2.1 1 rfl).2 _ rfl⟩

/-- C12: whatever the cache operations and the publisher answer, `CreateTodo`,
`UpdateTodo` and `DeleteTodo` return exactly what the repository call returned, and
`GetTodo` and `GetAllTodos` either return a cache hit with a nil error, having issued
only the cache lookup, or call the repository and return exactly what it returned.  So
no operation returns an error unless its repository call returned that error, and an
operation whose repository call succeeds returns the repository's result. -/
theorem errors_only_from_repository (s : TodoService) (w : World) (env : Env) :
    (∀ req, (s.CreateTodo w env req).2 = (SQLiteTodoRepository.Create w.db env req.Task).2) ∧
    (∀ id req,
      (s.UpdateTodo w env id req).2 = (SQLiteTodoRepository.Update w.db env id req).2) ∧
    (∀ id, (s.DeleteTodo w env id).2 = (SQLiteTodoRepository.Delete w.db env id).2) ∧
    (∀ id,
      ((∃ t, (s.GetTodo w env id).2 = .ok (some t)) ∧
        (s.GetTodo w env id).1.calls = w.calls ++ [.cacheGetTodo id]) ∨
      ((s.GetTodo w env id).2 = SQLiteTodoRepository.GetByID w.db env id ∧
        ∃ added, (s.GetTodo w env id).1.calls = w.calls ++ added ∧
          Call.repoGetByID id ∈ added)) ∧
    (((∃ l, (s.GetAllTodos w env).2 = .ok (some l)) ∧
        (s.GetAllTodos w env).1.calls = w.calls ++ [.cacheGetTodos]) ∨
      ((s.GetAllTodos w env).2 = SQLiteTodoRepository.GetAll w.db env ∧
        ∃ added, (s.GetAllTodos w env).1.calls = w.calls ++ added ∧
          Call.repoGetAll ∈ added)) := by
  refine ⟨fun req => CreateTodo_result s w env req, fun id req => UpdateTodo_result s w env id req,
    fun id => ?_, fun id => ?_, ?_⟩
  · rw [DeleteTodo_result, Delete_eq]
    cases env.execErr <;> rfl
  · cases hl : cacheLookup s w env id with
    | some t =>
      left
      unfold cacheLookup at hl
      split_ifs at hl with hc
      rw [GetTodo_hit_world s w env id t hc.1 hc.2 hl]
      exact ⟨⟨t, rfl⟩, rfl⟩
    | none =>
      right
      have hgc := (GetTodo_cache_db w env id).2.2.2
      rw [GetTodo_miss_world s w env id hl]
      cases hr : SQLiteTodoRepository.GetByID w.db env id with
      | error e =>
        refine ⟨rfl, ?_⟩
        cases hc : s.cache <;>
          simp [World.opTotal, World.inc, World.call, hgc, List.append_assoc]
      | ok o =>
        cases o with
        | none =>
          refine ⟨rfl, ?_⟩
          cases hc : s.cache <;>
            simp [World.opTotal, World.inc, World.call, hgc, List.append_assoc]
        | some t =>
          refine ⟨rfl, ?_⟩
          cases hc : s.cache <;> cases hs : env.cacheSetErr <;>
            simp [World.opTotal, World.inc, World.call, RedisCache.SetTodo, hs, hgc,
              List.append_assoc]
  · cases hl : listLookup s w env with
    | some l =>
      left
      unfold listLookup at hl
      split_ifs at hl with hc
      cases ha : w.redis.all with
      | none => simp [ha] at hl
      | some data =>
        obtain ⟨d, ttl⟩ := data
        cases d with
        | none => simp [ha] at hl
        | some l2 =>
          rw [GetAllTodos_hit_world s w env l2 ttl hc.1 hc.2 ha]
          exact ⟨⟨l2, rfl⟩, rfl⟩
    | none =>
      right
      have hgc := (GetTodos_db w env).2.2.2
      rw [GetAllTodos_miss_world s w env hl]
      cases hr : SQLiteTodoRepository.GetAll w.db env with
      | error e =>
        refine ⟨rfl, ?_⟩
        cases hc : s.cache <;>
          simp [World.opTotal, World.inc, World.call, hgc, List.append_assoc]
      | ok o =>
        refine ⟨rfl, ?_⟩
        cases hc : s.cache <;> cases hs : env.cacheSetErr <;>
          simp [World.opTotal, World.inc, World.call, RedisCache.SetTodos, hs, hgc,
            List.append_assoc]

/-- C12, at a concrete input: every cache call and the publish fail, the repository
works, and `CreateTodo` returns the created todo with a nil error. -/
theorem errors_only_from_repository_witness :
    (TodoService.CreateTodo { cache := true, producer := true } emptyWorld
        { Env.ok 10 11 with cacheSetErr := some "connection refused",
                            cacheInvalidateErr := some "connection refused",
                            publishErr := some "broker unreachable" }
        { Task := "buy milk" }).2 =
      .ok { ID := 1, Task := "buy milk", Completed := false, CreatedAt := 10, UpdatedAt := 10 } :=
  ((errors_only_from_repository { cache := true, producer := true } emptyWorld
      { Env.ok 10 11 with cacheSetErr := some "connection refused",
                          cacheInvalidateErr := some "connection refused",
                          publishErr := some "broker unreachable" }).1
    { Task := "buy milk" }).trans rfl

/-- C13, as amended: cache lookup failures and publish failures do not affect the
results.  From a world whose cache agrees with the store, for every sequence of service
operations in environments where no read of the store fails (neither a query nor
`LastInsertId`) and no cache write, cache delete or list invalidation fails (cache
lookups, the publisher and `db.Exec` may fail in any pattern), each operation returns
the same result as the same sequence run on a service with no cache and no publisher. -/
theorem cache_refines_store (s : TodoService) (w : World) (ops : List (Env × Op))
    (hco : w.Coherent) (henv : ∀ p ∈ ops, p.1.CacheFollows) :
    TodoService.run s w ops =
      TodoService.run { cache := false, producer := false } w ops := by
  have hgen : ∀ (l : List (Env × Op)) (wc wu : World), wc.db = wu.db →
      (s.cache = true → wc.Coherent) → (∀ p ∈ l, p.1.CacheFollows) →
      TodoService.run s wc l =
        TodoService.run { cache := false, producer := false } wu l := by
    intro l
    induction l with
    | nil => intro _ _ _ _ _; rfl
    | cons p rest ih =>
      intro wc wu hdb hc hl
      obtain ⟨env, op⟩ := p
      obtain ⟨h1, h2, h3⟩ := step_sim s wc wu env op hdb hc (hl (env, op) (by simp))
      simp only [TodoService.run]
      rw [h1, ih _ _ h2 h3 (fun q hq => hl q (List.mem_cons_of_mem _ hq))]
  exact hgen ops w w rfl (fun _ => hco) henv

/-- C13 as amended, at a concrete input: create, get, list, update, get, delete, get and
list from the empty world, with failing cache lookups and failing publishes. -/
theorem cache_refines_store_witness :
    emptyWorld.Coherent ∧
    TodoService.run { cache := true, producer := true } emptyWorld
        [({ Env.ok 10 11 with publishErr := some "broker unreachable" },
          .create { Task := "buy milk" }),
         (Env.ok 12 13, .get 1),
         ({ Env.ok 14 15 with cacheGetErr := some "i/o timeout" }, .getAll),
         (Env.ok 20 21, .update 1 { Task := none, Completed := some true }),
         ({ Env.ok 22 23 with cacheGetErr := some "i/o timeout" }, .get 1),
         ({ Env.ok 30 31 with publishErr := some "broker unreachable" }, .delete 1),
         (Env.ok 32 33, .get 1),
         (Env.ok 34 35, .getAll)] =
      TodoService.run { cache := false, producer := false } emptyWorld
        [({ Env.ok 10 11 with publishErr := some "broker unreachable" },
          .create { Task := "buy milk" }),
         (Env.ok 12 13, .get 1),
         ({ Env.ok 14 15 with cacheGetErr := some "i/o timeout" }, .getAll),
         (Env.ok 20 21, .update 1 { Task := none, Completed := some true }),
         ({ Env.ok 22 23 with cacheGetErr := some "i/o timeout" }, .get 1),
         ({ Env.ok 30 31 with publishErr := some "broker unreachable" }, .delete 1),
         (Env.ok 32 33, .get 1),
         (Env.ok 34 35, .getAll)] :=
  ⟨Coherent_empty,
   cache_refines_store { cache := true, producer := true } emptyWorld _ Coherent_empty
     (by
       intro p hp
       simp only [List.mem_cons, List.mem_singleton, List.not_mem_nil, or_false] at hp
       rcases hp with h | h | h | h | h | h | h | h <;> subst h <;>
         exact ⟨rfl, rfl, rfl, rfl, rfl⟩)⟩

/-- C13 as stated fails: a todo is created as `"a"`, then updated to `"b"` while the
Redis `SET` of the update fails, then read.  The service with a cache returns the stale
task `"a"`; the service with no cache and no publisher returns `"b"`. -/
theorem stale_read_after_failed_cache_write :
    TodoService.run { cache := true, producer := true } emptyWorld
        [(Env.ok 10 11, .create { Task := "a" }),
         ({ Env.ok 20 21 with cacheSetErr := some "i/o timeout" },
          .update 1 { Task := some "b", Completed := none }),
         (Env.ok 30 31, .get 1)] =
      [.create (.ok { ID := 1, Task := "a", Completed := false,
                      CreatedAt := 10, UpdatedAt := 10 }),
       .update (.ok (some { ID := 1, Task := "b", Completed := false,
                            CreatedAt := 10, UpdatedAt := 20 })),
       .get (.ok (some { ID := 1, Task := "a", Completed := false,
                         CreatedAt := 10, UpdatedAt := 10 }))] ∧
    TodoService.run { cache := false, producer := false } emptyWorld
        [(Env.ok 10 11, .create { Task := "a" }),
         ({ Env.ok 20 21 with cacheSetErr := some "i/o timeout" },
          .update 1 { Task := some "b", Completed := none }),
         (Env.ok 30 31, .get 1)] =
      [.create (.ok { ID := 1, Task := "a", Completed := false,
                      CreatedAt := 10, UpdatedAt := 10 }),
       .update (.ok (some { ID := 1, Task := "b", Completed := false,
                            CreatedAt := 10, UpdatedAt := 20 })),
       .get (.ok (some { ID := 1, Task := "b", Completed := false,
                         CreatedAt := 10, UpdatedAt := 20 }))] :=
  ⟨rfl, rfl⟩

/-- C14: for `CreateTodo`, `UpdateTodo` and `DeleteTodo`, when the repository call
returns an error the service returns that error and no todo, the cache contents and the
topic are unchanged, and the only call issued is the repository call: no cache write, no
cache delete, no list-cache invalidation and no event publish. -/
theorem repository_error_aborts (s : TodoService) (w : World) (env : Env) :
    (∀ req e, (SQLiteTodoRepository.Create w.db env req.Task).2 = .error e →
      (s.CreateTodo w env req).2 = .error e ∧
      (s.CreateTodo w env req).1.redis = w.redis ∧
      (s.CreateTodo w env req).1.topic = w.topic ∧
      (s.CreateTodo w env req).1.calls = w.calls ++ [.repoCreate req.Task]) ∧
    (∀ id req e, (SQLiteTodoRepository.Update w.db env id req).2 = .error e →
      (s.UpdateTodo w env id req).2 = .error e ∧
      (s.UpdateTodo w env id req).1.redis = w.redis ∧
      (s.UpdateTodo w env id req).1.topic = w.topic ∧
      (s.UpdateTodo w env id req).1.calls = w.calls ++ [.repoUpdate id req]) ∧
    (∀ id e, (SQLiteTodoRepository.Delete w.db env id).2 = some e →
      (s.DeleteTodo w env id).2 = some e ∧
      (s.DeleteTodo w env id).1.redis = w.redis ∧
      (s.DeleteTodo w env id).1.topic = w.topic ∧
      (s.DeleteTodo w env id).1.calls = w.calls ++ [.repoDelete id]) := by
  refine ⟨fun req e h => ?_, fun id req e h => ?_, fun id e h => ?_⟩
  · rw [CreateTodo_error_world s w env req e h]
    exact ⟨rfl, rfl, rfl, rfl⟩
  · rw [UpdateTodo_error_world s w env id req e h]
    exact ⟨rfl, rfl, rfl, rfl⟩
  · have hx : env.execErr = some e := by
      rw [Delete_eq] at h
      cases hx : env.execErr with
      | none => simp [hx] at h
      | some e2 =>
        simp only [hx, Option.some.injEq] at h
        rw [h]
    rw [DeleteTodo_error_world s w env id e hx]
    exact ⟨rfl, rfl, rfl, rfl⟩

/-- C14, at a concrete input: `db.Exec` fails during `CreateTodo` on a service with a
cache and a producer. -/
theorem repository_error_aborts_witness :
    (SQLiteTodoRepository.Create createdWorld.db
        { Env.ok 20 21 with execErr := some "database is locked" } "walk the dog").2 =
      .error "database is locked" ∧
    (TodoService.CreateTodo { cache := true, producer := true } createdWorld
        { Env.ok 20 21 with execErr := some "database is locked" }
        { Task := "walk the dog" }).2 = .error "database is locked" ∧
    (TodoService.CreateTodo { cache := true, producer := true } createdWorld
        { Env.ok 20 21 with execErr := some "database is locked" }
        { Task := "walk the dog" }).1.redis = createdWorld.redis ∧
    (TodoService.CreateTodo { cache := true, producer := true } createdWorld
        { Env.ok 20 21 with execErr := some "database is locked" }
        { Task := "walk the dog" }).1.topic = createdWorld.topic ∧
    (TodoService.CreateTodo { cache := true, producer := true } createdWorld
        { Env.ok 20 21 with execErr := some "database is locked" }
        { Task := "walk the dog" }).1.calls =
      createdWorld.calls ++ [.repoCreate "walk the dog"] :=
  ⟨rfl,
   (repository_error_aborts { cache := true, producer := true } createdWorld
      { Env.ok 20 21 with execErr := some "database is locked" }).1
      { Task := "walk the dog" } "database is locked" rfl⟩

/-- C15: with a cache configured, when the cache lookup returns an entry without error
`GetTodo` returns that entry with a nil error, issues no call but the lookup and leaves
the store and the cache as they were; on a cache miss or a cache error it returns what
the repository returns, and when the repository finds the todo the calls are the
lookup, the repository read and then the cache write of that todo for 30 minutes, which
stores it under its id when the write goes through. -/
theorem get_reads_cache_first (s : TodoService) (w : World) (env : Env) (id : Int)
    (hc : s.cache = true) :
    (∀ t, env.cacheGetErr = none → w.redis.get id = some t →
      (s.GetTodo w env id).2 = .ok (some t) ∧
      (s.GetTodo w env id).1.calls = w.calls ++ [.cacheGetTodo id] ∧
      (s.GetTodo w env id).1.db = w.db ∧
      (s.GetTodo w env id).1.redis = w.redis) ∧
    ((env.cacheGetErr ≠ none ∨ w.redis.get id = none) →
      (s.GetTodo w env id).2 = SQLiteTodoRepository.GetByID w.db env id ∧
      (∀ todo, SQLiteTodoRepository.GetByID w.db env id = .ok (some todo) →
        (s.GetTodo w env id).1.calls =
          w.calls ++ [.cacheGetTodo id, .repoGetByID id, .cacheSetTodo todo (30 * Minute)] ∧
        (env.cacheSetErr = none →
          (s.GetTodo w env id).1.redis = w.redis.set todo.ID todo (30 * Minute))) ∧
      ((∀ todo, SQLiteTodoRepository.GetByID w.db env id ≠ .ok (some todo)) →
        (s.GetTodo w env id).1.calls = w.calls ++ [.cacheGetTodo id, .repoGetByID id] ∧
        (s.GetTodo w env id).1.redis = w.redis)) := by
  constructor
  · intro t hg hr
    rw [GetTodo_hit_world s w env id t hc hg hr]
    exact ⟨rfl, rfl, rfl, rfl⟩
  · intro hmiss
    have hl : cacheLookup s w env id = none :=
      cacheLookup_none s w env id (Or.inr hmiss)
    have hres : (s.GetTodo w env id).2 = SQLiteTodoRepository.GetByID w.db env id := by
      rw [GetTodo_result, hl]
    refine ⟨hres, fun todo hr => ?_, fun hno => ?_⟩
    · unfold TodoService.GetTodo TodoService.repoGetByID RedisCache.GetTodo RedisCache.SetTodo
      simp only [World.call, World.opTotal, World.inc]
      rcases hmiss with hg | hg
      · cases hge : env.cacheGetErr with
        | none => exact absurd hge hg
        | some e => cases hs : env.cacheSetErr <;> simp [hc, hr]
      · cases hge : env.cacheGetErr <;> cases hs : env.cacheSetErr <;> simp [hc, hr, hg]
    · unfold TodoService.GetTodo TodoService.repoGetByID RedisCache.GetTodo RedisCache.SetTodo
      simp only [World.call, World.opTotal, World.inc]
      cases hr : SQLiteTodoRepository.GetByID w.db env id with
      | error e =>
        rcases hmiss with hg | hg
        · cases hge : env.cacheGetErr with
          | none => exact absurd hge hg
          | some e => simp [hc, hr]
        · cases hge : env.cacheGetErr <;> simp [hc, hr, hg]
      | ok o =>
        cases o with
        | some t => exact absurd hr (hno t)
        | none =>
          rcases hmiss with hg | hg
          · cases hge : env.cacheGetErr with
            | none => exact absurd hge hg
            | some e => simp [hc, hr]
          · cases hge : env.cacheGetErr <;> simp [hc, hr, hg]

/-- C15, at concrete inputs: todo 1 is served from the cache of `createdWorld`, and is
read from the store and written back to the cache when the lookup fails. -/
theorem get_reads_cache_first_witness :
    (TodoService.GetTodo { cache := true, producer := true } createdWorld (Env.ok 20 21) 1).2 =
      .ok (some { ID := 1, Task := "buy milk", Completed := false,
                  CreatedAt := 10, UpdatedAt := 10 }) ∧
    (TodoService.GetTodo { cache := true, producer := true } createdWorld
        (Env.ok 20 21) 1).1.calls = createdWorld.calls ++ [.cacheGetTodo 1] ∧
    (TodoService.GetTodo { cache := true, producer := true } createdWorld
        { Env.ok 20 21 with cacheGetErr := some "i/o timeout" } 1).1.calls =
      createdWorld.calls ++
        [.cacheGetTodo 1, .repoGetByID 1,
         .cacheSetTodo { ID := 1, Task := "buy milk", Completed := false,
                         CreatedAt := 10, UpdatedAt := 10 } (30 * Minute)] :=
  ⟨((get_reads_cache_first { cache := true, producer := true } createdWorld (Env.ok 20 21) 1
      rfl).1 _ rfl rfl).1,
   ((get_reads_cache_first { cache := true, producer := true } createdWorld (Env.ok 20 21) 1
      rfl).1 _ rfl rfl).2.1,
   (((get_reads_cache_first { cache := true, producer := true } createdWorld
      { Env.ok 20 21 with cacheGetErr := some "i/o timeout" } 1 rfl).2
      (Or.inl (by simp))).2.1 _ rfl).1⟩

/-- C16: with a cache whose write and lookup go through, `GetTodo(N)` run on the world
`CreateTodo` left, N being the id of the todo it returned, returns that todo (the same
ID, Task and Completed) from the cache, records the `cache_hit` outcome and issues no
call but the cache lookup, whether or not the repository fails by then. -/
theorem get_after_create_hits_cache (s : TodoService) (w w1 : World) (env envGet : Env)
    (req : TodoCreateRequest) (todo : Todo) (hc : s.cache = true)
    (hcreate : s.CreateTodo w env req = (w1, .ok todo))
    (hset : env.cacheSetErr = none) (hget : envGet.cacheGetErr = none) :
    s.GetTodo w1 envGet todo.ID =
      ({ w1 with calls := w1.calls ++ [.cacheGetTodo todo.ID],
                 counters := w1.counters ++
                   [{ name := "cache_hits_total", labels := [] },
                    { name := "todo_operations_total", labels := ["get", "cache_hit"] }] },
       .ok (some todo)) ∧
    todo.Task = req.Task ∧ todo.Completed = false := by
  obtain ⟨hcr, _, hredis⟩ := CreateTodo_world s w w1 env req todo hcreate
  obtain ⟨htodo, _⟩ := Create_ok w.db env req.Task todo hcr
  have hentry : w1.redis.get todo.ID = some todo := by
    rw [hredis]
    simp [hc, hset]
  refine ⟨GetTodo_hit_world s w1 envGet todo.ID todo hc hget hentry, ?_, ?_⟩
  · rw [htodo]
  · rw [htodo]

/-- C16, at a concrete input: the get after the create succeeds from the cache although
every read of the store fails by then. -/
theorem get_after_create_hits_cache_witness :
    (TodoService.GetTodo { cache := true, producer := true } createdWorld
        { Env.ok 20 21 with queryErr := some "database is locked" } 1).2 =
      .ok (some { ID := 1, Task := "buy milk", Completed := false,
                  CreatedAt := 10, UpdatedAt := 10 }) ∧
    (TodoService.GetTodo { cache := true, producer := true } createdWorld
        { Env.ok 20 21 with queryErr := some "database is locked" } 1).1.calls =
      createdWorld.calls ++ [.cacheGetTodo 1] :=
  have h := (get_after_create_hits_cache { cache := true, producer := true } emptyWorld
    createdWorld (Env.ok 10 11) { Env.ok 20 21 with queryErr := some "database is locked" }
    { Task := "buy milk" }
    { ID := 1, Task := "buy milk", Completed := false, CreatedAt := 10, UpdatedAt := 10 }
    rfl rfl rfl rfl).1
  ⟨congrArg Prod.snd h, congrArg (fun r => r.1.calls) h⟩

/-- C17: when the query goes through, `SQLiteTodoRepository.GetAll` returns a slice that
holds every stored todo exactly once (it is a permutation of the rows), ordered by
CreatedAt from newest to oldest, and nil exactly when the store is empty; and
`TodoService.GetAllTodos` returns that same slice without a cache, on a cache error, on a
cache miss, and when the cached value is `null`. -/
theorem getAll_newest_first (s : TodoService) (w : World) (env : Env)
    (hread : env.queryErr = none) :
    ∃ todos : TodoSlice,
      SQLiteTodoRepository.GetAll w.db env = .ok todos ∧
      (todos.getD []).Perm w.db.rows ∧
      (todos.getD []).Pairwise (fun a b => b.CreatedAt ≤ a.CreatedAt) ∧
      (todos = none ↔ w.db.rows = []) ∧
      ((s.cache = false ∨ env.cacheGetErr ≠ none ∨ w.redis.all = none ∨
          ∃ ttl, w.redis.all = some (none, ttl)) →
        (s.GetAllTodos w env).2 = .ok todos) := by
  refine ⟨w.db.allTodos, by rw [GetAll_eq, hread], ?_, ?_, ?_, ?_⟩
  · rw [allTodos_eq]
    by_cases h : w.db.rows = []
    · simp [h]
    · simp only [h, if_false, Option.getD_some]
      exact List.perm_insertionSort newerFirst w.db.rows
  · rw [allTodos_eq]
    by_cases h : w.db.rows = []
    · simp [h]
    · simp only [h, if_false, Option.getD_some]
      exact newerFirst_sorted w.db.rows
  · rw [allTodos_eq]
    by_cases h : w.db.rows = [] <;> simp [h]
  · intro hmiss
    have hl : listLookup s w env = none := by
      unfold listLookup
      rcases hmiss with h | h | h | ⟨ttl, h⟩
      · simp [h]
      · simp [h]
      · simp [h]
      · simp [h]
    rw [GetAllTodos_result, hl]
    simp only [GetAll_eq, hread]

/-- C17, at a concrete input: the store with todo 1 created at 10 and todo 2 created at
20 is listed as todo 2, todo 1, by the repository and by the service without a cache. -/
theorem getAll_newest_first_witness :
    (Env.ok 30 31).queryErr = none ∧
    SQLiteTodoRepository.GetAll twoTodoDB (Env.ok 30 31) =
      .ok (some [{ ID := 2, Task := "walk the dog", Completed := true,
                   CreatedAt := 20, UpdatedAt := 25 },
                 { ID := 1, Task := "buy milk", Completed := false,
                   CreatedAt := 10, UpdatedAt := 10 }]) ∧
    ∃ todos : TodoSlice,
      SQLiteTodoRepository.GetAll twoTodoDB (Env.ok 30 31) = .ok todos ∧
      (todos.getD []).Perm twoTodoDB.rows ∧
      (todos.getD []).Pairwise (fun a b => b.CreatedAt ≤ a.CreatedAt) ∧
      (TodoService.GetAllTodos { cache := false, producer := false }
        { emptyWorld with db := twoTodoDB } (Env.ok 30 31)).2 = .ok todos :=
  ⟨rfl, rfl,
   match getAll_newest_first { cache := false, producer := false }
      { emptyWorld with db := twoTodoDB } (Env.ok 30 31) rfl with
   | ⟨todos, h1, h2, h3, _, h5⟩ => ⟨todos, h1, h2, h3, h5 (Or.inl rfl)⟩⟩

/-- C18, as amended: for every todo `t` stored under `id`, an update that supplies only
completed, when the store accepts the read and the write, replaces UpdatedAt, in the
returned Todo and in the row stored under `id`, with the clock reading of the update
call, and leaves CreatedAt and Task as they were; that UpdatedAt is strictly later than
CreatedAt when the reading is strictly later than the creation time, and not earlier
when the reading is not earlier. -/
theorem update_refreshes_timestamp (db : DB) (env : Env) (id : Int) (completed : Bool)
    (t : Todo) (hfound : db.rows.find? (fun x => x.ID == id) = some t)
    (hread : env.queryErr = none) (hexec : env.execErr = none) :
    ∃ u : Todo,
      (SQLiteTodoRepository.Update db env id
        { Task := none, Completed := some completed }).2 = .ok (some u) ∧
      (SQLiteTodoRepository.Update db env id
        { Task := none, Completed := some completed }).1.rows.find?
          (fun x => x.ID == id) = some u ∧
      u.UpdatedAt = env.now ∧ u.CreatedAt = t.CreatedAt ∧ u.Task = t.Task ∧
      u.Completed = completed ∧
      (t.CreatedAt < env.now → u.CreatedAt < u.UpdatedAt) ∧
      (t.CreatedAt ≤ env.now → u.CreatedAt ≤ u.UpdatedAt) := by
  refine ⟨{ t with Completed := completed, UpdatedAt := env.now }, ?_, ?_, rfl, rfl, rfl, rfl,
    fun h => h, fun h => h⟩
  · rw [Update_found db env id _ t hfound hread]
    simp [DB.execUpdate, hexec]
  · rw [Update_found db env id _ t hfound hread]
    simp only [DB.execUpdate, hexec, Option.getD_none, Option.getD_some]
    exact find_map_update db.rows id
      (fun x => { x with Task := t.Task, Completed := completed, UpdatedAt := env.now })
      (fun _ => rfl) t hfound

/-- C18 as amended, at a concrete input: todo 1 of `oneTodoDB`, created at instant 10,
is completed at instant 20. -/
theorem update_refreshes_timestamp_witness :
    oneTodoDB.rows.find? (fun x => x.ID == 1) =
      some { ID := 1, Task := "buy milk", Completed := false,
             CreatedAt := 10, UpdatedAt := 10 } ∧
    ∃ u : Todo,
      (SQLiteTodoRepository.Update oneTodoDB (Env.ok 20 21) 1
        { Task := none, Completed := some true }).2 = .ok (some u) ∧
      u.UpdatedAt = 20 ∧ u.CreatedAt = 10 ∧ u.CreatedAt < u.UpdatedAt :=
  ⟨rfl,
   match update_refreshes_timestamp oneTodoDB (Env.ok 20 21) 1 true
      { ID := 1, Task := "buy milk", Completed := false, CreatedAt := 10, UpdatedAt := 10 }
      rfl rfl rfl with
   | ⟨u, h1, _, h3, h4, _, _, h7, _⟩ => ⟨u, h1, h3, h4, h7 (by decide)⟩⟩

/-- C18 as stated fails: `"buy milk"` is created at the clock reading 10 and completed
by an update whose call reads 10 again; the returned UpdatedAt equals CreatedAt and is
not strictly later. -/
theorem update_same_instant :
    ∃ u : Todo,
      (SQLiteTodoRepository.Update
        (SQLiteTodoRepository.Create emptyWorld.db (Env.ok 10 10) "buy milk").1
        (Env.ok 10 10) 1 { Task := none, Completed := some true }).2 = .ok (some u) ∧
      u.CreatedAt = 10 ∧ u.UpdatedAt = 10 ∧ ¬ (u.CreatedAt < u.UpdatedAt) :=
  ⟨{ ID := 1, Task := "buy milk", Completed := true, CreatedAt := 10, UpdatedAt := 10 },
   rfl, rfl, rfl, by decide⟩

/-- C19: given a clock that never goes backwards (the reading `env.now` of the operation
is not earlier than `clock`, which is not earlier than any stored timestamp), the row
`Create` inserts has UpdatedAt no earlier than CreatedAt, and `Create`, `Update`,
`UpdateStatus` and `Delete` each leave a store in which every todo has UpdatedAt no
earlier than CreatedAt and no later than the new reading. -/
theorem timestamps_ordered (db : DB) (env : Env) (clock : Time)
    (h : db.TimesOrdered clock) (hclock : clock ≤ env.now) :
    (∀ task todo, (SQLiteTodoRepository.Create db env task).2 = .ok todo →
      todo.CreatedAt ≤ todo.UpdatedAt ∧ todo ∈ (SQLiteTodoRepository.Create db env task).1.rows) ∧
    (∀ task, (SQLiteTodoRepository.Create db env task).1.TimesOrdered env.now) ∧
    (∀ id req, (SQLiteTodoRepository.Update db env id req).1.TimesOrdered env.now) ∧
    (∀ id completed,
      (SQLiteTodoRepository.UpdateStatus db env id completed).1.TimesOrdered env.now) ∧
    (∀ id, (SQLiteTodoRepository.Delete db env id).1.TimesOrdered env.now) := by
  have hweak : db.TimesOrdered env.now := fun t ht =>
    ⟨(h t ht).1, le_trans (h t ht).2 hclock⟩
  refine ⟨fun task todo hc => ?_, fun task => ?_, fun id req => ?_, fun id completed => ?_,
    fun id => ?_⟩
  · obtain ⟨htodo, hrows⟩ := Create_ok db env task todo hc
    refine ⟨by rw [htodo], ?_⟩
    rw [hrows]
    simp
  · unfold SQLiteTodoRepository.Create DB.execInsert
    cases hx : env.execErr with
    | some e => exact hweak
    | none =>
      by_cases hf : maxInt64 < db.nextID
      · simp only [hf, if_true]
        exact hweak
      · have hnew : DB.TimesOrdered
            { rows := db.rows ++ [{ ID := db.nextID, Task := task, Completed := false,
                                    CreatedAt := env.now, UpdatedAt := env.now }],
              seq := db.nextID } env.now := by
          intro t ht
          simp only [List.mem_append, List.mem_singleton] at ht
          rcases ht with ht | rfl
          · exact hweak t ht
          · exact ⟨le_refl _, le_refl _⟩
        simp only [hf, if_false]
        cases hl : env.lastInsertIdErr <;> exact hnew
  · unfold SQLiteTodoRepository.Update
    cases hg : SQLiteTodoRepository.GetByID db env id with
    | error e => exact hweak
    | ok o =>
      cases o with
      | none => exact hweak
      | some t =>
        simp only [DB.execUpdate]
        cases hx : env.execErr with
        | some e => exact hweak
        | none =>
          intro x hx2
          simp only [List.mem_map] at hx2
          obtain ⟨y, hy, hxy⟩ := hx2
          have hy2 := h y hy
          by_cases hid : (y.ID == id) = true
          · simp only [hid, if_true] at hxy
            rw [← hxy]
            exact ⟨le_trans hy2.1 (le_trans hy2.2 hclock), le_refl _⟩
          · simp only [hid, if_false] at hxy
            rw [← hxy]
            exact hweak y hy
  · unfold SQLiteTodoRepository.UpdateStatus DB.execUpdateStatus
    cases hx : env.execErr with
    | some e => exact hweak
    | none =>
      intro x hx2
      simp only [List.mem_map] at hx2
      obtain ⟨y, hy, hxy⟩ := hx2
      have hy2 := h y hy
      by_cases hid : (y.ID == id) = true
      · simp only [hid, if_true] at hxy
        rw [← hxy]
        exact ⟨le_trans hy2.1 (le_trans hy2.2 hclock), le_refl _⟩
      · simp only [hid, if_false] at hxy
        rw [← hxy]
        exact hweak y hy
  · rw [Delete_eq]
    cases hx : env.execErr with
    | some e => exact hweak
    | none => exact fun t ht => hweak t (List.mem_filter.mp ht).1

/-- C19, at a concrete input: `oneTodoDB`, whose timestamps are at most 10, is updated
at the clock reading 20. -/
theorem timestamps_ordered_witness :
    oneTodoDB.TimesOrdered 10 ∧ 10 ≤ (Env.ok 20 21).now ∧
    (SQLiteTodoRepository.Update oneTodoDB (Env.ok 20 21) 1
      { Task := none, Completed := some true }).1.TimesOrdered (Env.ok 20 21).now :=
  have h : oneTodoDB.TimesOrdered 10 := by
    intro t ht
    simp only [oneTodoDB, List.mem_singleton] at ht
    subst ht
    exact ⟨le_refl _, le_refl _⟩
  ⟨h, by decide,
   (timestamps_ordered oneTodoDB (Env.ok 20 21) 10 h (by decide)).2.2.1 1
     { Task := none, Completed := some true }⟩

/-- C20: with a cache and a publisher configured, whatever the cache and the publisher
answer, a successful `CreateTodo` or `UpdateTodo` issues exactly the calls repository
write, cache write of the returned todo, list-cache invalidation, event publish, in that
order; a successful `DeleteTodo` issues exactly repository delete, cache entry removal,
list-cache invalidation, event publish.  The publish appears once, also when it fails,
and the store is the one the repository call left. -/
theorem mutation_call_order (s : TodoService) (w : World) (env : Env)
    (hc : s.cache = true) (hp : s.producer = true) :
    (∀ req todo, (SQLiteTodoRepository.Create w.db env req.Task).2 = .ok todo →
      (s.CreateTodo w env req).2 = .ok todo ∧
      (s.CreateTodo w env req).1.calls =
        w.calls ++ [.repoCreate req.Task, .cacheSetTodo todo (30 * Minute),
                    .cacheInvalidateTodos,
                    .publishTodoEvent (CreateTodoCreatedEvent env todo)] ∧
      (s.CreateTodo w env req).1.db = (SQLiteTodoRepository.Create w.db env req.Task).1) ∧
    (∀ id req todo, (SQLiteTodoRepository.Update w.db env id req).2 = .ok (some todo) →
      (s.UpdateTodo w env id req).2 = .ok (some todo) ∧
      (s.UpdateTodo w env id req).1.calls =
        w.calls ++ [.repoUpdate id req, .cacheSetTodo todo (30 * Minute),
                    .cacheInvalidateTodos,
                    .publishTodoEvent (CreateTodoUpdatedEvent env todo)] ∧
      (s.UpdateTodo w env id req).1.db = (SQLiteTodoRepository.Update w.db env id req).1) ∧
    (∀ id, (SQLiteTodoRepository.Delete w.db env id).2 = none →
      (s.DeleteTodo w env id).2 = none ∧
      (s.DeleteTodo w env id).1.calls =
        w.calls ++ [.repoDelete id, .cacheDeleteTodo id, .cacheInvalidateTodos,
                    .publishTodoEvent (CreateTodoDeletedEvent env id)] ∧
      (s.DeleteTodo w env id).1.db = (SQLiteTodoRepository.Delete w.db env id).1) := by
  refine ⟨fun req todo h => ?_, fun id req todo h => ?_, fun id h => ?_⟩
  · rw [CreateTodo_ok_world s w env req todo h]
    refine ⟨rfl, ?_, ?_⟩
    · simp [World.opTotal, World.inc, publish_calls_eq, cacheStore_calls_eq, hc, hp]
    · simp [World.opTotal, World.inc, publish_db, cacheStore_db]
  · rw [UpdateTodo_ok_world s w env id req todo h]
    refine ⟨rfl, ?_, ?_⟩
    · simp [World.opTotal, World.inc, publish_calls_eq, cacheStore_calls_eq, hc, hp]
    · simp [World.opTotal, World.inc, publish_db, cacheStore_db]
  · have hx : env.execErr = none := by
      rw [Delete_eq] at h
      cases hx : env.execErr with
      | none => rfl
      | some e => simp [hx] at h
    refine ⟨by rw [DeleteTodo_result, hx], ?_, DeleteTodo_db s w env id⟩
    rw [DeleteTodo_ok_world s w env id hx]
    simp only [World.opTotal, World.inc, publish_calls_eq, hc, hp, if_true]
    unfold RedisCache.InvalidateTodos RedisCache.DeleteTodo
    simp only [World.call]
    cases env.cacheDelErr <;> cases env.cacheInvalidateErr <;> simp

/-- C20, at a concrete input: `DeleteTodo(1)` on `createdWorld` while the publish fails:
the four calls in order, the publish once, the row gone from the store and success
returned. -/
theorem mutation_call_order_witness :
    (SQLiteTodoRepository.Delete createdWorld.db
        { Env.ok 20 21 with publishErr := some "broker unreachable" } 1).2 = none ∧
    (TodoService.DeleteTodo { cache := true, producer := true } createdWorld
        { Env.ok 20 21 with publishErr := some "broker unreachable" } 1).2 = none ∧
    (TodoService.DeleteTodo { cache := true, producer := true } createdWorld
        { Env.ok 20 21 with publishErr := some "broker unreachable" } 1).1.calls =
      createdWorld.calls ++
        [.repoDelete 1, .cacheDeleteTodo 1, .cacheInvalidateTodos,
         .publishTodoEvent (CreateTodoDeletedEvent
           { Env.ok 20 21 with publishErr := some "broker unreachable" } 1)] ∧
    (TodoService.DeleteTodo { cache := true, producer := true } createdWorld
        { Env.ok 20 21 with publishErr := some "broker unreachable" } 1).1.db =
      (SQLiteTodoRepository.Delete createdWorld.db
        { Env.ok 20 21 with publishErr := some "broker unreachable" } 1).1 :=
  ⟨rfl,
   (mutation_call_order { cache := true, producer := true } createdWorld
      { Env.ok 20 21 with publishErr := some "broker unreachable" } rfl rfl).2.2 1 rfl⟩

/-! ## Lemmas: the messages of the validator -/

theorem fieldError_ne (ns field tag : String) : fieldError ns field tag ≠ "" := by
  intro h
  have hl := congrArg String.length h
  simp only [fieldError, String.length_append] at hl
  have h6 : ("Key: \x27" : String).length = 6 := by decide
  rw [h6] at hl
  have h0 : ("" : String).length = 0 := rfl
  rw [h0] at hl
  omega

theorem validateCreate_message (req : TodoCreateRequest) (err : Error)
    (h : validateCreate req = some err) : err ≠ "" := by
  unfold validateCreate at h
  split_ifs at h <;> simp only [Option.some.injEq, reduceCtorEq] at h <;> subst h <;>
    exact fieldError_ne _ _ _

theorem validateUpdate_message (req : TodoUpdateRequest) (err : Error)
    (h : validateUpdate req = some err) : err ≠ "" := by
  unfold validateUpdate at h
  cases ht : req.Task with
  | none => simp [ht] at h
  | some task =>
    simp only [ht] at h
    split_ifs at h <;> simp only [Option.some.injEq, reduceCtorEq] at h <;> subst h <;>
      exact fieldError_ne _ _ _

/-! ## Lemmas: the cache agrees with the store, the nil list included -/

theorem CacheAgrees_of_eq (w w2 : World) (h : w.CacheAgrees) (hdb : w2.db = w.db)
    (hr : w2.redis = w.redis) : w2.CacheAgrees := by
  unfold World.CacheAgrees
  rw [hdb, hr]
  exact h

theorem CacheAgrees_empty : emptyWorld.CacheAgrees := by
  constructor
  · intro id t h
    simp [emptyWorld, Redis.get] at h
  · intro d ttl h
    simp [emptyWorld] at h

theorem CreateTodo_CacheAgrees (s : TodoService) (w : World) (env : Env)
    (req : TodoCreateRequest) (hc : s.cache = true) (h : w.CacheAgrees)
    (henv : env.CacheKeepsUp) : (s.CreateTodo w env req).1.CacheAgrees := by
  obtain ⟨hs, _, hi, hl⟩ := henv
  cases hr : (SQLiteTodoRepository.Create w.db env req.Task).2 with
  | error e =>
    rw [CreateTodo_error_world s w env req e hr]
    exact CacheAgrees_of_eq w _ h (Create_error_db w.db env req.Task e hl hr) rfl
  | ok todo =>
    obtain ⟨htodo, hrows⟩ := Create_ok w.db env req.Task todo hr
    have hid : todo.ID = w.db.nextID := by rw [htodo]
    rw [CreateTodo_ok_world s w env req todo hr]
    constructor
    · intro id t hget
      simp only [World.opTotal, World.inc, publish_db, publish_redis, cacheStore_db,
        cacheStore_redis_ok s _ env todo hc hs hi, Redis.get_all_irrelevant] at hget ⊢
      rw [hrows, List.find?_append]
      by_cases hne : id = todo.ID
      · subst hne
        rw [Redis.get_set] at hget
        simp only [Option.some.injEq] at hget
        subst hget
        rw [hid, find_nextID]
        simp [← hid]
      · rw [Redis.get_set_ne _ _ _ _ _ hne] at hget
        rw [h.1 id t hget]
        rfl
    · intro d ttl hall
      simp [World.opTotal, World.inc, publish_redis,
        cacheStore_redis_ok s _ env todo hc hs hi] at hall

theorem GetTodo_CacheAgrees (s : TodoService) (w : World) (env : Env) (id : Int)
    (h : w.CacheAgrees) : (s.GetTodo w env id).1.CacheAgrees := by
  rcases GetTodo_redis s w env id with hr | ⟨t, ht, hr⟩
  · exact CacheAgrees_of_eq w _ h (GetTodo_db s w env id) hr
  · have hfound := GetByID_found w.db env id t ht
    have hid : t.ID = id := by simpa using List.find?_some hfound
    constructor
    · intro id2 t2 hget
      rw [GetTodo_db]
      rw [hr] at hget
      by_cases hne : id2 = t.ID
      · subst hne
        rw [Redis.get_set] at hget
        simp only [Option.some.injEq] at hget
        subst hget
        rw [hid]
        exact hfound
      · rw [Redis.get_set_ne _ _ _ _ _ hne] at hget
        exact h.1 id2 t2 hget
    · intro d ttl hall
      rw [GetTodo_db]
      rw [hr] at hall
      exact h.2 d ttl hall

theorem GetAllTodos_CacheAgrees (s : TodoService) (w : World) (env : Env)
    (h : w.CacheAgrees) : (s.GetAllTodos w env).1.CacheAgrees := by
  rcases GetAllTodos_redis s w env with hr | ⟨todos, ht, hr⟩
  · exact CacheAgrees_of_eq w _ h (GetAllTodos_db s w env) hr
  · constructor
    · intro id t hget
      rw [GetAllTodos_db]
      rw [hr, Redis.get_all_irrelevant] at hget
      exact h.1 id t hget
    · intro d ttl hall
      rw [GetAllTodos_db]
      rw [hr] at hall
      simp only [Option.some.injEq, Prod.mk.injEq] at hall
      rw [GetAll_eq] at ht
      cases hq : env.queryErr with
      | some e => simp [hq] at ht
      | none =>
        simp only [hq, Except.ok.injEq] at ht
        rw [ht, hall.1]

theorem UpdateTodo_CacheAgrees (s : TodoService) (w : World) (env : Env) (id : Int)
    (req : TodoUpdateRequest) (hc : s.cache = true) (h : w.CacheAgrees)
    (henv : env.CacheKeepsUp) : (s.UpdateTodo w env id req).1.CacheAgrees := by
  obtain ⟨hs, _, hi, _⟩ := henv
  cases hr : (SQLiteTodoRepository.Update w.db env id req).2 with
  | error e =>
    rw [UpdateTodo_error_world s w env id req e hr]
    refine CacheAgrees_of_eq w _ h (Update_not_some_db w.db env id req ?_) rfl
    intro u hu
    rw [hr] at hu
    cases hu
  | ok o =>
    cases o with
    | none =>
      rw [UpdateTodo_none_world s w env id req hr]
      refine CacheAgrees_of_eq w _ h (Update_not_some_db w.db env id req ?_) rfl
      intro u hu
      rw [hr] at hu
      cases hu
    | some u =>
      obtain ⟨hid, hfound, hother⟩ := Update_some w.db env id req u hr
      rw [UpdateTodo_ok_world s w env id req u hr]
      constructor
      · intro id2 t hget
        simp only [World.opTotal, World.inc, publish_db, publish_redis, cacheStore_db,
          cacheStore_redis_ok s _ env u hc hs hi, Redis.get_all_irrelevant] at hget ⊢
        by_cases hne : id2 = u.ID
        · subst hne
          rw [Redis.get_set] at hget
          simp only [Option.some.injEq] at hget
          subst hget
          rw [hid]
          exact hfound
        · rw [Redis.get_set_ne _ _ _ _ _ hne] at hget
          rw [hother id2 (by rw [← hid]; exact hne)]
          exact h.1 id2 t hget
      · intro d ttl hall
        simp [World.opTotal, World.inc, publish_redis,
          cacheStore_redis_ok s _ env u hc hs hi] at hall

theorem DeleteTodo_CacheAgrees (s : TodoService) (w : World) (env : Env) (id : Int)
    (hc : s.cache = true) (h : w.CacheAgrees) (henv : env.CacheKeepsUp) :
    (s.DeleteTodo w env id).1.CacheAgrees := by
  obtain ⟨_, hd, hi, _⟩ := henv
  cases hx : env.execErr with
  | some e =>
    rw [DeleteTodo_error_world s w env id e hx]
    exact CacheAgrees_of_eq w _ h rfl rfl
  | none =>
    have hredis : (s.DeleteTodo w env id).1.redis = { w.redis.del id with all := none } := by
      rw [DeleteTodo_ok_world s w env id hx]
      simp only [World.opTotal, World.inc, publish_redis, hc, if_true]
      unfold RedisCache.InvalidateTodos RedisCache.DeleteTodo
      simp [World.call, hd, hi]
    constructor
    · intro id2 t hget
      rw [DeleteTodo_db, Delete_eq, hx]
      rw [hredis, Redis.get_all_irrelevant] at hget
      by_cases hne : id2 = id
      · subst hne
        rw [Redis.get_del] at hget
        cases hget
      · rw [Redis.get_del_ne _ _ _ hne] at hget
        simp only
        rw [find_filter_ne _ _ _ hne]
        exact h.1 id2 t hget
    · intro d ttl hall
      rw [hredis] at hall
      simp at hall

/-- One operation of a service with a cache keeps the cache in agreement with the store. -/
theorem step_CacheAgrees (s : TodoService) (w : World) (env : Env) (op : Op)
    (hc : s.cache = true) (h : w.CacheAgrees) (henv : env.CacheKeepsUp) :
    (s.step w env op).1.CacheAgrees := by
  cases op with
  | create req => exact CreateTodo_CacheAgrees s w env req hc h henv
  | get id => exact GetTodo_CacheAgrees s w env id h
  | getAll => exact GetAllTodos_CacheAgrees s w env h
  | update id req => exact UpdateTodo_CacheAgrees s w env id req hc h henv
  | delete id => exact DeleteTodo_CacheAgrees s w env id hc h henv

theorem runWorld_CacheAgrees (s : TodoService) (ops : List (Env × Op)) (w : World)
    (hc : s.cache = true) (h : w.CacheAgrees) (henv : ∀ p ∈ ops, p.1.CacheKeepsUp) :
    (TodoService.runWorld s w ops).CacheAgrees := by
  induction ops generalizing w with
  | nil => exact h
  | cons p rest ih =>
    obtain ⟨env, op⟩ := p
    simp only [TodoService.runWorld]
    exact ih _ (step_CacheAgrees s w env op hc h (henv (env, op) (by simp)))
      (fun q hq => henv q (List.mem_cons_of_mem _ hq))

/-- The store an operation leaves depends on the store it finds, not on the service. -/
theorem step_db (s su : TodoService) (wc wu : World) (env : Env) (op : Op)
    (hdb : wc.db = wu.db) : (s.step wc env op).1.db = (su.step wu env op).1.db := by
  cases op <;>
    simp only [TodoService.step, CreateTodo_db, GetTodo_db, GetAllTodos_db, UpdateTodo_db,
      DeleteTodo_db, hdb]

theorem runWorld_db (s su : TodoService) (ops : List (Env × Op)) (wc wu : World)
    (hdb : wc.db = wu.db) :
    (TodoService.runWorld s wc ops).db = (TodoService.runWorld su wu ops).db := by
  induction ops generalizing wc wu with
  | nil => exact hdb
  | cons p rest ih =>
    obtain ⟨env, op⟩ := p
    simp only [TodoService.runWorld]
    exact ih _ _ (step_db s su wc wu env op hdb)

/-- A read by id through an agreeing cache returns what the service without a cache
returns on the same store, unless the query of the store fails by then. -/
theorem GetTodo_agrees (s su : TodoService) (wc wu : World) (env : Env) (id : Int)
    (hu : su.cache = false) (hdb : wc.db = wu.db) (h : wc.CacheAgrees) :
    (s.GetTodo wc env id).2 = (su.GetTodo wu env id).2 ∨
    ∃ e, env.queryErr = some e ∧ (su.GetTodo wu env id).2 = .error e := by
  rw [GetTodo_result s, GetTodo_result su, cacheLookup_none su wu env id (Or.inl hu)]
  cases hl : cacheLookup s wc env id with
  | none => left; simp only [hdb]
  | some t =>
    have hcache : s.cache = true ∧ env.cacheGetErr = none := by
      unfold cacheLookup at hl
      split_ifs at hl with hc
      exact hc
    have hget : wc.redis.get id = some t := by
      unfold cacheLookup at hl
      simpa [hcache.1, hcache.2] using hl
    have hfound := h.1 id t hget
    cases hq : env.queryErr with
    | none =>
      left
      simp only
      rw [← hdb, GetByID_of_found wc.db env id t hq hfound]
    | some e => exact Or.inr ⟨e, rfl, GetByID_fail wu.db env id e hq⟩

/-- A listing through an agreeing cache returns what the service without a cache returns
on the same store, unless the query of the store fails by then. -/
theorem GetAllTodos_agrees (s su : TodoService) (wc wu : World) (env : Env)
    (hu : su.cache = false) (hdb : wc.db = wu.db) (h : wc.CacheAgrees) :
    (s.GetAllTodos wc env).2 = (su.GetAllTodos wu env).2 ∨
    ∃ e, env.queryErr = some e ∧ (su.GetAllTodos wu env).2 = .error e := by
  have hnone : listLookup su wu env = none := by simp [listLookup, hu]
  rw [GetAllTodos_result s, GetAllTodos_result su, hnone]
  cases hl : listLookup s wc env with
  | none => left; simp only [hdb]
  | some l =>
    obtain ⟨_, _, ttl, ha⟩ := listLookup_some s wc env l hl
    have hall := h.2 (some l) ttl ha
    cases hq : env.queryErr with
    | none =>
      left
      simp only
      rw [← hdb, GetAll_eq, hq, hall]
    | some e =>
      refine Or.inr ⟨e, rfl, ?_⟩
      simp only
      rw [GetAll_eq, hq]

/-! ## Lemmas: listing an empty store -/

theorem listLookup_empty (s : TodoService) (w : World) (env : Env)
    (hrows : w.db.rows = []) (h : w.CacheAgrees) : listLookup s w env = none := by
  unfold listLookup
  split_ifs with hcond
  · cases ha : w.redis.all with
    | none => rfl
    | some data =>
      obtain ⟨d, ttl⟩ := data
      have hd := h.2 d ttl ha
      rw [allTodos_eq, if_pos hrows] at hd
      subst hd
      rfl
  · rfl

theorem GetTodos_counters (w : World) (env : Env) :
    ∃ ticks, (RedisCache.GetTodos w env).1.counters = w.counters ++ ticks ∧
      getAllCacheHit ∉ ticks := by
  cases hg : env.cacheGetErr with
  | some e => exact ⟨[], by simp [RedisCache.GetTodos, World.call, hg], by simp⟩
  | none =>
    cases ha : w.redis.all with
    | none =>
      exact ⟨[{ name := "cache_misses_total", labels := [] }],
        by simp [RedisCache.GetTodos, World.call, World.inc, hg, ha],
        by simp [getAllCacheHit]⟩
    | some data =>
      exact ⟨[{ name := "cache_hits_total", labels := [] }],
        by simp [RedisCache.GetTodos, World.call, World.inc, hg, ha],
        by simp [getAllCacheHit]⟩

theorem SetTodos_counters (w : World) (env : Env) (todos : TodoSlice) (ttl : Duration) :
    (RedisCache.SetTodos w env todos ttl).1.counters = w.counters := by
  unfold RedisCache.SetTodos
  cases env.cacheSetErr <;> rfl

/-- The listing of an empty store by a service whose cache agrees with the store: the
cache lookup, then the repository, then, when the query went through, the cache write
of the nil slice. -/
theorem GetAllTodos_empty_world (s : TodoService) (w : World) (env : Env)
    (hc : s.cache = true) (hrows : w.db.rows = []) (h : w.CacheAgrees) :
    s.GetAllTodos w env =
      match env.queryErr with
      | some e =>
        (((RedisCache.GetTodos w env).1.call .repoGetAll).opTotal "get_all" "error", .error e)
      | none =>
        ((RedisCache.SetTodos ((RedisCache.GetTodos w env).1.call .repoGetAll) env none
            (5 * Minute)).1.opTotal "get_all" "success", .ok none) := by
  rw [GetAllTodos_miss_world s w env (listLookup_empty s w env hrows h), GetAll_eq,
    allTodos_eq, if_pos hrows]
  cases env.queryErr <;> simp [hc]

theorem GetAllTodos_empty_calls (s : TodoService) (w : World) (env : Env)
    (hc : s.cache = true) (hrows : w.db.rows = []) (h : w.CacheAgrees) :
    (s.GetAllTodos w env).1.calls =
      w.calls ++ [.cacheGetTodos, .repoGetAll] ++
        (if env.queryErr = none then [.cacheSetTodos none (5 * Minute)] else []) := by
  rw [GetAllTodos_empty_world s w env hc hrows h]
  cases hq : env.queryErr with
  | some e =>
    simp [World.opTotal, World.inc, World.call, (GetTodos_db w env).2.2.2]
  | none =>
    simp [World.opTotal, World.inc, (SetTodos_world _ env none (5 * Minute)).2.2.1,
      World.call, (GetTodos_db w env).2.2.2]

theorem GetAllTodos_empty_counters (s : TodoService) (w : World) (env : Env)
    (hc : s.cache = true) (hrows : w.db.rows = []) (h : w.CacheAgrees) :
    ∃ ticks, (s.GetAllTodos w env).1.counters = w.counters ++ ticks ∧
      getAllCacheHit ∉ ticks := by
  obtain ⟨ticks, ht, hn⟩ := GetTodos_counters w env
  rw [GetAllTodos_empty_world s w env hc hrows h]
  cases hq : env.queryErr with
  | some e =>
    refine ⟨ticks ++ [{ name := "todo_operations_total", labels := ["get_all", "error"] }],
      ?_, ?_⟩
    · simp [World.opTotal, World.inc, World.call, ht]
    · rw [List.mem_append, not_or]
      exact ⟨hn, by simp [getAllCacheHit]⟩
  | none =>
    refine ⟨ticks ++ [{ name := "todo_operations_total", labels := ["get_all", "success"] }],
      ?_, ?_⟩
    · simp [World.opTotal, World.inc, SetTodos_counters, World.call, ht]
    · rw [List.mem_append, not_or]
      exact ⟨hn, by simp [getAllCacheHit]⟩

/-- Any number of listings of an empty store: each one calls the repository, none
records the outcome `cache_hit`. -/
theorem listings_of_empty_store (s : TodoService) (envs : List Env) (w : World)
    (hc : s.cache = true) (hrows : w.db.rows = []) (h : w.CacheAgrees) :
    (TodoService.runWorld s w (envs.map (fun e => (e, Op.getAll)))).calls.count .repoGetAll =
      w.calls.count .repoGetAll + envs.length ∧
    (TodoService.runWorld s w (envs.map (fun e => (e, Op.getAll)))).counters.count
        getAllCacheHit = w.counters.count getAllCacheHit := by
  induction envs generalizing w with
  | nil => exact ⟨rfl, rfl⟩
  | cons env rest ih =>
    simp only [List.map_cons, TodoService.runWorld, TodoService.step, List.length_cons]
    have hrows2 : (s.GetAllTodos w env).1.db.rows = [] := by rw [GetAllTodos_db, hrows]
    obtain ⟨ih1, ih2⟩ := ih (s.GetAllTodos w env).1 hrows2 (GetAllTodos_CacheAgrees s w env h)
    obtain ⟨ticks, ht, hn⟩ := GetAllTodos_empty_counters s w env hc hrows h
    rw [ih1, ih2, GetAllTodos_empty_calls s w env hc hrows h, ht]
    constructor
    · cases hq : env.queryErr <;> simp [List.count_append, List.count_cons] <;> omega
    · rw [List.count_append, List.count_eq_zero_of_not_mem hn, Nat.add_zero]

/-! # Claims C21 to C25 -/

/-- C21: for every todo, `CreateTodoCreatedEvent` and `CreateTodoUpdatedEvent` build an
event of type `"created"` and `"updated"` respectively, whose `TodoID` is the todo's ID
and whose payload is the whole todo; for every id, `CreateTodoDeletedEvent` builds an
event of type `"deleted"` with that `TodoID` and a payload that carries only the id (empty
task, not completed, zero timestamps).  Each event is stamped with the clock reading of
its construction, and no constructor gives a type outside created, updated, deleted. -/
theorem event_constructors (env : Env) (todo : Todo) (id : Int) :
    ((CreateTodoCreatedEvent env todo).Type_ = "created" ∧
     (CreateTodoCreatedEvent env todo).TodoID = todo.ID ∧
     (CreateTodoCreatedEvent env todo).Timestamp = env.eventNow ∧
     (CreateTodoCreatedEvent env todo).Payload = todo) ∧
    ((CreateTodoUpdatedEvent env todo).Type_ = "updated" ∧
     (CreateTodoUpdatedEvent env todo).TodoID = todo.ID ∧
     (CreateTodoUpdatedEvent env todo).Timestamp = env.eventNow ∧
     (CreateTodoUpdatedEvent env todo).Payload = todo) ∧
    ((CreateTodoDeletedEvent env id).Type_ = "deleted" ∧
     (CreateTodoDeletedEvent env id).TodoID = id ∧
     (CreateTodoDeletedEvent env id).Timestamp = env.eventNow ∧
     (CreateTodoDeletedEvent env id).Payload.ID = id ∧
     (CreateTodoDeletedEvent env id).Payload.Task = "" ∧
     (CreateTodoDeletedEvent env id).Payload.Completed = false ∧
     (CreateTodoDeletedEvent env id).Payload.CreatedAt = 0 ∧
     (CreateTodoDeletedEvent env id).Payload.UpdatedAt = 0) ∧
    ((CreateTodoCreatedEvent env todo).Type_ ∈ ["created", "updated", "deleted"] ∧
     (CreateTodoUpdatedEvent env todo).Type_ ∈ ["created", "updated", "deleted"] ∧
     (CreateTodoDeletedEvent env id).Type_ ∈ ["created", "updated", "deleted"]) := by
  refine ⟨⟨rfl, rfl, rfl, rfl⟩, ⟨rfl, rfl, rfl, rfl⟩, ⟨rfl, rfl, rfl, rfl, rfl, rfl, rfl, rfl⟩,
    ?_, ?_, ?_⟩ <;>
  simp [CreateTodoCreatedEvent, CreateTodoUpdatedEvent, CreateTodoDeletedEvent]

/-- C21, at concrete inputs: the events built for todo 1 `"buy milk"` and for id 7 at
clock reading 11. -/
theorem event_constructors_witness :
    CreateTodoCreatedEvent (Env.ok 10 11)
        { ID := 1, Task := "buy milk", Completed := false, CreatedAt := 10, UpdatedAt := 10 } =
      { Type_ := "created", TodoID := 1, Timestamp := 11,
        Payload := { ID := 1, Task := "buy milk", Completed := false,
                     CreatedAt := 10, UpdatedAt := 10 } } ∧
    (CreateTodoDeletedEvent (Env.ok 10 11) 7).Payload =
      { ID := 7, Task := "", Completed := false, CreatedAt := 0, UpdatedAt := 0 } ∧
    (CreateTodoDeletedEvent (Env.ok 10 11) 7).Type_ ∈ ["created", "updated", "deleted"] :=
  ⟨rfl, rfl,
   (event_constructors (Env.ok 10 11)
      { ID := 1, Task := "buy milk", Completed := false, CreatedAt := 10, UpdatedAt := 10 }
      7).2.2.2.2.2⟩

/-- C22: every response of the five todo handlers that carries an error body has a
non-empty `error`, and is either a validation failure, 400 `"Validation failed"` whose
details are the text of the binding or validation error found in the request body (never
empty for an error of the validator), or 400 `"Invalid todo ID"`, 404 `"Todo not found"`
or 500 with the fixed message of the handler, each without details; every other response
has a status below 400.  The body of an error response is fixed by the request and the
status: two runs of a handler on the same request that answer the same status of 400 or
more write the same body, whatever the services, the worlds and the environments (so
whatever the errors of the store, the cache and the publisher say). -/
theorem error_body_hides_cause (s s2 : TodoService) (w w2 : World) (env env2 : Env)
    (c : Context) :
    (ErrorShape (TodoHandler.CreateTodo s w env c).2 (createBodyError c.body)
        "Failed to create todo" ∧
     ErrorShape (TodoHandler.GetTodo s w env c).2 none "Failed to get todo" ∧
     ErrorShape (TodoHandler.GetAllTodos s w env c).2 none "Failed to get todos" ∧
     ErrorShape (TodoHandler.UpdateTodo s w env c).2 (updateBodyError c.body)
        "Failed to update todo" ∧
     ErrorShape (TodoHandler.DeleteTodo s w env c).2 none "Failed to delete todo") ∧
    ((∀ req err, validateCreate req = some err → err ≠ "") ∧
     (∀ req err, validateUpdate req = some err → err ≠ "")) ∧
    (((TodoHandler.CreateTodo s w env c).2.status =
          (TodoHandler.CreateTodo s2 w2 env2 c).2.status →
        400 ≤ (TodoHandler.CreateTodo s w env c).2.status →
        (TodoHandler.CreateTodo s w env c).2.body =
          (TodoHandler.CreateTodo s2 w2 env2 c).2.body) ∧
     ((TodoHandler.GetTodo s w env c).2.status =
          (TodoHandler.GetTodo s2 w2 env2 c).2.status →
        400 ≤ (TodoHandler.GetTodo s w env c).2.status →
        (TodoHandler.GetTodo s w env c).2.body =
          (TodoHandler.GetTodo s2 w2 env2 c).2.body) ∧
     ((TodoHandler.GetAllTodos s w env c).2.status =
          (TodoHandler.GetAllTodos s2 w2 env2 c).2.status →
        400 ≤ (TodoHandler.GetAllTodos s w env c).2.status →
        (TodoHandler.GetAllTodos s w env c).2.body =
          (TodoHandler.GetAllTodos s2 w2 env2 c).2.body) ∧
     ((TodoHandler.UpdateTodo s w env c).2.status =
          (TodoHandler.UpdateTodo s2 w2 env2 c).2.status →
        400 ≤ (TodoHandler.UpdateTodo s w env c).2.status →
        (TodoHandler.UpdateTodo s w env c).2.body =
          (TodoHandler.UpdateTodo s2 w2 env2 c).2.body) ∧
     ((TodoHandler.DeleteTodo s w env c).2.status =
          (TodoHandler.DeleteTodo s2 w2 env2 c).2.status →
        400 ≤ (TodoHandler.DeleteTodo s w env c).2.status →
        (TodoHandler.DeleteTodo s w env c).2.body =
          (TodoHandler.DeleteTodo s2 w2 env2 c).2.body)) := by
  refine ⟨⟨?_, ?_, ?_, ?_, ?_⟩, ⟨validateCreate_message, validateUpdate_message⟩,
    ?_, ?_, ?_, ?_, ?_⟩
  · cases hb : ShouldBindJSONCreate c.body with
    | error err =>
      simp [ErrorShape, createBodyError, TodoHandler.CreateTodo,
        TodoHandler.handleValidationError, hb]
    | ok req =>
      cases hv : validateCreate req with
      | some err =>
        simp [ErrorShape, createBodyError, TodoHandler.CreateTodo,
          TodoHandler.handleValidationError, hb, hv]
      | none =>
        cases hr : s.CreateTodo w env req with
        | mk w1 r =>
          cases r <;>
            simp [ErrorShape, createBodyError, TodoHandler.CreateTodo,
              TodoHandler.handleError, hb, hv, hr]
  · cases hp : ParseInt c.id with
    | error e => simp [ErrorShape, TodoHandler.GetTodo, TodoHandler.handleError, hp]
    | ok id =>
      cases hr : s.GetTodo w env id with
      | mk w1 r =>
        rcases r with e | _ | t <;>
          simp [ErrorShape, TodoHandler.GetTodo, TodoHandler.handleError, hp, hr]
  · cases hr : s.GetAllTodos w env with
    | mk w1 r =>
      cases r <;> simp [ErrorShape, TodoHandler.GetAllTodos, TodoHandler.handleError, hr]
  · cases hp : ParseInt c.id with
    | error e => simp [ErrorShape, TodoHandler.UpdateTodo, TodoHandler.handleError, hp]
    | ok id =>
      cases hb : ShouldBindJSONUpdate c.body with
      | error err =>
        simp [ErrorShape, updateBodyError, TodoHandler.UpdateTodo,
          TodoHandler.handleValidationError, hp, hb]
      | ok req =>
        cases hv : validateUpdate req with
        | some err =>
          simp [ErrorShape, updateBodyError, TodoHandler.UpdateTodo,
            TodoHandler.handleValidationError, hp, hb, hv]
        | none =>
          cases hr : s.UpdateTodo w env id req with
          | mk w1 r =>
            rcases r with e | _ | t <;>
              simp [ErrorShape, updateBodyError, TodoHandler.UpdateTodo,
                TodoHandler.handleError, hp, hb, hv, hr]
  · cases hp : ParseInt c.id with
    | error e => simp [ErrorShape, TodoHandler.DeleteTodo, TodoHandler.handleError, hp]
    | ok id =>
      cases hr : s.DeleteTodo w env id with
      | mk w1 r =>
        cases r <;> simp [ErrorShape, TodoHandler.DeleteTodo, TodoHandler.handleError, hp, hr]
  · cases hb : ShouldBindJSONCreate c.body with
    | error err => simp [TodoHandler.CreateTodo, TodoHandler.handleValidationError, hb]
    | ok req =>
      cases hv : validateCreate req with
      | some err => simp [TodoHandler.CreateTodo, TodoHandler.handleValidationError, hb, hv]
      | none =>
        cases hr : s.CreateTodo w env req with
        | mk w1 r =>
          cases hr2 : s2.CreateTodo w2 env2 req with
          | mk w3 r2 =>
            cases r <;> cases r2 <;>
              simp [TodoHandler.CreateTodo, TodoHandler.handleError, hb, hv, hr, hr2]
  · cases hp : ParseInt c.id with
    | error e => simp [TodoHandler.GetTodo, TodoHandler.handleError, hp]
    | ok id =>
      cases hr : s.GetTodo w env id with
      | mk w1 r =>
        cases hr2 : s2.GetTodo w2 env2 id with
        | mk w3 r2 =>
          rcases r with e | _ | t <;> rcases r2 with e2 | _ | t2 <;>
            simp [TodoHandler.GetTodo, TodoHandler.handleError, hp, hr, hr2]
  · cases hr : s.GetAllTodos w env with
    | mk w1 r =>
      cases hr2 : s2.GetAllTodos w2 env2 with
      | mk w3 r2 =>
        cases r <;> cases r2 <;>
          simp [TodoHandler.GetAllTodos, TodoHandler.handleError, hr, hr2]
  · cases hp : ParseInt c.id with
    | error e => simp [TodoHandler.UpdateTodo, TodoHandler.handleError, hp]
    | ok id =>
      cases hb : ShouldBindJSONUpdate c.body with
      | error err =>
        simp [TodoHandler.UpdateTodo, TodoHandler.handleValidationError, hp, hb]
      | ok req =>
        cases hv : validateUpdate req with
        | some err =>
          simp [TodoHandler.UpdateTodo, TodoHandler.handleValidationError, hp, hb, hv]
        | none =>
          cases hr : s.UpdateTodo w env id req with
          | mk w1 r =>
            cases hr2 : s2.UpdateTodo w2 env2 id req with
            | mk w3 r2 =>
              rcases r with e | _ | t <;> rcases r2 with e2 | _ | t2 <;>
                simp [TodoHandler.UpdateTodo, TodoHandler.handleError, hp, hb, hv, hr, hr2]
  · cases hp : ParseInt c.id with
    | error e => simp [TodoHandler.DeleteTodo, TodoHandler.handleError, hp]
    | ok id =>
      cases hr : s.DeleteTodo w env id with
      | mk w1 r =>
        cases hr2 : s2.DeleteTodo w2 env2 id with
        | mk w3 r2 =>
          cases r <;> cases r2 <;>
            simp [TodoHandler.DeleteTodo, TodoHandler.handleError, hp, hr, hr2]

/-- C22, at concrete inputs: DELETE of id 1 answered 500 twice, once after `db.Exec` failed
with `"database is locked"` and once after it failed with `"disk I/O error"`, on different
services and worlds, writes the same body; and the 500 of a failed create has the shape
of an error response. -/
theorem error_body_hides_cause_witness :
    (TodoHandler.DeleteTodo { cache := true, producer := true } createdWorld
        { Env.ok 20 21 with execErr := some "database is locked" }
        (sampleContext "DELETE" "1" (.invalid "EOF"))).2 =
      { status := 500, body := .error { Error := "Failed to delete todo", Details := "" } } ∧
    (TodoHandler.DeleteTodo { cache := true, producer := true } createdWorld
        { Env.ok 20 21 with execErr := some "database is locked" }
        (sampleContext "DELETE" "1" (.invalid "EOF"))).2.body =
      (TodoHandler.DeleteTodo { cache := false, producer := false } emptyWorld
        { Env.ok 30 31 with execErr := some "disk I/O error" }
        (sampleContext "DELETE" "1" (.invalid "EOF"))).2.body ∧
    ErrorShape
      (TodoHandler.CreateTodo { cache := true, producer := true } emptyWorld
        { Env.ok 20 21 with execErr := some "database is locked" }
        (sampleContext "POST" "" (.object (.value "buy milk") .missing))).2
      (createBodyError (.object (.value "buy milk") .missing)) "Failed to create todo" :=
  ⟨rfl,
   (error_body_hides_cause { cache := true, producer := true }
      { cache := false, producer := false } createdWorld emptyWorld
      { Env.ok 20 21 with execErr := some "database is locked" }
      { Env.ok 30 31 with execErr := some "disk I/O error" }
      (sampleContext "DELETE" "1" (.invalid "EOF"))).2.2.2.2.2.2 rfl
      (Nat.le_of_ble_eq_true rfl),
   (error_body_hides_cause { cache := true, producer := true }
      { cache := true, producer := true } emptyWorld emptyWorld
      { Env.ok 20 21 with execErr := some "database is locked" }
      { Env.ok 20 21 with execErr := some "database is locked" }
      (sampleContext "POST" "" (.object (.value "buy milk") .missing))).1.1⟩

/-- C23: a service with a cache runs any sequence of `CreateTodo`, `GetTodo`,
`GetAllTodos`, `UpdateTodo` and `DeleteTodo` from a world whose cache agrees with the
store (an empty cache does), in environments where no cache write, cache delete or list
invalidation fails and `LastInsertId` reports every insert; cache lookups, the publisher,
the queries and `db.Exec` may fail, and entries do not expire.  In the world the sequence
leaves: every cached per-id entry is the row the store holds under that id (so the same
ID, Task and Completed); an id without a row has no entry; whatever the list key holds,
nil included, is the slice `GetAll` returns; and a read by id or a listing returns
exactly what a service without a cache returns after the same sequence, unless the query
of the store fails at that read, in which case the service without a cache returns the
storage error. -/
theorem cache_agrees_with_store (s su : TodoService) (w : World) (ops : List (Env × Op))
    (hc : s.cache = true) (hu : su.cache = false) (h0 : w.CacheAgrees)
    (henv : ∀ p ∈ ops, p.1.CacheKeepsUp) :
    (∀ id t, (TodoService.runWorld s w ops).redis.get id = some t →
      t.ID = id ∧
      (TodoService.runWorld s w ops).db.rows.find? (fun x => x.ID == id) = some t) ∧
    (∀ id, (∀ x ∈ (TodoService.runWorld s w ops).db.rows, x.ID ≠ id) →
      (TodoService.runWorld s w ops).redis.get id = none) ∧
    (∀ d ttl, (TodoService.runWorld s w ops).redis.all = some (d, ttl) →
      ∀ env, env.queryErr = none →
        SQLiteTodoRepository.GetAll (TodoService.runWorld s w ops).db env = .ok d) ∧
    (∀ env id,
      (s.GetTodo (TodoService.runWorld s w ops) env id).2 =
          (su.GetTodo (TodoService.runWorld su w ops) env id).2 ∨
      ∃ e, env.queryErr = some e ∧
        (su.GetTodo (TodoService.runWorld su w ops) env id).2 = .error e) ∧
    (∀ env,
      (s.GetAllTodos (TodoService.runWorld s w ops) env).2 =
          (su.GetAllTodos (TodoService.runWorld su w ops) env).2 ∨
      ∃ e, env.queryErr = some e ∧
        (su.GetAllTodos (TodoService.runWorld su w ops) env).2 = .error e) := by
  have hag := runWorld_CacheAgrees s ops w hc h0 henv
  have hdb := runWorld_db s su ops w w rfl
  refine ⟨fun id t hget => ?_, fun id habs => ?_, fun d ttl hall env hq => ?_,
    fun env id => GetTodo_agrees s su _ _ env id hu hdb hag,
    fun env => GetAllTodos_agrees s su _ _ env hu hdb hag⟩
  · have hfound := hag.1 id t hget
    exact ⟨by simpa using List.find?_some hfound, hfound⟩
  · cases hget : (TodoService.runWorld s w ops).redis.get id with
    | none => rfl
    | some t =>
      have hfound := hag.1 id t hget
      have hid : t.ID = id := by simpa using List.find?_some hfound
      exact absurd hid (habs t (List.mem_of_find?_eq_some hfound))
  · rw [GetAll_eq, hq, hag.2 d ttl hall]

/-- C23, at a concrete input: from the empty world a service with a cache and a publisher
creates a todo, reads it, lists, updates it while the publish fails, lists again while
the cache lookup fails, deletes it and lists once more.  Id 1, having no row by then, has
no entry, and the read of id 1 that follows agrees with the service without a cache. -/
theorem cache_agrees_with_store_witness :
    emptyWorld.CacheAgrees ∧
    (TodoService.runWorld { cache := true, producer := true } emptyWorld
        [(Env.ok 10 11, .create { Task := "buy milk" }),
         (Env.ok 12 13, .get 1),
         (Env.ok 14 15, .getAll),
         ({ Env.ok 20 21 with publishErr := some "broker unreachable" },
          .update 1 { Task := none, Completed := some true }),
         ({ Env.ok 22 23 with cacheGetErr := some "i/o timeout" }, .getAll),
         (Env.ok 30 31, .delete 1),
         (Env.ok 32 33, .getAll)]).redis.get 1 = none ∧
    ((TodoService.GetTodo { cache := true, producer := true }
        (TodoService.runWorld { cache := true, producer := true } emptyWorld
          [(Env.ok 10 11, .create { Task := "buy milk" }),
           (Env.ok 12 13, .get 1),
           (Env.ok 14 15, .getAll),
           ({ Env.ok 20 21 with publishErr := some "broker unreachable" },
            .update 1 { Task := none, Completed := some true }),
           ({ Env.ok 22 23 with cacheGetErr := some "i/o timeout" }, .getAll),
           (Env.ok 30 31, .delete 1),
           (Env.ok 32 33, .getAll)]) (Env.ok 40 41) 1).2 =
      (TodoService.GetTodo { cache := false, producer := false }
        (TodoService.runWorld { cache := false, producer := false } emptyWorld
          [(Env.ok 10 11, .create { Task := "buy milk" }),
           (Env.ok 12 13, .get 1),
           (Env.ok 14 15, .getAll),
           ({ Env.ok 20 21 with publishErr := some "broker unreachable" },
            .update 1 { Task := none, Completed := some true }),
           ({ Env.ok 22 23 with cacheGetErr := some "i/o timeout" }, .getAll),
           (Env.ok 30 31, .delete 1),
           (Env.ok 32 33, .getAll)]) (Env.ok 40 41) 1).2 ∨
     ∃ e, (Env.ok 40 41).queryErr = some e ∧
       (TodoService.GetTodo { cache := false, producer := false }
        (TodoService.runWorld { cache := false, producer := false } emptyWorld
          [(Env.ok 10 11, .create { Task := "buy milk" }),
           (Env.ok 12 13, .get 1),
           (Env.ok 14 15, .getAll),
           ({ Env.ok 20 21 with publishErr := some "broker unreachable" },
            .update 1 { Task := none, Completed := some true }),
           ({ Env.ok 22 23 with cacheGetErr := some "i/o timeout" }, .getAll),
           (Env.ok 30 31, .delete 1),
           (Env.ok 32 33, .getAll)]) (Env.ok 40 41) 1).2 = .error e) :=
  have h := cache_agrees_with_store { cache := true, producer := true }
    { cache := false, producer := false } emptyWorld
    [(Env.ok 10 11, .create { Task := "buy milk" }),
     (Env.ok 12 13, .get 1),
     (Env.ok 14 15, .getAll),
     ({ Env.ok 20 21 with publishErr := some "broker unreachable" },
      .update 1 { Task := none, Completed := some true }),
     ({ Env.ok 22 23 with cacheGetErr := some "i/o timeout" }, .getAll),
     (Env.ok 30 31, .delete 1),
     (Env.ok 32 33, .getAll)] rfl rfl CacheAgrees_empty
    (by
      intro p hp
      simp only [List.mem_cons, List.mem_singleton, List.not_mem_nil, or_false] at hp
      rcases hp with h | h | h | h | h | h | h <;> subst h <;>
        exact ⟨rfl, rfl, rfl, rfl⟩)
  ⟨CacheAgrees_empty, h.2.1 1 (by intro x hx; cases hx), h.2.2.2.1 (Env.ok 40 41) 1⟩

/-- C24: for every id that has a row and every update request, when the read and the
write of `Update` go through, `Update` returns a todo, the `GetByID` that follows (its
query going through) returns a todo as well, and the two have the same ID, Task,
Completed, CreatedAt and UpdatedAt; the ID is the id asked for. -/
theorem update_agrees_with_read (db : DB) (env env2 : Env) (id : Int)
    (req : TodoUpdateRequest) (hex : ∃ t ∈ db.rows, t.ID = id)
    (hq : env.queryErr = none) (hx : env.execErr = none) (hq2 : env2.queryErr = none) :
    ∃ u v, (SQLiteTodoRepository.Update db env id req).2 = .ok (some u) ∧
      SQLiteTodoRepository.GetByID (SQLiteTodoRepository.Update db env id req).1 env2 id =
        .ok (some v) ∧
      u.ID = id ∧ u.ID = v.ID ∧ u.Task = v.Task ∧ u.Completed = v.Completed ∧
      u.CreatedAt = v.CreatedAt ∧ u.UpdatedAt = v.UpdatedAt := by
  obtain ⟨t0, ht0, hid0⟩ := hex
  cases hf : db.rows.find? (fun x => x.ID == id) with
  | none =>
    have := List.find?_eq_none.mp hf t0 ht0
    simp [hid0] at this
  | some t =>
    have hu : (SQLiteTodoRepository.Update db env id req).2 =
        .ok (some { t with Task := req.Task.getD t.Task,
                           Completed := req.Completed.getD t.Completed,
                           UpdatedAt := env.now }) := by
      rw [Update_found db env id req t hf hq]
      simp only [DB.execUpdate, hx]
    obtain ⟨hid, hfound, _⟩ := Update_some db env id req _ hu
    exact ⟨_, _, hu, GetByID_of_found _ env2 id _ hq2 hfound, hid, rfl, rfl, rfl, rfl, rfl⟩

/-- C24, at a concrete input: todo 1 of the two-todo store is completed at instant 30 and
read back. -/
theorem update_agrees_with_read_witness :
    (∃ t ∈ twoTodoDB.rows, t.ID = 1) ∧
    ∃ u v,
      (SQLiteTodoRepository.Update twoTodoDB (Env.ok 30 31) 1
          { Task := none, Completed := some true }).2 = .ok (some u) ∧
      SQLiteTodoRepository.GetByID
          (SQLiteTodoRepository.Update twoTodoDB (Env.ok 30 31) 1
            { Task := none, Completed := some true }).1 (Env.ok 40 41) 1 = .ok (some v) ∧
      u.ID = 1 ∧ u.ID = v.ID ∧ u.Task = v.Task ∧ u.Completed = v.Completed ∧
      u.CreatedAt = v.CreatedAt ∧ u.UpdatedAt = v.UpdatedAt :=
  ⟨⟨_, List.mem_cons_self _ _, rfl⟩,
   update_agrees_with_read twoTodoDB (Env.ok 30 31) (Env.ok 40 41) 1
     { Task := none, Completed := some true } ⟨_, List.mem_cons_self _ _, rfl⟩ rfl rfl rfl⟩

/-- C25: the store holds no todos, the service has a cache and the cache agrees with the
store (as it does in every world the service reaches with a working cache).  Then
`GetAll`, its query going through, returns the nil slice, and so does `GetAllTodos`.
Every listing issues the cache lookup, then the repository call, then (the query having
gone through) the cache write of the nil slice, and records no `cache_hit` outcome; it
leaves the store empty and the cache in agreement, so the same holds of the next listing.
With the cache write going through, the list key holds the nil slice for 5 minutes; a
later lookup reads it back as nil (the cache layer counts a hit) and the service treats it
as a miss.  Hence any number of listings in a row make that many repository calls and
record no `cache_hit` outcome. -/
theorem empty_list_is_never_a_hit (s : TodoService) (w : World) (env : Env)
    (hc : s.cache = true) (hrows : w.db.rows = []) (h : w.CacheAgrees) :
    (env.queryErr = none →
      SQLiteTodoRepository.GetAll w.db env = .ok none ∧
      (s.GetAllTodos w env).2 = .ok none) ∧
    (s.GetAllTodos w env).1.calls =
      w.calls ++ [.cacheGetTodos, .repoGetAll] ++
        (if env.queryErr = none then [.cacheSetTodos none (5 * Minute)] else []) ∧
    (∃ ticks, (s.GetAllTodos w env).1.counters = w.counters ++ ticks ∧
      getAllCacheHit ∉ ticks) ∧
    ((s.GetAllTodos w env).1.db.rows = [] ∧ (s.GetAllTodos w env).1.CacheAgrees) ∧
    (env.queryErr = none → env.cacheSetErr = none →
      (s.GetAllTodos w env).1.redis.all = some (none, 5 * Minute) ∧
      ∀ env2, env2.cacheGetErr = none →
        RedisCache.GetTodos (s.GetAllTodos w env).1 env2 =
          (((s.GetAllTodos w env).1.call .cacheGetTodos).inc "cache_hits_total" [],
           .ok none) ∧
        listLookup s (s.GetAllTodos w env).1 env2 = none) ∧
    (∀ envs : List Env,
      (TodoService.runWorld s w (envs.map (fun e => (e, Op.getAll)))).calls.count
          .repoGetAll = w.calls.count .repoGetAll + envs.length ∧
      (TodoService.runWorld s w (envs.map (fun e => (e, Op.getAll)))).counters.count
          getAllCacheHit = w.counters.count getAllCacheHit) := by
  have hrows2 : (s.GetAllTodos w env).1.db.rows = [] := by rw [GetAllTodos_db, hrows]
  have hag2 := GetAllTodos_CacheAgrees s w env h
  refine ⟨fun hq => ?_, GetAllTodos_empty_calls s w env hc hrows h,
    GetAllTodos_empty_counters s w env hc hrows h, ⟨hrows2, hag2⟩, fun hq hs => ?_,
    fun envs => listings_of_empty_store s envs w hc hrows h⟩
  · constructor
    · rw [GetAll_eq, hq, allTodos_eq, if_pos hrows]
    · rw [GetAllTodos_empty_world s w env hc hrows h, hq]
  · have hall : (s.GetAllTodos w env).1.redis.all = some (none, 5 * Minute) := by
      rw [GetAllTodos_empty_world s w env hc hrows h, hq]
      simp [World.opTotal, World.inc, (SetTodos_world _ env none (5 * Minute)).2.2.2, hs]
    refine ⟨hall, fun env2 hg => ⟨?_, listLookup_empty s _ env2 hrows2 hag2⟩⟩
    unfold RedisCache.GetTodos
    simp only [World.call, hg, hall]

/-- C25, at a concrete input: two listings of the empty world by a service with a cache
and a publisher.  The first finds no key, the second finds the cached nil slice; both
call the repository and both return nil, and the second records the cache layer's hit
and the outcome `success`. -/
theorem empty_list_is_never_a_hit_witness :
    emptyWorld.db.rows = [] ∧ emptyWorld.CacheAgrees ∧
    (TodoService.GetAllTodos { cache := true, producer := true } emptyWorld (Env.ok 10 11)).2 =
      .ok none ∧
    (TodoService.GetAllTodos { cache := true, producer := true } emptyWorld
        (Env.ok 10 11)).1.redis.all = some (none, 5 * Minute) ∧
    (TodoService.runWorld { cache := true, producer := true } emptyWorld
        [(Env.ok 10 11, .getAll), (Env.ok 20 21, .getAll)]).calls =
      [.cacheGetTodos, .repoGetAll, .cacheSetTodos none (5 * Minute),
       .cacheGetTodos, .repoGetAll, .cacheSetTodos none (5 * Minute)] ∧
    (TodoService.runWorld { cache := true, producer := true } emptyWorld
        [(Env.ok 10 11, .getAll), (Env.ok 20 21, .getAll)]).counters =
      [{ name := "cache_misses_total", labels := [] },
       { name := "todo_operations_total", labels := ["get_all", "success"] },
       { name := "cache_hits_total", labels := [] },
       { name := "todo_operations_total", labels := ["get_all", "success"] }] ∧
    (TodoService.runWorld { cache := true, producer := true } emptyWorld
        ([Env.ok 10 11, Env.ok 20 21].map (fun e => (e, Op.getAll)))).calls.count
        .repoGetAll = emptyWorld.calls.count .repoGetAll + [Env.ok 10 11, Env.ok 20 21].length :=
  have h := empty_list_is_never_a_hit { cache := true, producer := true } emptyWorld
    (Env.ok 10 11) rfl rfl CacheAgrees_empty
  ⟨rfl, CacheAgrees_empty, (h.1 rfl).2, (h.2.2.2.2.1 rfl rfl).1, rfl, rfl,
   (h.2.2.2.2.2 [Env.ok 10 11, Env.ok 20 21]).1⟩

end TodoApp
